import Mathlib

/-! OpenTESArena: the level decoder of `WorldData::WorldData(mif, inf)`.

A shallow embedding of `src/World/WorldData.cpp` (the voxel decoding loop,
lines 57-220, and the trigger loop, lines 222-247) together with the records of
`src/Assets/MIFFile.h` it reads, of `GameData::loadFromMIF`
(`src/Game/GameData.cpp`) and of the button handlers of
`src/Interface/OptionsPanel.cpp`.

Conventions of the embedding.

* `uint8_t`, `uint16_t` and `int` values are natural numbers; a narrowing
  conversion to `uint8_t` is written as an explicit `% 256`.
* `char` is the signed 8-bit type of the x86 builds of the game: the voxel
  array holds integers from -128 to 127, and `toChar` is the conversion of an
  `int` to it.
* `double` values are rationals.  Every floating point operation of the decoder
  is a division of a small integer by `ARENA_UNITS` or a subtraction from `1.0`;
  with `ARENA_UNITS = 128` these are exact in binary64.  The `double` options
  of `Options` are a number or NaN (`Double`), and the `int` additions of the
  FPS handlers wrap around at the ends of the 32-bit range (`wrapInt`).
* Reading past the end of a byte array is undefined in C++; here it is `none`.
-/

namespace OpenTESArena

/-! ## Records of `MIFFile.h` -/

/-- Modelled from the spec: the four constants `MIFFile::DRY_CHASM`,
`MIFFile::WET_CHASM`, `MIFFile::LAVA_CHASM` and `MIFFile::ARENA_UNITS` are
declared in `MIFFile.h` and defined in a file that is not available; the spec
only calls them "three reserved identifier values" and "a fixed division
constant", so they are parameters of the decoder. -/
structure MIFConstants where
  DRY_CHASM : Nat
  WET_CHASM : Nat
  LAVA_CHASM : Nat
  ARENA_UNITS : ℚ
deriving DecidableEq

/-- The record `MIFFile::Level::Lock`. -/
structure Lock where
  x : Int
  y : Int
  lockLevel : Int
deriving DecidableEq

/-- The record `MIFFile::Level::Trigger`. -/
structure Trigger where
  x : Int
  y : Int
  textIndex : Int
  soundIndex : Int
deriving DecidableEq

/-- The record `MIFFile::Level`; the byte vectors are lists of bytes. -/
structure Level where
  name : String := ""
  info : String := ""
  numf : Int := 0
  flor : List Nat := []
  loot : List Nat := []
  map1 : List Nat := []
  map2 : List Nat := []
  targ : List Nat := []
  lock : List Lock := []
  trig : List Trigger := []
deriving DecidableEq

/-- The private members of `MIFFile`, read through its getters. -/
structure MIFFile where
  width : Nat
  depth : Nat
  startingLevelIndex : Int := 0
  startPoints : List (ℚ × ℚ) := []
  levels : List Level := []
deriving DecidableEq

/-- Modelled from the spec: `INFFile::TextData` is not available; a text entry
is "`{text, singleDisplay}`", read as `textData.text` and
`textData.displayedOnce` (WorldData.cpp:240). -/
structure TextData where
  text : String
  displayedOnce : Bool
deriving DecidableEq

/-- Modelled from the spec: `INFFile` is not available; it is "a paired external
configuration resource supplying: ceiling height (in file units), a text-entry
lookup by index returning `{text, singleDisplay}` or "not text", and a
sound-identifier lookup by index".  `ceilingHeight` is
`inf.getCeiling().height`; `texts` and `sounds` are the two tables.
`soundOnMiss` says what `getSound` does for an index the sound table lacks:
`none` when the call does not return (an exception or undefined behaviour),
`some s` when it returns the string `s`. -/
structure INFFile where
  ceilingHeight : Int
  texts : List (Int × TextData) := []
  sounds : List (Int × String) := []
  soundOnMiss : Option String := none
deriving DecidableEq

/-! ## Voxel data and the voxel grid -/

/-- Modelled from the spec: `VoxelData` is not available.  A descriptor has
"one to three texture references (e.g. side/bottom/top), a vertical offset, a
height extent, and top/bottom texture-coordinate bounds".  A value of this type
records which constructor call built the descriptor and with which arguments:
`VoxelData(id)`, `VoxelData(sideID, floorID, ceilingID)` and
`VoxelData(sideID, floorID, ceilingID, yOffset, ySize, topV, bottomV)`. -/
inductive VoxelData where
  | ofId (id : Nat)
  | ofIds (sideID floorID ceilingID : Nat)
  | full (sideID floorID ceilingID : Nat) (yOffset ySize topV bottomV : ℚ)
deriving DecidableEq

/-- The texture references a descriptor was built from, in argument order. -/
def VoxelData.textureRefs : VoxelData → List Nat
  | .ofId id => [id]
  | .ofIds s f c => [s, f, c]
  | .full s f c _ _ _ _ => [s, f, c]

/-- Whether a descriptor was built by the seven-argument constructor, the one
the two wall lambdas call (WorldData.cpp:164-166 and 203-205). -/
def VoxelData.isFull : VoxelData → Bool
  | .full _ _ _ _ _ _ _ => true
  | _ => false

/-- The voxel grid: its dimensions, the `char` array of voxel IDs and the
table of voxel data the IDs refer to. -/
structure VoxelGrid where
  width : Nat
  height : Nat
  depth : Nat
  voxels : List Int
  voxelData : List VoxelData
deriving DecidableEq

/-- Modelled from the spec: the constructor `VoxelGrid(width, height, depth)`
is not available; a new grid is all air (every ID is 0) and has an empty
voxel data table. -/
def VoxelGrid.create (width height depth : Nat) : VoxelGrid :=
  { width := width, height := height, depth := depth,
    voxels := List.replicate (width * height * depth) 0,
    voxelData := [] }

/-- Modelled from the spec: `VoxelGrid::addVoxelData` is not available; it
"appends the new descriptor to the shared metadata table" and returns the
index of the appended descriptor. -/
def VoxelGrid.addVoxelData (g : VoxelGrid) (d : VoxelData) : Nat × VoxelGrid :=
  (g.voxelData.length, { g with voxelData := g.voxelData ++ [d] })

/-- The linear index of voxel `(x, y, z)` used by the lambda `setVoxel`. -/
def voxelIndex (g : VoxelGrid) (x y z : Nat) : Nat :=
  x + (y * g.width) + (z * g.width * g.height)

/-- The conversion of an `int` ID to `char` in the assignment
`voxels[...] = id` (WorldData.cpp:63-65): `char` is signed and eight bits wide,
so the value kept is the one in `-128 .. 127` that is congruent to `id` modulo
256. -/
def toChar (id : Nat) : Int :=
  ((id : Int) + 128) % 256 - 128

/-- The lambda `setVoxel` (WorldData.cpp:61-66).  The array element is a
`char`, so the `int` ID is converted by `toChar`. -/
def setVoxel (g : VoxelGrid) (x y z id : Nat) : VoxelGrid :=
  { g with voxels := g.voxels.set (voxelIndex g x y z) (toChar id) }

/-- Reading a voxel ID back from the grid. -/
def VoxelGrid.getVoxel (g : VoxelGrid) (x y z : Nat) : Option Int :=
  g.voxels[voxelIndex g x y z]?

/-! ## The two `std::unordered_map<uint16_t, int>` mappings -/

/-- An `std::unordered_map<uint16_t, int>` as an association list. -/
abbrev DataMappings := List (Nat × Nat)

/-- The member `find`: the mapped value, or `none` for `end()`. -/
def DataMappings.find (m : DataMappings) (key : Nat) : Option Nat :=
  m.lookup key

/-- The member `insert` followed by `.first->second`: an existing entry is
kept, otherwise the pair is added; the value then stored under the key is
returned. -/
def DataMappings.insert (m : DataMappings) (key value : Nat) : DataMappings × Nat :=
  match m.find key with
  | some v => (m, v)
  | none => ((key, value) :: m, value)

/-! ## Reading 16-bit words -/

/-- Modelled from the spec: `Bytes::getLE16` is not available; it reads "one
little-endian 16-bit word", the low byte first.  `none` stands for a read
outside the array. -/
def getLE16 (buf : List Nat) (i : Nat) : Option Nat :=
  match buf[i]?, buf[i + 1]? with
  | some lo, some hi => some (lo % 256 + 256 * (hi % 256))
  | _, _ => none

/-! ## The decoding loop -/

/-- The local state of the constructor while the double loop runs. -/
structure DecodeState where
  voxelGrid : VoxelGrid
  floorIndex : Nat
  map1Index : Nat
  floorDataMappings : DataMappings
  wallDataMappings : DataMappings
deriving DecidableEq

/-- The lambda `getNextFloorVoxel` (WorldData.cpp:77-82). -/
def getNextFloorVoxel (level : Level) (s : DecodeState) : Option (Nat × DecodeState) :=
  match getLE16 level.flor s.floorIndex with
  | some voxel => some (voxel, { s with floorIndex := s.floorIndex + 2 })
  | none => none

/-- The lambda `getNextMap1Voxel` (WorldData.cpp:84-89). -/
def getNextMap1Voxel (level : Level) (s : DecodeState) : Option (Nat × DecodeState) :=
  match getLE16 level.map1 s.map1Index with
  | some voxel => some (voxel, { s with map1Index := s.map1Index + 2 })
  | none => none

/-- The expression `(florVoxel & 0xFF00) >> 8` (WorldData.cpp:104). -/
def floorTextureID (florVoxel : Nat) : Nat :=
  (florVoxel &&& 0xFF00) >>> 8

/-- The test of WorldData.cpp:105-107: the floor texture is not a chasm. -/
def notChasm (c : MIFConstants) (textureID : Nat) : Bool :=
  textureID != c.DRY_CHASM && textureID != c.WET_CHASM && textureID != c.LAVA_CHASM

/-- The lambda computing `dataIndex` for a floor voxel (WorldData.cpp:111-127). -/
def floorDataIndex (s : DecodeState) (florVoxel : Nat) : Nat × DecodeState :=
  match s.floorDataMappings.find florVoxel with
  | some index => (index, s)
  | none =>
    let (index, grid) := s.voxelGrid.addVoxelData (VoxelData.ofId (floorTextureID florVoxel))
    let (mappings, stored) := s.floorDataMappings.insert florVoxel index
    (stored, { s with voxelGrid := grid, floorDataMappings := mappings })

/-- The floor half of the loop body (WorldData.cpp:103-130). -/
def floorStep (c : MIFConstants) (x z florVoxel : Nat) (s : DecodeState) : DecodeState :=
  if notChasm c (floorTextureID florVoxel) then
    let (dataIndex, s1) := floorDataIndex s florVoxel
    { s1 with voxelGrid := setVoxel s1.voxelGrid x 0 z dataIndex }
  else s

/-- The value `mostSigByte` of WorldData.cpp:139, a `uint8_t`. -/
def mostSigByte (map1Voxel : Nat) : Nat :=
  ((map1Voxel &&& 0x7F00) >>> 8) % 256

/-- The value `leastSigByte` of WorldData.cpp:140, a `uint8_t`. -/
def leastSigByte (map1Voxel : Nat) : Nat :=
  (map1Voxel &&& 0x007F) % 256

/-- The value `capTextureID` of WorldData.cpp:178, a `uint8_t`. -/
def capTextureID (map1Voxel : Nat) : Nat :=
  ((map1Voxel &&& 0x00F0) >>> 4) % 256

/-- The value `wallTextureID` of WorldData.cpp:179, a `uint8_t`. -/
def platformWallTextureID (map1Voxel : Nat) : Nat :=
  (map1Voxel &&& 0x000F) % 256

/-- The value `ceilingHeight` of WorldData.cpp:160-162. -/
def ceilingHeight (c : MIFConstants) (inf : INFFile) : ℚ :=
  (inf.ceilingHeight : ℚ) / c.ARENA_UNITS

/-- The value `platformHeight` of WorldData.cpp:180-181. -/
def platformHeight (c : MIFConstants) (map1Voxel : Nat) : ℚ :=
  (mostSigByte map1Voxel : ℚ) / c.ARENA_UNITS

/-- The descriptor built for a solid wall (WorldData.cpp:164-166). -/
def solidWallData (c : MIFConstants) (inf : INFFile) (map1Voxel : Nat) : VoxelData :=
  VoxelData.full (mostSigByte map1Voxel) (mostSigByte map1Voxel) (mostSigByte map1Voxel)
    0 (ceilingHeight c inf) 0 1

/-- The descriptor built for a raised platform (WorldData.cpp:200-205). -/
def platformData (c : MIFConstants) (map1Voxel : Nat) : VoxelData :=
  VoxelData.full (platformWallTextureID map1Voxel) (capTextureID map1Voxel)
    (capTextureID map1Voxel) 0 (platformHeight c map1Voxel)
    (max 0 (1 - platformHeight c map1Voxel)) 1

/-- The two lambdas computing `dataIndex` for a wall voxel (WorldData.cpp:150-170
and 185-209); they differ only in the descriptor `d` they add on a miss. -/
def wallDataIndex (s : DecodeState) (map1Voxel : Nat) (d : VoxelData) : Nat × DecodeState :=
  match s.wallDataMappings.find map1Voxel with
  | some index => (index, s)
  | none =>
    let (index, grid) := s.voxelGrid.addVoxelData d
    let (mappings, stored) := s.wallDataMappings.insert map1Voxel index
    (stored, { s with voxelGrid := grid, wallDataMappings := mappings })

/-- The descriptor a non-empty wall word stands for: the solid wall one when
`voxelIsSolid`, the raised platform one otherwise (WorldData.cpp:141-143). -/
def wallData (c : MIFConstants) (inf : INFFile) (map1Voxel : Nat) : VoxelData :=
  if mostSigByte map1Voxel = leastSigByte map1Voxel then solidWallData c inf map1Voxel
  else platformData c map1Voxel

/-- The wall half of the loop body (WorldData.cpp:132-218). -/
def wallStep (c : MIFConstants) (inf : INFFile) (x z map1Voxel : Nat) (s : DecodeState) :
    DecodeState :=
  if map1Voxel &&& 0x8000 = 0 then
    if map1Voxel = 0 then s
    else if mostSigByte map1Voxel = leastSigByte map1Voxel then
      let (dataIndex, s1) := wallDataIndex s map1Voxel (solidWallData c inf map1Voxel)
      { s1 with voxelGrid := setVoxel s1.voxelGrid x 1 z dataIndex }
    else
      let (dataIndex, s1) := wallDataIndex s map1Voxel (platformData c map1Voxel)
      { s1 with voxelGrid := setVoxel s1.voxelGrid x 1 z dataIndex }
  else s

/-- The body of the inner loop for the voxel column `(x, z)` (WorldData.cpp:99-218). -/
def cellStep (c : MIFConstants) (inf : INFFile) (level : Level) (x z : Nat)
    (s : DecodeState) : Option DecodeState :=
  match getNextFloorVoxel level s with
  | none => none
  | some (florVoxel, s1) =>
    match getNextMap1Voxel level s1 with
    | none => none
    | some (map1Voxel, s2) =>
      some (wallStep c inf x z map1Voxel (floorStep c x z florVoxel s2))

/-- The values a loop `for (int i = n - 1; i >= 0; i--)` runs through. -/
def countDown (n : Nat) : List Nat :=
  (List.range n).reverse

/-- The inner loop over `z` (WorldData.cpp:97-219). -/
def zLoop (c : MIFConstants) (inf : INFFile) (level : Level) (depth x : Nat)
    (s : DecodeState) : Option DecodeState :=
  (countDown depth).foldlM (fun st z => cellStep c inf level x z st) s

/-- The outer loop over `x` (WorldData.cpp:95-220). -/
def xLoop (c : MIFConstants) (inf : INFFile) (level : Level) (width depth : Nat)
    (s : DecodeState) : Option DecodeState :=
  (countDown width).foldlM (fun st x => zLoop c inf level depth x st) s

/-- The state in which the loops start (WorldData.cpp:44, 57-58, 73-75, 91-92):
a new `width x 5 x depth` grid with the empty voxel data at index 0, both read
indices 0 and both mappings empty. -/
def initialState (mif : MIFFile) : DecodeState :=
  { voxelGrid := ((VoxelGrid.create mif.width 5 mif.depth).addVoxelData (VoxelData.ofId 0)).2,
    floorIndex := 0,
    map1Index := 0,
    floorDataMappings := [],
    wallDataMappings := [] }

/-- The voxel part of `WorldData::WorldData(mif, inf)` (WorldData.cpp:43-220),
run on the first level of the file.  `none` stands for undefined behaviour: no
first level, or a read past the end of `flor` or `map1`. -/
def decodeVoxels (c : MIFConstants) (inf : INFFile) (mif : MIFFile) : Option DecodeState :=
  match mif.levels.head? with
  | none => none
  | some level => xLoop c inf level mif.width mif.depth (initialState mif)

/-! ## The loop as a fold over the cells it visits -/

/-- The inputs of one iteration of the inner loop: the voxel column and the
two words read for it. -/
structure Cell where
  x : Nat
  z : Nat
  florVoxel : Nat
  map1Voxel : Nat
deriving DecidableEq

/-- Both read indices after `getNextFloorVoxel` and `getNextMap1Voxel`. -/
def advanceReads (s : DecodeState) : DecodeState :=
  { s with floorIndex := s.floorIndex + 2, map1Index := s.map1Index + 2 }

/-- The loop body (WorldData.cpp:99-218) once both words have been read. -/
def voxelStep (c : MIFConstants) (inf : INFFile) (s : DecodeState) (q : Cell) : DecodeState :=
  wallStep c inf q.x q.z q.map1Voxel (floorStep c q.x q.z q.florVoxel (advanceReads s))

/-- The number of iterations of the inner loop completed before the column
`(x, z)` is reached: `x` runs down from `width - 1` and, inside, `z` runs down
from `depth - 1`. -/
def cellNumber (width depth x z : Nat) : Nat :=
  (width - 1 - x) * depth + (depth - 1 - z)

/-- The 16-bit word with number `k` of a byte array (bytes `2 * k` and `2 * k + 1`). -/
def wordAt (buf : List Nat) (k : Nat) : Nat :=
  (getLE16 buf (2 * k)).getD 0

/-- The column `(x, z)` with the words the loop reads for it. -/
def cellAt (mif : MIFFile) (level : Level) (x z : Nat) : Cell :=
  { x := x, z := z,
    florVoxel := wordAt level.flor (cellNumber mif.width mif.depth x z),
    map1Voxel := wordAt level.map1 (cellNumber mif.width mif.depth x z) }

/-- The cells of a level in the order in which the double loop visits them. -/
def levelCells (mif : MIFFile) (level : Level) : List Cell :=
  (countDown mif.width).flatMap (fun x => (countDown mif.depth).map (fun z => cellAt mif level x z))

/-- A wall word for which the loop writes a voxel at `y = 1`: bit `0x8000` is
clear and the word is not zero (WorldData.cpp:132-137). -/
def isWallVoxel (map1Voxel : Nat) : Bool :=
  map1Voxel &&& 0x8000 == 0 && map1Voxel != 0

/-! ## Invariants of the decoding loop -/

/-- The grid of a state still has the shape it was created with for `mif`. -/
structure GridShape (mif : MIFFile) (s : DecodeState) : Prop where
  width : s.voxelGrid.width = mif.width
  height : s.voxelGrid.height = 5
  depth : s.voxelGrid.depth = mif.depth
  length : s.voxelGrid.voxels.length = mif.width * 5 * mif.depth

/-- The voxel data table and the two mappings of a state fit together: index 0
is the empty voxel data; every mapping entry points at the descriptor built for
its key, at an index from 1 on; no two keys of one mapping share an index; the
table holds nothing else; and its seven-argument descriptors are as many as the
entries of `wallDataMappings`. -/
structure Consistent (c : MIFConstants) (inf : INFFile) (s : DecodeState) : Prop where
  air : s.voxelGrid.voxelData[0]? = some (VoxelData.ofId 0)
  floor_data : ∀ k i, s.floorDataMappings.find k = some i →
    1 ≤ i ∧ s.voxelGrid.voxelData[i]? = some (VoxelData.ofId (floorTextureID k)) ∧
      notChasm c (floorTextureID k) = true
  wall_data : ∀ k i, s.wallDataMappings.find k = some i →
    1 ≤ i ∧ s.voxelGrid.voxelData[i]? = some (wallData c inf k) ∧ isWallVoxel k = true
  floor_inj : ∀ k k' i, s.floorDataMappings.find k = some i →
    s.floorDataMappings.find k' = some i → k = k'
  wall_inj : ∀ k k' i, s.wallDataMappings.find k = some i →
    s.wallDataMappings.find k' = some i → k = k'
  floor_nodup : (s.floorDataMappings.map Prod.fst).Nodup
  wall_nodup : (s.wallDataMappings.map Prod.fst).Nodup
  count : s.voxelGrid.voxelData.length
    = 1 + s.floorDataMappings.length + s.wallDataMappings.length
  wall_count : s.voxelGrid.voxelData.countP VoxelData.isFull = s.wallDataMappings.length

/-- State `t` extends state `s`: the table has only grown at its end and every
mapping entry of `s` is still an entry of `t`. -/
structure Extends (s t : DecodeState) : Prop where
  data : ∀ (i : Nat) (d : VoxelData),
    s.voxelGrid.voxelData[i]? = some d → t.voxelGrid.voxelData[i]? = some d
  floor : ∀ k i, s.floorDataMappings.find k = some i → t.floorDataMappings.find k = some i
  wall : ∀ k i, s.wallDataMappings.find k = some i → t.wallDataMappings.find k = some i

/-- The effect of one iteration of the loop on a state: what is preserved
(`Consistent`, `GridShape`, `Extends`), which keys the mappings gain, and what
is written into the grid. -/
structure StepEffect (c : MIFConstants) (inf : INFFile) (mif : MIFFile)
    (s : DecodeState) (q : Cell) (t : DecodeState) : Prop where
  consistent : Consistent c inf t
  shape : GridShape mif t
  ext : Extends s t
  floor_keys : ∀ k, k ∈ t.floorDataMappings.map Prod.fst ↔
    k ∈ s.floorDataMappings.map Prod.fst ∨ (k = q.florVoxel ∧ notChasm c (floorTextureID k) = true)
  wall_keys : ∀ k, k ∈ t.wallDataMappings.map Prod.fst ↔
    k ∈ s.wallDataMappings.map Prod.fst ∨ (k = q.map1Voxel ∧ isWallVoxel k = true)
  frame : ∀ p, p ≠ voxelIndex s.voxelGrid q.x 0 q.z → p ≠ voxelIndex s.voxelGrid q.x 1 q.z →
    t.voxelGrid.voxels[p]? = s.voxelGrid.voxels[p]?
  floor_write : notChasm c (floorTextureID q.florVoxel) = true →
    ∃ i, t.floorDataMappings.find q.florVoxel = some i ∧
      t.voxelGrid.voxels[voxelIndex s.voxelGrid q.x 0 q.z]? = some (toChar i)
  floor_skip : notChasm c (floorTextureID q.florVoxel) = false →
    t.voxelGrid.voxels[voxelIndex s.voxelGrid q.x 0 q.z]?
      = s.voxelGrid.voxels[voxelIndex s.voxelGrid q.x 0 q.z]?
  wall_write : isWallVoxel q.map1Voxel = true →
    ∃ i, t.wallDataMappings.find q.map1Voxel = some i ∧
      t.voxelGrid.voxels[voxelIndex s.voxelGrid q.x 1 q.z]? = some (toChar i)
  wall_skip : isWallVoxel q.map1Voxel = false →
    t.voxelGrid.voxels[voxelIndex s.voxelGrid q.x 1 q.z]?
      = s.voxelGrid.voxels[voxelIndex s.voxelGrid q.x 1 q.z]?

/-! ## Inputs for the worked examples -/

/-- A choice of the four constants for the worked examples: chasm identifiers
12, 13 and 14, and `ARENA_UNITS = 128` (MIFFile.h:86-87 speaks of "a division
by 128"). -/
def sampleConstants : MIFConstants :=
  { DRY_CHASM := 0xC, WET_CHASM := 0xD, LAVA_CHASM := 0xE, ARENA_UNITS := 128 }

/-- An INF file with ceiling height 100. -/
def sampleINF : INFFile :=
  { ceilingHeight := 100 }

/-- A 2x2 map whose floor word is `0x0205` in every cell and whose wall words
are, in reading order, `0x0707`, `0x1203`, `0x8001` and `0x0000`. -/
def sampleMIF : MIFFile :=
  { width := 2, depth := 2,
    levels := [{ flor := [0x05, 0x02, 0x05, 0x02, 0x05, 0x02, 0x05, 0x02],
                 map1 := [0x07, 0x07, 0x03, 0x12, 0x01, 0x80, 0x00, 0x00] }] }

/-- A 1x3 map whose floor words are, in reading order, `0x0C00` (a chasm for
`sampleConstants`), `0x0301` and `0x0302`, and whose wall words are `0x0180`,
`0x0301` and `0x0000`. -/
def chasmMIF : MIFFile :=
  { width := 1, depth := 3,
    levels := [{ flor := [0x00, 0x0C, 0x01, 0x03, 0x02, 0x03],
                 map1 := [0x80, 0x01, 0x01, 0x03, 0x00, 0x00] }] }

/-! ## Words of a level and descriptors of a key -/

/-- The floor words of the first `width * depth` cells of a level, in reading order. -/
def floorWords (mif : MIFFile) (level : Level) : List Nat :=
  (List.range (mif.width * mif.depth)).filterMap (fun k => getLE16 level.flor (2 * k))

/-- The wall words of the first `width * depth` cells of a level, in reading order. -/
def wallWords (mif : MIFFile) (level : Level) : List Nat :=
  (List.range (mif.width * mif.depth)).filterMap (fun k => getLE16 level.map1 (2 * k))

/-- The indices of the descriptors created with raw key `v`.  A descriptor is
created exactly where its index is inserted under the raw word into one of the
two mappings (WorldData.cpp:123-125, 164-168 and 203-207), so these are the
values stored under `v` in `floorDataMappings` and in `wallDataMappings`. -/
def descriptorsWithKey (s : DecodeState) (v : Nat) : List Nat :=
  ((s.floorDataMappings ++ s.wallDataMappings).filter (fun e => e.1 == v)).map Prod.snd

/-- A 1x1 map whose floor word and wall word are both `h + 256 * h`, for a
byte `h`. -/
def twiceMIF (h : Nat) : MIFFile :=
  { width := 1, depth := 1, levels := [{ flor := [h, h], map1 := [h, h] }] }

/-! ## Lemmas -/

/-- The conversion to `char` keeps exactly the IDs below 128. -/
theorem toChar_eq_self_iff (id : Nat) : toChar id = (id : Int) ↔ id < 128 := by
  unfold toChar
  omega

/-- Two IDs are the same `char` exactly when they are congruent modulo 256. -/
theorem toChar_eq_iff (a b : Nat) : toChar a = toChar b ↔ a % 256 = b % 256 := by
  unfold toChar
  omega

theorem toChar_zero : toChar 0 = 0 := rfl

/-- A voxel that holds the `char` of an ID holds the ID itself exactly when
the ID is below 128. -/
theorem getVoxel_eq_index_iff {g : VoxelGrid} {x y z i : Nat}
    (h : g.getVoxel x y z = some (toChar i)) :
    g.getVoxel x y z = some (i : Int) ↔ i < 128 := by
  rw [h, Option.some.injEq, toChar_eq_self_iff]

theorem toChar_range (id : Nat) : -128 ≤ toChar id ∧ toChar id ≤ 127 := by
  unfold toChar
  omega

theorem countDown_succ (n : Nat) : countDown (n + 1) = n :: countDown n := by
  simp [countDown, List.range_succ]

theorem mem_countDown {n i : Nat} : i ∈ countDown n ↔ i < n := by
  simp [countDown]

theorem countDown_nodup (n : Nat) : (countDown n).Nodup := by
  simp [countDown, List.nodup_reverse, List.nodup_range]

theorem getLE16_of_lt {buf : List Nat} {i : Nat} (h : i + 1 < buf.length) :
    ∃ w, getLE16 buf i = some w := by
  have h0 : i < buf.length := by omega
  simp [getLE16, List.getElem?_eq_getElem h, List.getElem?_eq_getElem h0]

theorem wordAt_of_getLE16 {buf : List Nat} {k w : Nat} (h : getLE16 buf (2 * k) = some w) :
    wordAt buf k = w := by
  simp [wordAt, h]

theorem getLE16_eq_wordAt {buf : List Nat} {k : Nat} (h : 2 * k + 1 < buf.length) :
    getLE16 buf (2 * k) = some (wordAt buf k) := by
  obtain ⟨w, hw⟩ := getLE16_of_lt h
  rw [wordAt_of_getLE16 hw, hw]

theorem cellNumber_lt {width depth x z : Nat} (hx : x < width) (hz : z < depth) :
    cellNumber width depth x z < width * depth := by
  unfold cellNumber
  have h1 : (width - 1 - x) * depth + depth ≤ width * depth := by
    have : (width - 1 - x) + 1 ≤ width := by omega
    calc (width - 1 - x) * depth + depth = ((width - 1 - x) + 1) * depth := by ring
      _ ≤ width * depth := Nat.mul_le_mul_right _ this
  omega

/-- One iteration of the inner loop succeeds when both read indices are in range. -/
theorem cellStep_eq (c : MIFConstants) (inf : INFFile) (level : Level) (x z k : Nat)
    (s : DecodeState) (hf : s.floorIndex = 2 * k) (hm : s.map1Index = 2 * k)
    (hfl : 2 * k + 1 < level.flor.length) (hml : 2 * k + 1 < level.map1.length) :
    cellStep c inf level x z s
      = some (voxelStep c inf s ⟨x, z, wordAt level.flor k, wordAt level.map1 k⟩) := by
  simp [cellStep, getNextFloorVoxel, getNextMap1Voxel, hf, hm, getLE16_eq_wordAt hfl,
    getLE16_eq_wordAt hml, voxelStep, advanceReads]

theorem floorDataIndex_of_some {s : DecodeState} {f i : Nat}
    (h : s.floorDataMappings.find f = some i) : floorDataIndex s f = (i, s) := by
  simp [floorDataIndex, h]

theorem floorDataIndex_of_none {s : DecodeState} {f : Nat}
    (h : s.floorDataMappings.find f = none) :
    floorDataIndex s f = (s.voxelGrid.voxelData.length,
      { s with
        voxelGrid := { s.voxelGrid with
          voxelData := s.voxelGrid.voxelData ++ [VoxelData.ofId (floorTextureID f)] },
        floorDataMappings := (f, s.voxelGrid.voxelData.length) :: s.floorDataMappings }) := by
  simp [floorDataIndex, h, DataMappings.insert, VoxelGrid.addVoxelData]

theorem wallDataIndex_of_some {s : DecodeState} {w i : Nat} (d : VoxelData)
    (h : s.wallDataMappings.find w = some i) : wallDataIndex s w d = (i, s) := by
  simp [wallDataIndex, h]

theorem wallDataIndex_of_none {s : DecodeState} {w : Nat} (d : VoxelData)
    (h : s.wallDataMappings.find w = none) :
    wallDataIndex s w d = (s.voxelGrid.voxelData.length,
      { s with
        voxelGrid := { s.voxelGrid with voxelData := s.voxelGrid.voxelData ++ [d] },
        wallDataMappings := (w, s.voxelGrid.voxelData.length) :: s.wallDataMappings }) := by
  simp [wallDataIndex, h, DataMappings.insert, VoxelGrid.addVoxelData]

theorem floorStep_eq (c : MIFConstants) (x z f : Nat) (s : DecodeState) :
    floorStep c x z f s =
      if notChasm c (floorTextureID f) then
        { (floorDataIndex s f).2 with
          voxelGrid := setVoxel (floorDataIndex s f).2.voxelGrid x 0 z (floorDataIndex s f).1 }
      else s := rfl

theorem wallStep_eq (c : MIFConstants) (inf : INFFile) (x z w : Nat) (s : DecodeState) :
    wallStep c inf x z w s =
      if isWallVoxel w then
        { (wallDataIndex s w (wallData c inf w)).2 with
          voxelGrid := setVoxel (wallDataIndex s w (wallData c inf w)).2.voxelGrid x 1 z
            (wallDataIndex s w (wallData c inf w)).1 }
      else s := by
  unfold wallStep isWallVoxel wallData
  by_cases h1 : w &&& 0x8000 = 0 <;> by_cases h2 : w = 0 <;>
    by_cases h3 : mostSigByte w = leastSigByte w <;> simp [h1, h2, h3]

theorem floorDataIndex_index (s : DecodeState) (f : Nat) :
    (floorDataIndex s f).2.floorIndex = s.floorIndex ∧
    (floorDataIndex s f).2.map1Index = s.map1Index := by
  cases h : s.floorDataMappings.find f with
  | some i => simp [floorDataIndex_of_some h]
  | none => simp [floorDataIndex_of_none h]

theorem wallDataIndex_index (s : DecodeState) (w : Nat) (d : VoxelData) :
    (wallDataIndex s w d).2.floorIndex = s.floorIndex ∧
    (wallDataIndex s w d).2.map1Index = s.map1Index := by
  cases h : s.wallDataMappings.find w with
  | some i => simp [wallDataIndex_of_some d h]
  | none => simp [wallDataIndex_of_none d h]

theorem floorStep_index (c : MIFConstants) (x z f : Nat) (s : DecodeState) :
    (floorStep c x z f s).floorIndex = s.floorIndex ∧
    (floorStep c x z f s).map1Index = s.map1Index := by
  rw [floorStep_eq]
  split <;> simp [floorDataIndex_index]

theorem wallStep_index (c : MIFConstants) (inf : INFFile) (x z w : Nat) (s : DecodeState) :
    (wallStep c inf x z w s).floorIndex = s.floorIndex ∧
    (wallStep c inf x z w s).map1Index = s.map1Index := by
  rw [wallStep_eq]
  split <;> simp [wallDataIndex_index]

theorem voxelStep_index (c : MIFConstants) (inf : INFFile) (s : DecodeState) (q : Cell) :
    (voxelStep c inf s q).floorIndex = s.floorIndex + 2 ∧
    (voxelStep c inf s q).map1Index = s.map1Index + 2 := by
  unfold voxelStep
  simp [wallStep_index, floorStep_index, advanceReads]

theorem foldl_voxelStep_index (c : MIFConstants) (inf : INFFile) (qs : List Cell)
    (s : DecodeState) :
    (qs.foldl (voxelStep c inf) s).floorIndex = s.floorIndex + 2 * qs.length ∧
    (qs.foldl (voxelStep c inf) s).map1Index = s.map1Index + 2 * qs.length := by
  induction qs generalizing s with
  | nil => simp
  | cons q qs ih =>
    simp only [List.foldl_cons, List.length_cons]
    rw [(ih _).1, (ih _).2, (voxelStep_index c inf s q).1, (voxelStep_index c inf s q).2]
    constructor <;> ring

/-- The inner loop, started after `depth - n` of its iterations, succeeds. -/
theorem zLoop_aux (c : MIFConstants) (inf : INFFile) (mif : MIFFile) (level : Level)
    (hfl : level.flor.length = 2 * mif.width * mif.depth)
    (hml : level.map1.length = 2 * mif.width * mif.depth)
    (x : Nat) (hx : x < mif.width) (n : Nat) (hn : n ≤ mif.depth) (s : DecodeState)
    (hf : s.floorIndex = 2 * ((mif.width - 1 - x) * mif.depth + (mif.depth - n)))
    (hm : s.map1Index = 2 * ((mif.width - 1 - x) * mif.depth + (mif.depth - n))) :
    (countDown n).foldlM (fun st z => cellStep c inf level x z st) s
      = some (((countDown n).map (fun z => cellAt mif level x z)).foldl (voxelStep c inf) s) := by
  induction n generalizing s with
  | zero => simp [countDown]
  | succ n ih =>
    have hz : n < mif.depth := hn
    have hk : (mif.width - 1 - x) * mif.depth + (mif.depth - (n + 1))
        = cellNumber mif.width mif.depth x n := by
      unfold cellNumber; omega
    have hlt := cellNumber_lt hx hz
    rw [hk] at hf hm
    have hmul : 2 * mif.width * mif.depth = 2 * (mif.width * mif.depth) := by ring
    rw [countDown_succ, List.foldlM_cons,
      cellStep_eq c inf level x n _ s hf hm (by omega) (by omega)]
    simp only [List.map_cons, List.foldl_cons, Option.bind_eq_bind, Option.some_bind]
    have hi := voxelStep_index c inf s ⟨x, n, wordAt level.flor (cellNumber mif.width mif.depth x n),
      wordAt level.map1 (cellNumber mif.width mif.depth x n)⟩
    rw [ih (by omega) _ (by rw [hi.1, hf]; unfold cellNumber; omega)
      (by rw [hi.2, hm]; unfold cellNumber; omega)]
    rfl

theorem zLoop_eq (c : MIFConstants) (inf : INFFile) (mif : MIFFile) (level : Level)
    (hfl : level.flor.length = 2 * mif.width * mif.depth)
    (hml : level.map1.length = 2 * mif.width * mif.depth)
    (x : Nat) (hx : x < mif.width) (s : DecodeState)
    (hf : s.floorIndex = 2 * ((mif.width - 1 - x) * mif.depth))
    (hm : s.map1Index = 2 * ((mif.width - 1 - x) * mif.depth)) :
    zLoop c inf level mif.depth x s
      = some (((countDown mif.depth).map (fun z => cellAt mif level x z)).foldl
          (voxelStep c inf) s) :=
  zLoop_aux c inf mif level hfl hml x hx mif.depth le_rfl s (by simpa using hf) (by simpa using hm)

/-- The outer loop, started after `width - n` of its iterations, succeeds. -/
theorem xLoop_aux (c : MIFConstants) (inf : INFFile) (mif : MIFFile) (level : Level)
    (hfl : level.flor.length = 2 * mif.width * mif.depth)
    (hml : level.map1.length = 2 * mif.width * mif.depth)
    (n : Nat) (hn : n ≤ mif.width) (s : DecodeState)
    (hf : s.floorIndex = 2 * ((mif.width - n) * mif.depth))
    (hm : s.map1Index = 2 * ((mif.width - n) * mif.depth)) :
    (countDown n).foldlM (fun st x => zLoop c inf level mif.depth x st) s
      = some (((countDown n).flatMap
          (fun x => (countDown mif.depth).map (fun z => cellAt mif level x z))).foldl
            (voxelStep c inf) s) := by
  induction n generalizing s with
  | zero => simp [countDown]
  | succ n ih =>
    have hx : n < mif.width := hn
    have hw : mif.width - (n + 1) = mif.width - 1 - n := by omega
    rw [hw] at hf hm
    rw [countDown_succ, List.foldlM_cons, zLoop_eq c inf mif level hfl hml n hx s hf hm]
    simp only [List.flatMap_cons, List.foldl_append, Option.bind_eq_bind, Option.some_bind]
    have hi := foldl_voxelStep_index c inf
      ((countDown mif.depth).map (fun z => cellAt mif level n z)) s
    have hlen : ((countDown mif.depth).map (fun z => cellAt mif level n z)).length = mif.depth := by
      simp [countDown]
    have hstep : (mif.width - n) * mif.depth = (mif.width - 1 - n) * mif.depth + mif.depth := by
      have : mif.width - n = (mif.width - 1 - n) + 1 := by omega
      rw [this]; ring
    rw [ih (by omega) _ (by rw [hi.1, hf, hlen, hstep]; ring) (by rw [hi.2, hm, hlen, hstep]; ring)]

/-- With `flor` and `map1` of `2 * width * depth` bytes each, the decoder
returns, and its result is the fold of the loop body over the cells of the level. -/
theorem decodeVoxels_eq (c : MIFConstants) (inf : INFFile) (mif : MIFFile) (level : Level)
    (hlev : mif.levels.head? = some level)
    (hfl : level.flor.length = 2 * mif.width * mif.depth)
    (hml : level.map1.length = 2 * mif.width * mif.depth) :
    decodeVoxels c inf mif
      = some ((levelCells mif level).foldl (voxelStep c inf) (initialState mif)) := by
  unfold decodeVoxels xLoop levelCells
  rw [hlev]
  exact xLoop_aux c inf mif level hfl hml mif.width le_rfl _ (by simp [initialState])
    (by simp [initialState])

theorem mem_levelCells {mif : MIFFile} {level : Level} {q : Cell} :
    q ∈ levelCells mif level ↔
      q.x < mif.width ∧ q.z < mif.depth ∧ q = cellAt mif level q.x q.z := by
  unfold levelCells
  simp only [List.mem_flatMap, List.mem_map, mem_countDown]
  constructor
  · rintro ⟨x, hx, z, hz, rfl⟩
    exact ⟨hx, hz, rfl⟩
  · rintro ⟨hx, hz, hq⟩
    exact ⟨q.x, hx, q.z, hz, hq.symm⟩

theorem find_nil (k : Nat) : DataMappings.find [] k = none := rfl

theorem find_cons (m : DataMappings) (k v k' : Nat) :
    DataMappings.find ((k, v) :: m) k' = if k' = k then some v else DataMappings.find m k' := by
  unfold DataMappings.find
  by_cases h : k' = k
  · subst h; simp [List.lookup_cons]
  · have hb : (k' == k) = false := by simpa using h
    simp [List.lookup_cons, hb, h]

theorem find_isSome_iff (m : DataMappings) (k : Nat) :
    (DataMappings.find m k).isSome ↔ k ∈ m.map Prod.fst := by
  induction m with
  | nil => simp [find_nil]
  | cons e m ih =>
    obtain ⟨k0, v0⟩ := e
    rw [find_cons]
    by_cases h : k = k0
    · simp [h]
    · simp [h, ih]

theorem find_eq_none_iff (m : DataMappings) (k : Nat) :
    DataMappings.find m k = none ↔ k ∉ m.map Prod.fst := by
  rw [← find_isSome_iff]; cases DataMappings.find m k <;> simp

theorem Extends.refl (s : DecodeState) : Extends s s :=
  ⟨fun _ _ h => h, fun _ _ h => h, fun _ _ h => h⟩

theorem Extends.trans {s t u : DecodeState} (h1 : Extends s t) (h2 : Extends t u) :
    Extends s u :=
  ⟨fun i d h => h2.data i d (h1.data i d h), fun k i h => h2.floor k i (h1.floor k i h),
    fun k i h => h2.wall k i (h1.wall k i h)⟩

theorem getElem?_append_of_some {α : Type} {l : List α} {i : Nat} {d : α} (e : List α)
    (h : l[i]? = some d) : (l ++ e)[i]? = some d := by
  have hi : i < l.length := by
    by_contra hn
    rw [List.getElem?_eq_none (by omega)] at h
    cases h
  rw [List.getElem?_append_left hi, h]

theorem lt_length_of_getElem?_eq_some {α : Type} {l : List α} {i : Nat} {d : α}
    (h : l[i]? = some d) : i < l.length := by
  by_contra hn
  rw [List.getElem?_eq_none (by omega)] at h
  cases h

theorem wallData_isFull (c : MIFConstants) (inf : INFFile) (w : Nat) :
    (wallData c inf w).isFull = true := by
  unfold wallData solidWallData platformData
  split <;> rfl

theorem wallData_ne_ofId (c : MIFConstants) (inf : INFFile) (w n : Nat) :
    wallData c inf w ≠ VoxelData.ofId n := by
  unfold wallData solidWallData platformData
  split <;> simp

/-- What the lambda computing the floor `dataIndex` does to a consistent state. -/
theorem floorDataIndex_spec (c : MIFConstants) (inf : INFFile) (s : DecodeState) (f : Nat)
    (hc : Consistent c inf s) (hf : notChasm c (floorTextureID f) = true) :
    Consistent c inf (floorDataIndex s f).2 ∧
    Extends s (floorDataIndex s f).2 ∧
    (floorDataIndex s f).2.floorDataMappings.find f = some (floorDataIndex s f).1 ∧
    (floorDataIndex s f).2.voxelGrid.voxels = s.voxelGrid.voxels ∧
    (floorDataIndex s f).2.voxelGrid.width = s.voxelGrid.width ∧
    (floorDataIndex s f).2.voxelGrid.height = s.voxelGrid.height ∧
    (floorDataIndex s f).2.voxelGrid.depth = s.voxelGrid.depth ∧
    (floorDataIndex s f).2.wallDataMappings = s.wallDataMappings ∧
    (∀ k, k ∈ (floorDataIndex s f).2.floorDataMappings.map Prod.fst ↔
      k ∈ s.floorDataMappings.map Prod.fst ∨ k = f) := by
  cases h : s.floorDataMappings.find f with
  | some i =>
    rw [floorDataIndex_of_some h]
    refine ⟨hc, Extends.refl s, h, rfl, rfl, rfl, rfl, rfl, ?_⟩
    intro k
    have hm : f ∈ s.floorDataMappings.map Prod.fst := by
      rw [← find_isSome_iff, h]; rfl
    constructor
    · exact fun hk => Or.inl hk
    · rintro (hk | rfl)
      · exact hk
      · exact hm
  | none =>
    rw [floorDataIndex_of_none h]
    have hlen : 0 < s.voxelGrid.voxelData.length := lt_length_of_getElem?_eq_some hc.air
    refine ⟨?_, ?_, ?_, rfl, rfl, rfl, rfl, rfl, ?_⟩
    · constructor
      · exact getElem?_append_of_some _ hc.air
      · intro k i hk
        simp only [find_cons] at hk
        split at hk
        · rename_i hkf
          subst hkf
          cases hk
          exact ⟨hlen, by simp, hf⟩
        · obtain ⟨h1, h2, h3⟩ := hc.floor_data k i hk
          exact ⟨h1, getElem?_append_of_some _ h2, h3⟩
      · intro k i hk
        obtain ⟨h1, h2, h3⟩ := hc.wall_data k i hk
        exact ⟨h1, getElem?_append_of_some _ h2, h3⟩
      · intro k k' i hk hk'
        simp only [find_cons] at hk hk'
        split at hk <;> split at hk'
        · rename_i h1 h2; rw [h1, h2]
        · cases hk
          have := lt_length_of_getElem?_eq_some (hc.floor_data k' _ hk').2.1
          omega
        · cases hk'
          have := lt_length_of_getElem?_eq_some (hc.floor_data k _ hk).2.1
          omega
        · exact hc.floor_inj k k' i hk hk'
      · exact hc.wall_inj
      · simp only [List.map_cons, List.nodup_cons]
        exact ⟨(find_eq_none_iff _ _).1 h, hc.floor_nodup⟩
      · exact hc.wall_nodup
      · simp only [List.length_append, List.length_cons, List.length_nil]
        have := hc.count
        omega
      · simp only [List.countP_append, List.countP_cons, List.countP_nil, VoxelData.isFull]
        simpa using hc.wall_count
    · constructor
      · intro i d hd
        exact getElem?_append_of_some _ hd
      · intro k i hk
        simp only [find_cons]
        split
        · rename_i hkf
          rw [hkf, h] at hk
          cases hk
        · exact hk
      · exact fun _ _ hk => hk
    · simp [find_cons]
    · intro k
      simp only [List.map_cons, List.mem_cons]
      tauto

/-- What the lambdas computing the wall `dataIndex` do to a consistent state. -/
theorem wallDataIndex_spec (c : MIFConstants) (inf : INFFile) (s : DecodeState) (w : Nat)
    (hc : Consistent c inf s) (hw : isWallVoxel w = true) :
    Consistent c inf (wallDataIndex s w (wallData c inf w)).2 ∧
    Extends s (wallDataIndex s w (wallData c inf w)).2 ∧
    (wallDataIndex s w (wallData c inf w)).2.wallDataMappings.find w
      = some (wallDataIndex s w (wallData c inf w)).1 ∧
    (wallDataIndex s w (wallData c inf w)).2.voxelGrid.voxels = s.voxelGrid.voxels ∧
    (wallDataIndex s w (wallData c inf w)).2.voxelGrid.width = s.voxelGrid.width ∧
    (wallDataIndex s w (wallData c inf w)).2.voxelGrid.height = s.voxelGrid.height ∧
    (wallDataIndex s w (wallData c inf w)).2.voxelGrid.depth = s.voxelGrid.depth ∧
    (wallDataIndex s w (wallData c inf w)).2.floorDataMappings = s.floorDataMappings ∧
    (∀ k, k ∈ (wallDataIndex s w (wallData c inf w)).2.wallDataMappings.map Prod.fst ↔
      k ∈ s.wallDataMappings.map Prod.fst ∨ k = w) := by
  cases h : s.wallDataMappings.find w with
  | some i =>
    rw [wallDataIndex_of_some _ h]
    refine ⟨hc, Extends.refl s, h, rfl, rfl, rfl, rfl, rfl, ?_⟩
    intro k
    have hm : w ∈ s.wallDataMappings.map Prod.fst := by
      rw [← find_isSome_iff, h]; rfl
    constructor
    · exact fun hk => Or.inl hk
    · rintro (hk | rfl)
      · exact hk
      · exact hm
  | none =>
    rw [wallDataIndex_of_none _ h]
    have hlen : 0 < s.voxelGrid.voxelData.length := lt_length_of_getElem?_eq_some hc.air
    refine ⟨?_, ?_, ?_, rfl, rfl, rfl, rfl, rfl, ?_⟩
    · constructor
      · exact getElem?_append_of_some _ hc.air
      · intro k i hk
        obtain ⟨h1, h2, h3⟩ := hc.floor_data k i hk
        exact ⟨h1, getElem?_append_of_some _ h2, h3⟩
      · intro k i hk
        simp only [find_cons] at hk
        split at hk
        · rename_i hkf
          subst hkf
          cases hk
          exact ⟨hlen, by simp, hw⟩
        · obtain ⟨h1, h2, h3⟩ := hc.wall_data k i hk
          exact ⟨h1, getElem?_append_of_some _ h2, h3⟩
      · exact hc.floor_inj
      · intro k k' i hk hk'
        simp only [find_cons] at hk hk'
        split at hk <;> split at hk'
        · rename_i h1 h2; rw [h1, h2]
        · cases hk
          have := lt_length_of_getElem?_eq_some (hc.wall_data k' _ hk').2.1
          omega
        · cases hk'
          have := lt_length_of_getElem?_eq_some (hc.wall_data k _ hk).2.1
          omega
        · exact hc.wall_inj k k' i hk hk'
      · exact hc.floor_nodup
      · simp only [List.map_cons, List.nodup_cons]
        exact ⟨(find_eq_none_iff _ _).1 h, hc.wall_nodup⟩
      · simp only [List.length_append, List.length_cons, List.length_nil]
        have := hc.count
        omega
      · simp only [List.countP_append, List.countP_cons, List.countP_nil, wallData_isFull,
          List.length_cons]
        have := hc.wall_count
        simp only [if_true]
        omega
    · constructor
      · intro i d hd
        exact getElem?_append_of_some _ hd
      · exact fun _ _ hk => hk
      · intro k i hk
        simp only [find_cons]
        split
        · rename_i hkf
          rw [hkf, h] at hk
          cases hk
        · exact hk
    · simp [find_cons]
    · intro k
      simp only [List.map_cons, List.mem_cons]
      tauto

theorem add_mul_inj {a a' z z' M : Nat} (ha : a < M) (ha' : a' < M)
    (h : a + z * M = a' + z' * M) : a = a' ∧ z = z' := by
  have h1 : a = a' := by
    have := congrArg (· % M) h
    simpa [Nat.add_mul_mod_self_right, Nat.mod_eq_of_lt ha, Nat.mod_eq_of_lt ha'] using this
  subst h1
  have h2 : z * M = z' * M := by omega
  exact ⟨rfl, Nat.eq_of_mul_eq_mul_right (by omega) h2⟩

/-- The index arithmetic of `setVoxel`: in-range coordinates give an index
inside the array, and different coordinates give different indices. -/
theorem linearIndex_lt {W H D x y z : Nat} (hx : x < W) (hy : y < H) (hz : z < D) :
    x + y * W + z * W * H < W * H * D := by
  have h1 : x + y * W < W * H := by
    have : y * W + W ≤ H * W := by
      calc y * W + W = (y + 1) * W := by ring
        _ ≤ H * W := Nat.mul_le_mul_right _ hy
    have : H * W = W * H := Nat.mul_comm _ _
    omega
  have h2 : z * (W * H) + W * H ≤ D * (W * H) := by
    calc z * (W * H) + W * H = (z + 1) * (W * H) := by ring
      _ ≤ D * (W * H) := Nat.mul_le_mul_right _ hz
  have h3 : z * W * H = z * (W * H) := by ring
  have h4 : W * H * D = D * (W * H) := by ring
  omega

theorem linearIndex_inj {W H x y z x' y' z' : Nat} (hx : x < W) (hy : y < H)
    (hx' : x' < W) (hy' : y' < H)
    (h : x + y * W + z * W * H = x' + y' * W + z' * W * H) : x = x' ∧ y = y' ∧ z = z' := by
  have hb : ∀ {a b : Nat}, a < W → b < H → a + b * W < W * H := by
    intro a b ha hb
    have : b * W + W ≤ H * W := by
      calc b * W + W = (b + 1) * W := by ring
        _ ≤ H * W := Nat.mul_le_mul_right _ hb
    have : H * W = W * H := Nat.mul_comm _ _
    omega
  have h' : (x + y * W) + z * (W * H) = (x' + y' * W) + z' * (W * H) := by
    have e1 : z * W * H = z * (W * H) := by ring
    have e2 : z' * W * H = z' * (W * H) := by ring
    omega
  obtain ⟨h1, h2⟩ := add_mul_inj (hb hx hy) (hb hx' hy') h'
  obtain ⟨h3, h4⟩ := add_mul_inj hx hx' h1
  exact ⟨h3, h4, h2⟩

theorem voxelIndex_eq {mif : MIFFile} {s : DecodeState} (hs : GridShape mif s) (x y z : Nat) :
    voxelIndex s.voxelGrid x y z = x + y * mif.width + z * mif.width * 5 := by
  unfold voxelIndex; rw [hs.width, hs.height]

theorem voxelIndex_lt {mif : MIFFile} {s : DecodeState} (hs : GridShape mif s) {x y z : Nat}
    (hx : x < mif.width) (hy : y < 5) (hz : z < mif.depth) :
    voxelIndex s.voxelGrid x y z < s.voxelGrid.voxels.length := by
  rw [voxelIndex_eq hs, hs.length]
  exact linearIndex_lt hx hy hz

theorem voxelIndex_inj {mif : MIFFile} {s : DecodeState} (hs : GridShape mif s)
    {x y z x' y' z' : Nat} (hx : x < mif.width) (hy : y < 5) (hx' : x' < mif.width) (hy' : y' < 5)
    (h : voxelIndex s.voxelGrid x y z = voxelIndex s.voxelGrid x' y' z') :
    x = x' ∧ y = y' ∧ z = z' := by
  rw [voxelIndex_eq hs, voxelIndex_eq hs] at h
  exact linearIndex_inj hx hy hx' hy' h

theorem Consistent.congr {c : MIFConstants} {inf : INFFile} {s t : DecodeState}
    (h : Consistent c inf s) (hd : t.voxelGrid.voxelData = s.voxelGrid.voxelData)
    (hf : t.floorDataMappings = s.floorDataMappings)
    (hw : t.wallDataMappings = s.wallDataMappings) :
    Consistent c inf t := by
  obtain ⟨a1, a2, a3, a4, a5, a6, a7, a8, a9⟩ := h
  constructor <;> simp only [hd, hf, hw] <;> assumption

theorem Extends.congr_left {s s' t : DecodeState} (h : Extends s' t)
    (hd : s'.voxelGrid.voxelData = s.voxelGrid.voxelData)
    (hf : s'.floorDataMappings = s.floorDataMappings)
    (hw : s'.wallDataMappings = s.wallDataMappings) : Extends s t := by
  obtain ⟨a1, a2, a3⟩ := h
  constructor
  · rw [← hd]; exact a1
  · rw [← hf]; exact a2
  · rw [← hw]; exact a3

theorem Extends.congr_right {s t t' : DecodeState} (h : Extends s t)
    (hd : t'.voxelGrid.voxelData = t.voxelGrid.voxelData)
    (hf : t'.floorDataMappings = t.floorDataMappings)
    (hw : t'.wallDataMappings = t.wallDataMappings) : Extends s t' := by
  obtain ⟨a1, a2, a3⟩ := h
  constructor
  · rw [hd]; exact a1
  · rw [hf]; exact a2
  · rw [hw]; exact a3

/-- The floor half of the loop body on a consistent state. -/
theorem floorStep_spec (c : MIFConstants) (inf : INFFile) (mif : MIFFile) (s : DecodeState)
    (x z f : Nat) (hc : Consistent c inf s) (hs : GridShape mif s) :
    Consistent c inf (floorStep c x z f s) ∧ GridShape mif (floorStep c x z f s) ∧
    Extends s (floorStep c x z f s) ∧
    (floorStep c x z f s).wallDataMappings = s.wallDataMappings ∧
    (∀ k, k ∈ (floorStep c x z f s).floorDataMappings.map Prod.fst ↔
      k ∈ s.floorDataMappings.map Prod.fst ∨ (k = f ∧ notChasm c (floorTextureID k) = true)) ∧
    (notChasm c (floorTextureID f) = true →
      ∃ i, (floorStep c x z f s).floorDataMappings.find f = some i ∧
        (floorStep c x z f s).voxelGrid.voxels
          = s.voxelGrid.voxels.set (voxelIndex s.voxelGrid x 0 z) (toChar i)) ∧
    (notChasm c (floorTextureID f) = false →
      (floorStep c x z f s).voxelGrid.voxels = s.voxelGrid.voxels) := by
  rw [floorStep_eq]
  cases hn : notChasm c (floorTextureID f) with
  | false =>
    rw [if_neg Bool.false_ne_true]
    refine ⟨hc, hs, Extends.refl s, rfl, ?_, ?_, fun _ => rfl⟩
    · intro k
      constructor
      · exact fun h => Or.inl h
      · rintro (h | ⟨rfl, h⟩)
        · exact h
        · rw [hn] at h; cases h
    · intro h; cases h
  | true =>
    rw [if_pos rfl]
    obtain ⟨h1, h2, h3, h4, h5, h6, h7, h8, h9⟩ := floorDataIndex_spec c inf s f hc hn
    refine ⟨h1.congr rfl rfl rfl, ?_, h2.congr_right rfl rfl rfl, h8, ?_, ?_,
      ?_⟩
    · constructor
      · exact h5.trans hs.width
      · exact h6.trans hs.height
      · exact h7.trans hs.depth
      · simp only [setVoxel, List.length_set]
        rw [h4]; exact hs.length
    · intro k
      rw [h9 k]
      constructor
      · rintro (h | rfl)
        · exact Or.inl h
        · exact Or.inr ⟨rfl, hn⟩
      · rintro (h | ⟨rfl, _⟩)
        · exact Or.inl h
        · exact Or.inr rfl
    · intro _
      refine ⟨(floorDataIndex s f).1, h3, ?_⟩
      simp only [setVoxel, voxelIndex]
      rw [h4, h5, h6]
    · intro h; cases h

/-- The wall half of the loop body on a consistent state. -/
theorem wallStep_spec (c : MIFConstants) (inf : INFFile) (mif : MIFFile) (s : DecodeState)
    (x z w : Nat) (hc : Consistent c inf s) (hs : GridShape mif s) :
    Consistent c inf (wallStep c inf x z w s) ∧ GridShape mif (wallStep c inf x z w s) ∧
    Extends s (wallStep c inf x z w s) ∧
    (wallStep c inf x z w s).floorDataMappings = s.floorDataMappings ∧
    (∀ k, k ∈ (wallStep c inf x z w s).wallDataMappings.map Prod.fst ↔
      k ∈ s.wallDataMappings.map Prod.fst ∨ (k = w ∧ isWallVoxel k = true)) ∧
    (isWallVoxel w = true →
      ∃ i, (wallStep c inf x z w s).wallDataMappings.find w = some i ∧
        (wallStep c inf x z w s).voxelGrid.voxels
          = s.voxelGrid.voxels.set (voxelIndex s.voxelGrid x 1 z) (toChar i)) ∧
    (isWallVoxel w = false →
      (wallStep c inf x z w s).voxelGrid.voxels = s.voxelGrid.voxels) := by
  rw [wallStep_eq]
  cases hn : isWallVoxel w with
  | false =>
    rw [if_neg Bool.false_ne_true]
    refine ⟨hc, hs, Extends.refl s, rfl, ?_, ?_, fun _ => rfl⟩
    · intro k
      constructor
      · exact fun h => Or.inl h
      · rintro (h | ⟨rfl, h⟩)
        · exact h
        · rw [hn] at h; cases h
    · intro h; cases h
  | true =>
    rw [if_pos rfl]
    obtain ⟨h1, h2, h3, h4, h5, h6, h7, h8, h9⟩ := wallDataIndex_spec c inf s w hc hn
    refine ⟨h1.congr rfl rfl rfl, ?_, h2.congr_right rfl rfl rfl, h8, ?_, ?_,
      ?_⟩
    · constructor
      · exact h5.trans hs.width
      · exact h6.trans hs.height
      · exact h7.trans hs.depth
      · simp only [setVoxel, List.length_set]
        rw [h4]; exact hs.length
    · intro k
      rw [h9 k]
      constructor
      · rintro (h | rfl)
        · exact Or.inl h
        · exact Or.inr ⟨rfl, hn⟩
      · rintro (h | ⟨rfl, _⟩)
        · exact Or.inl h
        · exact Or.inr rfl
    · intro _
      refine ⟨(wallDataIndex s w (wallData c inf w)).1, h3, ?_⟩
      simp only [setVoxel, voxelIndex]
      rw [h4, h5, h6]
    · intro h; cases h

theorem advanceReads_voxelGrid (s : DecodeState) : (advanceReads s).voxelGrid = s.voxelGrid := rfl

theorem advanceReads_floorDataMappings (s : DecodeState) :
    (advanceReads s).floorDataMappings = s.floorDataMappings := rfl

theorem advanceReads_wallDataMappings (s : DecodeState) :
    (advanceReads s).wallDataMappings = s.wallDataMappings := rfl

/-- One iteration of the loop on a consistent state, for a column inside the grid. -/
theorem voxelStep_effect (c : MIFConstants) (inf : INFFile) (mif : MIFFile) (s : DecodeState)
    (q : Cell) (hc : Consistent c inf s) (hs : GridShape mif s)
    (hx : q.x < mif.width) (hz : q.z < mif.depth) :
    StepEffect c inf mif s q (voxelStep c inf s q) := by
  have hc0 : Consistent c inf
      (advanceReads s) :=
    hc.congr rfl rfl rfl
  have hs0 : GridShape mif
      (advanceReads s) :=
    ⟨hs.width, hs.height, hs.depth, hs.length⟩
  obtain ⟨f1, f2, f3, f4, f5, f6, f7⟩ := floorStep_spec c inf mif _ q.x q.z q.florVoxel hc0 hs0
  obtain ⟨w1, w2, w3, w4, w5, w6, w7⟩ :=
    wallStep_spec c inf mif _ q.x q.z q.map1Voxel f1 f2
  simp only [advanceReads_voxelGrid, advanceReads_floorDataMappings,
    advanceReads_wallDataMappings] at f4 f5 f6 f7
  have e1 : ∀ y, voxelIndex (floorStep c q.x q.z q.florVoxel (advanceReads s)).voxelGrid q.x y q.z
        = voxelIndex s.voxelGrid q.x y q.z := by
    intro y; rw [voxelIndex_eq f2, voxelIndex_eq hs]
  rw [e1] at w6
  have hp0 := voxelIndex_lt hs hx (by decide : 0 < 5) hz
  have hp1 := voxelIndex_lt hs hx (by decide : 1 < 5) hz
  have hne : voxelIndex s.voxelGrid q.x 0 q.z ≠ voxelIndex s.voxelGrid q.x 1 q.z := by
    intro h
    have := (voxelIndex_inj hs hx (by decide : 0 < 5) hx (by decide : 1 < 5) h).2.1
    omega
  have hlen1 : (floorStep c q.x q.z q.florVoxel (advanceReads s)).voxelGrid.voxels.length = s.voxelGrid.voxels.length := by
    rw [f2.length, hs.length]
  have hV1 : ∀ p, p ≠ voxelIndex s.voxelGrid q.x 0 q.z →
      (floorStep c q.x q.z q.florVoxel (advanceReads s)).voxelGrid.voxels[p]? = s.voxelGrid.voxels[p]? := by
    intro p hp
    cases hn : notChasm c (floorTextureID q.florVoxel) with
    | false => rw [f7 hn]
    | true =>
      obtain ⟨i, _, hi⟩ := f6 hn
      rw [hi, List.getElem?_set_ne (Ne.symm hp)]
  have hV2 : ∀ p, p ≠ voxelIndex s.voxelGrid q.x 1 q.z →
      (voxelStep c inf s q).voxelGrid.voxels[p]?
        = (floorStep c q.x q.z q.florVoxel (advanceReads s)).voxelGrid.voxels[p]? := by
    intro p hp
    unfold voxelStep
    cases hn : isWallVoxel q.map1Voxel with
    | false => rw [w7 hn]
    | true =>
      obtain ⟨i, _, hi⟩ := w6 hn
      rw [hi, List.getElem?_set_ne (Ne.symm hp)]
  constructor
  · exact w1
  · exact w2
  · exact (Extends.trans f3 w3).congr_left rfl rfl rfl
  · intro k
    unfold voxelStep
    rw [w4]
    exact f5 k
  · intro k
    unfold voxelStep
    rw [w5 k, f4]
  · intro p h0 h1
    rw [hV2 p h1, hV1 p h0]
  · intro hn
    obtain ⟨i, hi1, hi2⟩ := f6 hn
    refine ⟨i, ?_, ?_⟩
    · unfold voxelStep
      rw [w4]; exact hi1
    · rw [hV2 _ hne, hi2, List.getElem?_set_self hp0]
  · intro hn
    rw [hV2 _ hne, f7 hn]
  · intro hn
    obtain ⟨i, hi1, hi2⟩ := w6 hn
    refine ⟨i, hi1, ?_⟩
    unfold voxelStep
    rw [hi2, List.getElem?_set_self (by rw [hlen1]; exact hp1)]
  · intro hn
    unfold voxelStep
    rw [w7 hn, hV1 _ (Ne.symm hne)]

/-- The loop body folded over cells inside the grid, from a consistent state. -/
theorem foldl_voxelStep_effect (c : MIFConstants) (inf : INFFile) (mif : MIFFile)
    (qs : List Cell) (hqs : ∀ q ∈ qs, q.x < mif.width ∧ q.z < mif.depth) (s : DecodeState)
    (hc : Consistent c inf s) (hs : GridShape mif s) :
    Consistent c inf (qs.foldl (voxelStep c inf) s) ∧
    GridShape mif (qs.foldl (voxelStep c inf) s) ∧
    Extends s (qs.foldl (voxelStep c inf) s) ∧
    (∀ k, k ∈ (qs.foldl (voxelStep c inf) s).floorDataMappings.map Prod.fst ↔
      k ∈ s.floorDataMappings.map Prod.fst ∨
        ∃ q ∈ qs, q.florVoxel = k ∧ notChasm c (floorTextureID k) = true) ∧
    (∀ k, k ∈ (qs.foldl (voxelStep c inf) s).wallDataMappings.map Prod.fst ↔
      k ∈ s.wallDataMappings.map Prod.fst ∨
        ∃ q ∈ qs, q.map1Voxel = k ∧ isWallVoxel k = true) ∧
    (∀ x y z, y < 5 → x < mif.width → (∀ q ∈ qs, ¬ (q.x = x ∧ q.z = z)) →
      (qs.foldl (voxelStep c inf) s).voxelGrid.getVoxel x y z = s.voxelGrid.getVoxel x y z) := by
  induction qs generalizing s with
  | nil =>
    refine ⟨hc, hs, Extends.refl s, ?_, ?_, ?_⟩
    · intro k; simp
    · intro k; simp
    · intro x y z _ _ _; rfl
  | cons q qs ih =>
    have hq := hqs q (List.mem_cons_self _ _)
    have e := voxelStep_effect c inf mif s q hc hs hq.1 hq.2
    obtain ⟨i1, i2, i3, i4, i5, i6⟩ :=
      ih (fun q' h' => hqs q' (List.mem_cons_of_mem _ h')) (voxelStep c inf s q)
        e.consistent e.shape
    simp only [List.foldl_cons]
    refine ⟨i1, i2, Extends.trans e.ext i3, ?_, ?_, ?_⟩
    · intro k
      rw [i4 k, e.floor_keys k]
      simp only [List.mem_cons, exists_eq_or_imp]
      constructor
      · rintro ((h | ⟨rfl, h⟩) | h)
        · exact Or.inl h
        · exact Or.inr (Or.inl ⟨rfl, h⟩)
        · exact Or.inr (Or.inr h)
      · rintro (h | ⟨h1, h⟩ | h)
        · exact Or.inl (Or.inl h)
        · exact Or.inl (Or.inr ⟨h1.symm, h⟩)
        · exact Or.inr h
    · intro k
      rw [i5 k, e.wall_keys k]
      simp only [List.mem_cons, exists_eq_or_imp]
      constructor
      · rintro ((h | ⟨rfl, h⟩) | h)
        · exact Or.inl h
        · exact Or.inr (Or.inl ⟨rfl, h⟩)
        · exact Or.inr (Or.inr h)
      · rintro (h | ⟨h1, h⟩ | h)
        · exact Or.inl (Or.inl h)
        · exact Or.inl (Or.inr ⟨h1.symm, h⟩)
        · exact Or.inr h
    · intro x y z hy hx hne
      rw [i6 x y z hy hx (fun q' h' => hne q' (List.mem_cons_of_mem _ h'))]
      unfold VoxelGrid.getVoxel
      have hne0 := hne q (List.mem_cons_self _ _)
      rw [voxelIndex_eq e.shape, ← voxelIndex_eq hs]
      apply e.frame
      · intro h
        obtain ⟨h1, _, h3⟩ := voxelIndex_inj hs hx hy hq.1 (by decide : 0 < 5) h
        exact hne0 ⟨h1.symm, h3.symm⟩
      · intro h
        obtain ⟨h1, _, h3⟩ := voxelIndex_inj hs hx hy hq.1 (by decide : 1 < 5) h
        exact hne0 ⟨h1.symm, h3.symm⟩

/-- What the whole loop leaves behind for one of its cells, when no two cells
of the run are the same column. -/
theorem foldl_voxelStep_cell (c : MIFConstants) (inf : INFFile) (mif : MIFFile)
    (qs : List Cell) (hqs : ∀ q ∈ qs, q.x < mif.width ∧ q.z < mif.depth)
    (hnd : (qs.map (fun q => (q.x, q.z))).Nodup) (s : DecodeState)
    (hc : Consistent c inf s) (hs : GridShape mif s) (q : Cell) (hq : q ∈ qs) :
    (notChasm c (floorTextureID q.florVoxel) = true →
      ∃ i, (qs.foldl (voxelStep c inf) s).floorDataMappings.find q.florVoxel = some i ∧
        (qs.foldl (voxelStep c inf) s).voxelGrid.getVoxel q.x 0 q.z = some (toChar i)) ∧
    (notChasm c (floorTextureID q.florVoxel) = false →
      (qs.foldl (voxelStep c inf) s).voxelGrid.getVoxel q.x 0 q.z
        = s.voxelGrid.getVoxel q.x 0 q.z) ∧
    (isWallVoxel q.map1Voxel = true →
      ∃ i, (qs.foldl (voxelStep c inf) s).wallDataMappings.find q.map1Voxel = some i ∧
        (qs.foldl (voxelStep c inf) s).voxelGrid.getVoxel q.x 1 q.z = some (toChar i)) ∧
    (isWallVoxel q.map1Voxel = false →
      (qs.foldl (voxelStep c inf) s).voxelGrid.getVoxel q.x 1 q.z
        = s.voxelGrid.getVoxel q.x 1 q.z) := by
  obtain ⟨pre, post, rfl⟩ := List.append_of_mem hq
  have hpre : ∀ q' ∈ pre, ¬ (q'.x = q.x ∧ q'.z = q.z) := by
    intro q' h' hpos
    rw [List.map_append, List.nodup_append] at hnd
    refine hnd.2.2 (List.mem_map_of_mem (fun q => (q.x, q.z)) h') ?_
    rw [List.map_cons]
    simp only [hpos.1, hpos.2]
    exact List.mem_cons_self _ _
  have hpost : ∀ q' ∈ post, ¬ (q'.x = q.x ∧ q'.z = q.z) := by
    intro q' h' hpos
    rw [List.map_append, List.nodup_append, List.map_cons, List.nodup_cons] at hnd
    apply hnd.2.1.1
    have := List.mem_map_of_mem (fun q => (q.x, q.z)) h'
    simpa only [hpos.1, hpos.2] using this
  have hin := hqs q (by simp)
  obtain ⟨p1, p2, _, _, _, p6⟩ := foldl_voxelStep_effect c inf mif pre
    (fun q' h' => hqs q' (by simp [h'])) s hc hs
  have e := voxelStep_effect c inf mif _ q p1 p2 hin.1 hin.2
  obtain ⟨_, r2, r3, _, _, r6⟩ := foldl_voxelStep_effect c inf mif post
    (fun q' h' => hqs q' (by simp [h'])) _ e.consistent e.shape
  have eidx : ∀ y, voxelIndex (voxelStep c inf (pre.foldl (voxelStep c inf) s) q).voxelGrid
      q.x y q.z = voxelIndex (pre.foldl (voxelStep c inf) s).voxelGrid q.x y q.z := by
    intro y; rw [voxelIndex_eq e.shape, voxelIndex_eq p2]
  simp only [List.foldl_append, List.foldl_cons]
  refine ⟨?_, ?_, ?_, ?_⟩
  · intro hn
    obtain ⟨i, hi1, hi2⟩ := e.floor_write hn
    refine ⟨i, r3.floor _ _ hi1, ?_⟩
    rw [r6 q.x 0 q.z (by decide) hin.1 hpost]
    unfold VoxelGrid.getVoxel
    rw [eidx]; exact hi2
  · intro hn
    rw [r6 q.x 0 q.z (by decide) hin.1 hpost, ← p6 q.x 0 q.z (by decide) hin.1 hpre]
    unfold VoxelGrid.getVoxel
    rw [eidx]; exact e.floor_skip hn
  · intro hn
    obtain ⟨i, hi1, hi2⟩ := e.wall_write hn
    refine ⟨i, r3.wall _ _ hi1, ?_⟩
    rw [r6 q.x 1 q.z (by decide) hin.1 hpost]
    unfold VoxelGrid.getVoxel
    rw [eidx]; exact hi2
  · intro hn
    rw [r6 q.x 1 q.z (by decide) hin.1 hpost, ← p6 q.x 1 q.z (by decide) hin.1 hpre]
    unfold VoxelGrid.getVoxel
    rw [eidx]; exact e.wall_skip hn

theorem levelCells_positions (mif : MIFFile) (level : Level) :
    (levelCells mif level).map (fun q => (q.x, q.z))
      = (countDown mif.width).product (countDown mif.depth) := by
  simp [levelCells, List.product, List.map_flatMap, cellAt, Function.comp_def]

theorem levelCells_nodup (mif : MIFFile) (level : Level) :
    ((levelCells mif level).map (fun q => (q.x, q.z))).Nodup := by
  rw [levelCells_positions]
  exact (countDown_nodup _).product (countDown_nodup _)

theorem levelCells_inside (mif : MIFFile) (level : Level) :
    ∀ q ∈ levelCells mif level, q.x < mif.width ∧ q.z < mif.depth :=
  fun _ hq => ⟨(mem_levelCells.1 hq).1, (mem_levelCells.1 hq).2.1⟩

theorem cellAt_mem_levelCells (mif : MIFFile) (level : Level) {x z : Nat}
    (hx : x < mif.width) (hz : z < mif.depth) : cellAt mif level x z ∈ levelCells mif level :=
  mem_levelCells.2 ⟨hx, hz, rfl⟩

theorem initialState_consistent (c : MIFConstants) (inf : INFFile) (mif : MIFFile) :
    Consistent c inf (initialState mif) := by
  constructor <;>
    simp [initialState, VoxelGrid.addVoxelData, VoxelGrid.create, find_nil, VoxelData.isFull]

theorem initialState_shape (mif : MIFFile) : GridShape mif (initialState mif) := by
  constructor <;> simp [initialState, VoxelGrid.addVoxelData, VoxelGrid.create]

theorem initialState_getVoxel (mif : MIFFile) {x y z : Nat} (hx : x < mif.width) (hy : y < 5)
    (hz : z < mif.depth) : (initialState mif).voxelGrid.getVoxel x y z = some 0 := by
  have h := voxelIndex_lt (initialState_shape mif) hx hy hz
  unfold VoxelGrid.getVoxel
  have hv : (initialState mif).voxelGrid.voxels = List.replicate (mif.width * 5 * mif.depth) 0 := by
    simp [initialState, VoxelGrid.addVoxelData, VoxelGrid.create]
  rw [hv] at h ⊢
  rw [List.getElem?_replicate, if_pos (by simpa using h)]

/-- The outcome of the whole decode for the voxel column `(x, z)`: the decoder
returns; its tables are consistent; a floor word that is not a chasm has an
entry in `floorDataMappings` whose index, narrowed to a `char`, is the voxel at
`y = 0`, and a chasm leaves air there; likewise for the wall word at `y = 1`. -/
theorem decodeVoxels_cell (c : MIFConstants) (inf : INFFile) (mif : MIFFile) (level : Level)
    (hlev : mif.levels.head? = some level)
    (hfl : level.flor.length = 2 * mif.width * mif.depth)
    (hml : level.map1.length = 2 * mif.width * mif.depth)
    (x z : Nat) (hx : x < mif.width) (hz : z < mif.depth) :
    ∃ s, decodeVoxels c inf mif = some s ∧ Consistent c inf s ∧ GridShape mif s ∧
      Extends (initialState mif) s ∧
      (notChasm c (floorTextureID (cellAt mif level x z).florVoxel) = true →
        ∃ i, s.floorDataMappings.find (cellAt mif level x z).florVoxel = some i ∧
          s.voxelGrid.getVoxel x 0 z = some (toChar i)) ∧
      (notChasm c (floorTextureID (cellAt mif level x z).florVoxel) = false →
        s.voxelGrid.getVoxel x 0 z = some 0) ∧
      (isWallVoxel (cellAt mif level x z).map1Voxel = true →
        ∃ i, s.wallDataMappings.find (cellAt mif level x z).map1Voxel = some i ∧
          s.voxelGrid.getVoxel x 1 z = some (toChar i)) ∧
      (isWallVoxel (cellAt mif level x z).map1Voxel = false →
        s.voxelGrid.getVoxel x 1 z = some 0) := by
  refine ⟨_, decodeVoxels_eq c inf mif level hlev hfl hml, ?_⟩
  obtain ⟨h1, h2, h3, _, _, _⟩ := foldl_voxelStep_effect c inf mif (levelCells mif level)
    (levelCells_inside mif level) (initialState mif) (initialState_consistent c inf mif)
    (initialState_shape mif)
  obtain ⟨g1, g2, g3, g4⟩ := foldl_voxelStep_cell c inf mif (levelCells mif level)
    (levelCells_inside mif level) (levelCells_nodup mif level) (initialState mif)
    (initialState_consistent c inf mif) (initialState_shape mif) (cellAt mif level x z)
    (cellAt_mem_levelCells mif level hx hz)
  have ex : (cellAt mif level x z).x = x := rfl
  have ez : (cellAt mif level x z).z = z := rfl
  rw [ex, ez] at g1 g2 g3 g4
  refine ⟨h1, h2, h3, g1, ?_, g3, ?_⟩
  · intro hn
    have := g2 hn
    rw [initialState_getVoxel mif hx (by decide) hz] at this
    exact this
  · intro hn
    have := g4 hn
    rw [initialState_getVoxel mif hx (by decide) hz] at this
    exact this

/-- The keys of both mappings after the whole decode. -/
theorem decodeVoxels_keys (c : MIFConstants) (inf : INFFile) (mif : MIFFile) (level : Level) :
    (∀ k, k ∈ ((levelCells mif level).foldl (voxelStep c inf)
        (initialState mif)).floorDataMappings.map Prod.fst ↔
      ∃ q ∈ levelCells mif level, q.florVoxel = k ∧ notChasm c (floorTextureID k) = true) ∧
    (∀ k, k ∈ ((levelCells mif level).foldl (voxelStep c inf)
        (initialState mif)).wallDataMappings.map Prod.fst ↔
      ∃ q ∈ levelCells mif level, q.map1Voxel = k ∧ isWallVoxel k = true) := by
  obtain ⟨_, _, _, h4, h5, _⟩ := foldl_voxelStep_effect c inf mif (levelCells mif level)
    (levelCells_inside mif level) (initialState mif) (initialState_consistent c inf mif)
    (initialState_shape mif)
  constructor
  · intro k
    rw [h4 k]
    simp [initialState]
  · intro k
    rw [h5 k]
    simp [initialState]

theorem and_shiftRight (a b i : Nat) : (a &&& b) >>> i = (a >>> i) &&& (b >>> i) := by
  apply Nat.eq_of_testBit_eq
  intro j
  simp [Nat.testBit_shiftRight, Nat.testBit_and]

theorem and_7F00_shift (w : Nat) : (w &&& 0x7F00) >>> 8 = (w / 256) % 128 := by
  rw [and_shiftRight, Nat.shiftRight_eq_div_pow]
  exact Nat.and_pow_two_sub_one_eq_mod (w / 2 ^ 8) 7

theorem and_FF00_shift (w : Nat) : (w &&& 0xFF00) >>> 8 = (w / 256) % 256 := by
  rw [and_shiftRight, Nat.shiftRight_eq_div_pow]
  exact Nat.and_pow_two_sub_one_eq_mod (w / 2 ^ 8) 8

theorem and_00F0_shift (w : Nat) : (w &&& 0x00F0) >>> 4 = (w / 16) % 16 := by
  rw [and_shiftRight, Nat.shiftRight_eq_div_pow]
  exact Nat.and_pow_two_sub_one_eq_mod (w / 2 ^ 4) 4

theorem and_007F (w : Nat) : w &&& 0x007F = w % 128 :=
  Nat.and_pow_two_sub_one_eq_mod w 7

theorem and_000F (w : Nat) : w &&& 0x000F = w % 16 :=
  Nat.and_pow_two_sub_one_eq_mod w 4

theorem mostSigByte_eq (w : Nat) : mostSigByte w = (w &&& 0x7F00) >>> 8 := by
  unfold mostSigByte
  rw [and_7F00_shift]
  omega

theorem leastSigByte_eq (w : Nat) : leastSigByte w = w &&& 0x007F := by
  unfold leastSigByte
  rw [and_007F]
  omega

theorem capTextureID_eq (w : Nat) : capTextureID w = (w &&& 0x00F0) >>> 4 := by
  unfold capTextureID
  rw [and_00F0_shift]
  omega

theorem platformWallTextureID_eq (w : Nat) : platformWallTextureID w = w &&& 0x000F := by
  unfold platformWallTextureID
  rw [and_000F]
  omega

theorem isWallVoxel_iff (w : Nat) : isWallVoxel w = true ↔ w &&& 0x8000 = 0 ∧ w ≠ 0 := by
  simp [isWallVoxel]

theorem isWallVoxel_eq_false_iff (w : Nat) :
    isWallVoxel w = false ↔ w &&& 0x8000 ≠ 0 ∨ w = 0 := by
  rw [← Bool.not_eq_true, isWallVoxel_iff]
  tauto

theorem notChasm_iff (c : MIFConstants) (t : Nat) :
    notChasm c t = true ↔ t ≠ c.DRY_CHASM ∧ t ≠ c.WET_CHASM ∧ t ≠ c.LAVA_CHASM := by
  simp [notChasm, and_assoc]

theorem notChasm_eq_false_iff (c : MIFConstants) (t : Nat) :
    notChasm c t = false ↔ t = c.DRY_CHASM ∨ t = c.WET_CHASM ∨ t = c.LAVA_CHASM := by
  rw [← Bool.not_eq_true, notChasm_iff]
  tauto

/-! ## The claims -/

/-- C1. A wall word `w` with bit `0x8000` clear, `w != 0` and
`(w & 0x7F00) >> 8 = (w & 0x007F) = T`, read for the column `(x, z)`: the
decoder returns, `wallDataMappings` maps `w` to an index `i`, the descriptor at
index `i` is the solid wall `VoxelData(T, T, T, 0, ceiling height / ARENA_UNITS,
0, 1)`, and the voxel at `(x, 1, z)` holds `i` converted to the `char` of the
array, which is `i` itself exactly when `i < 128`: for an index from 128 on the
voxel does not hold the index of the descriptor. -/
theorem solid_wall_descriptor (c : MIFConstants) (inf : INFFile) (mif : MIFFile) (level : Level)
    (hlev : mif.levels.head? = some level)
    (hfl : level.flor.length = 2 * mif.width * mif.depth)
    (hml : level.map1.length = 2 * mif.width * mif.depth)
    (x z : Nat) (hx : x < mif.width) (hz : z < mif.depth) (w T : Nat)
    (hw : getLE16 level.map1 (2 * cellNumber mif.width mif.depth x z) = some w)
    (h1 : w &&& 0x8000 = 0) (h2 : w ≠ 0)
    (h3 : (w &&& 0x7F00) >>> 8 = T) (h4 : w &&& 0x007F = T) :
    ∃ s i, decodeVoxels c inf mif = some s ∧
      s.wallDataMappings.find w = some i ∧
      s.voxelGrid.voxelData[i]?
        = some (VoxelData.full T T T 0 ((inf.ceilingHeight : ℚ) / c.ARENA_UNITS) 0 1) ∧
      s.voxelGrid.getVoxel x 1 z = some (toChar i) ∧
      (s.voxelGrid.getVoxel x 1 z = some (i : Int) ↔ i < 128) := by
  obtain ⟨s, hs, hc, _, _, _, _, hwall, _⟩ :=
    decodeVoxels_cell c inf mif level hlev hfl hml x z hx hz
  have hq : (cellAt mif level x z).map1Voxel = w := wordAt_of_getLE16 hw
  rw [hq] at hwall
  obtain ⟨i, hi1, hi2⟩ := hwall ((isWallVoxel_iff w).2 ⟨h1, h2⟩)
  have hlt := lt_length_of_getElem?_eq_some (hc.wall_data w i hi1).2.1
  refine ⟨s, i, hs, hi1, ?_, hi2, getVoxel_eq_index_iff hi2⟩
  rw [(hc.wall_data w i hi1).2.1]
  have hm : mostSigByte w = T := by rw [mostSigByte_eq, h3]
  have hl : leastSigByte w = T := by rw [leastSigByte_eq, h4]
  simp [wallData, solidWallData, hm, hl, ceilingHeight]

/-- C2. A wall word `w` with bit `0x8000` clear, `w != 0` and
`M = (w & 0x7F00) >> 8` different from `w & 0x007F`, read for the column
`(x, z)`: the decoder returns, `wallDataMappings` maps `w` to an index `i`, the
descriptor at index `i` is the raised platform with side texture `w & 0x000F`,
cap textures `(w & 0x00F0) >> 4`, Y offset 0, height `M / ARENA_UNITS`, top V
`max(0, 1 - M / ARENA_UNITS)` and bottom V 1, and the voxel at `(x, 1, z)`
holds `i` converted to the `char` of the array, which is `i` itself exactly
when `i < 128`: for an index from 128 on the voxel does not hold the index of
the descriptor. -/
theorem raised_platform_descriptor (c : MIFConstants) (inf : INFFile) (mif : MIFFile)
    (level : Level) (hlev : mif.levels.head? = some level)
    (hfl : level.flor.length = 2 * mif.width * mif.depth)
    (hml : level.map1.length = 2 * mif.width * mif.depth)
    (x z : Nat) (hx : x < mif.width) (hz : z < mif.depth) (w M : Nat)
    (hw : getLE16 level.map1 (2 * cellNumber mif.width mif.depth x z) = some w)
    (h1 : w &&& 0x8000 = 0) (h2 : w ≠ 0)
    (h3 : (w &&& 0x7F00) >>> 8 = M) (h4 : M ≠ w &&& 0x007F) :
    ∃ s i, decodeVoxels c inf mif = some s ∧
      s.wallDataMappings.find w = some i ∧
      s.voxelGrid.voxelData[i]?
        = some (VoxelData.full (w &&& 0x000F) ((w &&& 0x00F0) >>> 4) ((w &&& 0x00F0) >>> 4)
            0 ((M : ℚ) / c.ARENA_UNITS) (max 0 (1 - (M : ℚ) / c.ARENA_UNITS)) 1) ∧
      s.voxelGrid.getVoxel x 1 z = some (toChar i) ∧
      (s.voxelGrid.getVoxel x 1 z = some (i : Int) ↔ i < 128) := by
  obtain ⟨s, hs, hc, _, _, _, _, hwall, _⟩ :=
    decodeVoxels_cell c inf mif level hlev hfl hml x z hx hz
  have hq : (cellAt mif level x z).map1Voxel = w := wordAt_of_getLE16 hw
  rw [hq] at hwall
  obtain ⟨i, hi1, hi2⟩ := hwall ((isWallVoxel_iff w).2 ⟨h1, h2⟩)
  have hlt := lt_length_of_getElem?_eq_some (hc.wall_data w i hi1).2.1
  refine ⟨s, i, hs, hi1, ?_, hi2, getVoxel_eq_index_iff hi2⟩
  rw [(hc.wall_data w i hi1).2.1]
  have hm : mostSigByte w = M := by rw [mostSigByte_eq, h3]
  have hl : ¬ (M = leastSigByte w) := by rw [leastSigByte_eq]; exact h4
  simp [wallData, platformData, platformHeight, hm, hl, capTextureID_eq,
    platformWallTextureID_eq]

theorem and_0080_eq_zero {w : Nat} (h : w &&& 0x0080 = 0) : (w / 128) % 2 = 0 := by
  have h2 := Nat.and_two_pow w 7
  have h3 : w.testBit 7 = decide (w / 2 ^ 7 % 2 = 1) := Nat.testBit_to_div_mod
  rw [show (0x0080 : Nat) = 2 ^ 7 from rfl, h2, h3] at h
  by_cases hb : w / 2 ^ 7 % 2 = 1
  · simp [hb] at h
    exact h
  · have : w / 2 ^ 7 = w / 128 := rfl
    omega

theorem wallData_0180 (c : MIFConstants) (inf : INFFile) :
    (wallData c inf 0x0180).textureRefs = [0, 8, 8] := by
  have h1 : mostSigByte 0x0180 = 1 := by decide
  have h2 : leastSigByte 0x0180 = 0 := by decide
  have h3 : capTextureID 0x0180 = 8 := by decide
  have h4 : platformWallTextureID 0x0180 = 0 := by decide
  simp [wallData, platformData, h1, h2, h3, h4, VoxelData.textureRefs]

/-- C3 as stated fails: `0x0180` is a raised-platform wall word (bit `0x8000`
clear, not zero, `(w & 0x7F00) >> 8 = 1` and `w & 0x007F = 0`), the nibble above
the low nibble of its 7-bit byte `w & 0x007F` is 0, and yet, whatever the
constants and the INF file are, the descriptor the decoder creates for it on
`chasmMIF`, where it is the wall word of the column `(0, 2)`, has cap texture 8,
outside `0..7`. -/
theorem cap_texture_counterexample :
    (0x0180 &&& 0x8000 = 0 ∧ 0x0180 ≠ 0 ∧ (0x0180 &&& 0x7F00) >>> 8 ≠ 0x0180 &&& 0x007F) ∧
    (0x0180 &&& 0x007F) >>> 4 = 0 ∧
    chasmMIF.levels.map (fun l => getLE16 l.map1 (2 * cellNumber 1 3 0 2)) = [some 0x0180] ∧
    (∀ (c : MIFConstants) (inf : INFFile), ∃ s i, decodeVoxels c inf chasmMIF = some s ∧
      s.wallDataMappings.find 0x0180 = some i ∧
      s.voxelGrid.voxelData[i]?.map VoxelData.textureRefs = some [0, 8, 8]) := by
  refine ⟨by decide, by decide, by decide, ?_⟩
  intro c inf
  obtain ⟨s, hs, hc, _, _, _, _, hwall, _⟩ :=
    decodeVoxels_cell c inf chasmMIF _ rfl (by decide) (by decide) 0 2 (by decide) (by decide)
  obtain ⟨i, hi1, _⟩ := hwall (by decide)
  have hq : (cellAt chasmMIF
      { flor := [0x00, 0x0C, 0x01, 0x03, 0x02, 0x03],
        map1 := [0x80, 0x01, 0x01, 0x03, 0x00, 0x00] } 0 2).map1Voxel = 0x0180 := by decide
  rw [hq] at hi1
  refine ⟨s, i, hs, hi1, ?_⟩
  rw [(hc.wall_data _ i hi1).2.1, Option.map_some', wallData_0180]

/-- C3, amended. For a raised-platform wall word `w` read for the column
`(x, z)`, the descriptor the decoder creates has as side texture the low nibble
of `leastSigByte = w & 0x007F` and as cap texture `(w & 0x00F0) >> 4`, that is
bits 4..7 of the raw word: a value in `0..15`, which is the next nibble of the
7-bit byte when bit `0x0080` of `w` is clear. -/
theorem platform_texture_identifiers (c : MIFConstants) (inf : INFFile) (mif : MIFFile)
    (level : Level) (hlev : mif.levels.head? = some level)
    (hfl : level.flor.length = 2 * mif.width * mif.depth)
    (hml : level.map1.length = 2 * mif.width * mif.depth)
    (x z : Nat) (hx : x < mif.width) (hz : z < mif.depth) (w : Nat)
    (hw : getLE16 level.map1 (2 * cellNumber mif.width mif.depth x z) = some w)
    (h1 : w &&& 0x8000 = 0) (h2 : w ≠ 0)
    (h3 : (w &&& 0x7F00) >>> 8 ≠ w &&& 0x007F) :
    ∃ s i side cap, decodeVoxels c inf mif = some s ∧
      s.wallDataMappings.find w = some i ∧
      s.voxelGrid.voxelData[i]?
        = some (VoxelData.full side cap cap 0 (platformHeight c w)
            (max 0 (1 - platformHeight c w)) 1) ∧
      side = (w &&& 0x007F) % 16 ∧
      cap = (w / 16) % 16 ∧ cap ≤ 15 ∧
      (w &&& 0x0080 = 0 → cap = (w &&& 0x007F) / 16) := by
  obtain ⟨s, hs, hc, _, _, _, _, hwall, _⟩ :=
    decodeVoxels_cell c inf mif level hlev hfl hml x z hx hz
  have hq : (cellAt mif level x z).map1Voxel = w := wordAt_of_getLE16 hw
  rw [hq] at hwall
  obtain ⟨i, hi1, hi2⟩ := hwall ((isWallVoxel_iff w).2 ⟨h1, h2⟩)
  refine ⟨s, i, (w &&& 0x007F) % 16, (w / 16) % 16, hs, hi1, ?_, rfl, rfl, by omega, ?_⟩
  · rw [(hc.wall_data w i hi1).2.1]
    have hl : ¬ (mostSigByte w = leastSigByte w) := by
      rw [mostSigByte_eq, leastSigByte_eq]; exact h3
    have e1 : platformWallTextureID w = (w &&& 0x007F) % 16 := by
      rw [platformWallTextureID_eq, and_000F, and_007F]; omega
    have e2 : capTextureID w = (w / 16) % 16 := by
      rw [capTextureID_eq, and_00F0_shift]
    simp only [wallData, if_neg hl, platformData, e1, e2]
  · intro h7
    have := and_0080_eq_zero h7
    rw [and_007F]
    omega

/-- C3, amended, on `sampleMIF`: for the wall word `0x1203` of the column
`(1, 0)` the side identifier is 3 and the cap identifier is 0. -/
theorem platform_texture_identifiers_witness :
    ∃ s i side cap, decodeVoxels sampleConstants sampleINF sampleMIF = some s ∧
      s.wallDataMappings.find 0x1203 = some i ∧
      s.voxelGrid.voxelData[i]?
        = some (VoxelData.full side cap cap 0 (platformHeight sampleConstants 0x1203)
            (max 0 (1 - platformHeight sampleConstants 0x1203)) 1) ∧
      side = 3 ∧ cap = 0 := by
  obtain ⟨s, i, side, cap, h1, h2, h3, h4, h5, _⟩ :=
    platform_texture_identifiers sampleConstants sampleINF sampleMIF _ rfl (by decide)
      (by decide) 1 0 (by decide) (by decide) 0x1203 (by decide) (by decide) (by decide)
      (by decide)
  exact ⟨s, i, side, cap, h1, h2, h3, h4, h5⟩

/-- C4. A wall word `w` that has bit `0x8000` set or is exactly 0, read for the
column `(x, z)`: the wall half of the loop body leaves every state as it is (no
write, no descriptor), and after the whole decode `wallDataMappings` has no
entry for `w` and the voxel at `(x, 1, z)` is still the air ID 0. -/
theorem object_or_empty_wall_skipped (c : MIFConstants) (inf : INFFile) (mif : MIFFile)
    (level : Level) (hlev : mif.levels.head? = some level)
    (hfl : level.flor.length = 2 * mif.width * mif.depth)
    (hml : level.map1.length = 2 * mif.width * mif.depth)
    (x z : Nat) (hx : x < mif.width) (hz : z < mif.depth) (w : Nat)
    (hw : getLE16 level.map1 (2 * cellNumber mif.width mif.depth x z) = some w)
    (h : w &&& 0x8000 ≠ 0 ∨ w = 0) :
    (∀ s0, wallStep c inf x z w s0 = s0) ∧
    ∃ s, decodeVoxels c inf mif = some s ∧
      s.wallDataMappings.find w = none ∧
      s.voxelGrid.getVoxel x 1 z = some 0 := by
  have hn : isWallVoxel w = false := (isWallVoxel_eq_false_iff w).2 h
  constructor
  · intro s0
    rw [wallStep_eq, hn]
    rfl
  · obtain ⟨s, hs, hc, _, _, _, _, _, hskip⟩ :=
      decodeVoxels_cell c inf mif level hlev hfl hml x z hx hz
    have hq : (cellAt mif level x z).map1Voxel = w := wordAt_of_getLE16 hw
    rw [hq] at hskip
    refine ⟨s, hs, ?_, hskip hn⟩
    cases hfind : s.wallDataMappings.find w with
    | none => rfl
    | some i =>
      have := (hc.wall_data w i hfind).2.2
      rw [hn] at this
      cases this

/-- C4, on `sampleMIF`: the wall word `0x8001` of the column `(0, 1)`. -/
theorem object_or_empty_wall_skipped_witness :
    (∀ s0, wallStep sampleConstants sampleINF 0 1 0x8001 s0 = s0) ∧
    ∃ s, decodeVoxels sampleConstants sampleINF sampleMIF = some s ∧
      s.wallDataMappings.find 0x8001 = none ∧
      s.voxelGrid.getVoxel 0 1 1 = some 0 :=
  object_or_empty_wall_skipped sampleConstants sampleINF sampleMIF _ rfl (by decide) (by decide)
    0 1 (by decide) (by decide) 0x8001 (by decide) (by decide)

/-- C5. A floor word `f` whose high byte is `DRY_CHASM`, `WET_CHASM` or
`LAVA_CHASM`, read for the column `(x, z)`: the floor half of the loop body
leaves every state as it is (no write, no descriptor), and after the whole
decode, which starts from an all-air grid, `floorDataMappings` has no entry for
`f` and the voxel at `(x, 0, z)` is still the air ID 0. -/
theorem chasm_floor_skipped (c : MIFConstants) (inf : INFFile) (mif : MIFFile)
    (level : Level) (hlev : mif.levels.head? = some level)
    (hfl : level.flor.length = 2 * mif.width * mif.depth)
    (hml : level.map1.length = 2 * mif.width * mif.depth)
    (x z : Nat) (hx : x < mif.width) (hz : z < mif.depth) (f : Nat)
    (hf : getLE16 level.flor (2 * cellNumber mif.width mif.depth x z) = some f)
    (h : (f &&& 0xFF00) >>> 8 = c.DRY_CHASM ∨ (f &&& 0xFF00) >>> 8 = c.WET_CHASM ∨
      (f &&& 0xFF00) >>> 8 = c.LAVA_CHASM) :
    (∀ s0, floorStep c x z f s0 = s0) ∧
    ∃ s, decodeVoxels c inf mif = some s ∧
      s.floorDataMappings.find f = none ∧
      s.voxelGrid.getVoxel x 0 z = some 0 := by
  have hn : notChasm c (floorTextureID f) = false := (notChasm_eq_false_iff c _).2 h
  constructor
  · intro s0
    rw [floorStep_eq, hn]
    rfl
  · obtain ⟨s, hs, hc, _, _, _, hskip, _, _⟩ :=
      decodeVoxels_cell c inf mif level hlev hfl hml x z hx hz
    have hq : (cellAt mif level x z).florVoxel = f := wordAt_of_getLE16 hf
    rw [hq] at hskip
    refine ⟨s, hs, ?_, hskip hn⟩
    cases hfind : s.floorDataMappings.find f with
    | none => rfl
    | some i =>
      have := (hc.floor_data f i hfind).2.2
      rw [hn] at this
      cases this

/-- C5, on `chasmMIF`: the floor word `0x0C00` of the column `(0, 2)`. -/
theorem chasm_floor_skipped_witness :
    (∀ s0, floorStep sampleConstants 0 2 0x0C00 s0 = s0) ∧
    ∃ s, decodeVoxels sampleConstants sampleINF chasmMIF = some s ∧
      s.floorDataMappings.find 0x0C00 = none ∧
      s.voxelGrid.getVoxel 0 0 2 = some 0 :=
  chasm_floor_skipped sampleConstants sampleINF chasmMIF _ rfl (by decide) (by decide)
    0 2 (by decide) (by decide) 0x0C00 (by decide) (by decide)

/-- C6. A floor word `f` whose high byte `(f & 0xFF00) >> 8` is none of the
three chasm identifiers, read for the column `(x, z)`: the decoder returns,
`floorDataMappings` maps `f` to an index `i`, the descriptor at index `i` is
`VoxelData(high byte)`, whose only texture reference is that byte, and the
voxel at `(x, 0, z)` holds `i` converted to the `char` of the array, which is
`i` itself exactly when `i < 128`: for an index from 128 on the voxel does not
hold the index of the descriptor. -/
theorem floor_descriptor (c : MIFConstants) (inf : INFFile) (mif : MIFFile)
    (level : Level) (hlev : mif.levels.head? = some level)
    (hfl : level.flor.length = 2 * mif.width * mif.depth)
    (hml : level.map1.length = 2 * mif.width * mif.depth)
    (x z : Nat) (hx : x < mif.width) (hz : z < mif.depth) (f : Nat)
    (hf : getLE16 level.flor (2 * cellNumber mif.width mif.depth x z) = some f)
    (h1 : (f &&& 0xFF00) >>> 8 ≠ c.DRY_CHASM) (h2 : (f &&& 0xFF00) >>> 8 ≠ c.WET_CHASM)
    (h3 : (f &&& 0xFF00) >>> 8 ≠ c.LAVA_CHASM) :
    ∃ s i, decodeVoxels c inf mif = some s ∧
      s.floorDataMappings.find f = some i ∧
      s.voxelGrid.voxelData[i]? = some (VoxelData.ofId ((f &&& 0xFF00) >>> 8)) ∧
      s.voxelGrid.voxelData[i]?.map VoxelData.textureRefs = some [(f &&& 0xFF00) >>> 8] ∧
      s.voxelGrid.getVoxel x 0 z = some (toChar i) ∧
      (s.voxelGrid.getVoxel x 0 z = some (i : Int) ↔ i < 128) := by
  obtain ⟨s, hs, hc, _, _, hfloor, _, _, _⟩ :=
    decodeVoxels_cell c inf mif level hlev hfl hml x z hx hz
  have hq : (cellAt mif level x z).florVoxel = f := wordAt_of_getLE16 hf
  rw [hq] at hfloor
  obtain ⟨i, hi1, hi2⟩ := hfloor ((notChasm_iff c _).2 ⟨h1, h2, h3⟩)
  have hd := (hc.floor_data f i hi1).2.1
  have hlt := lt_length_of_getElem?_eq_some hd
  refine ⟨s, i, hs, hi1, hd, ?_, hi2, getVoxel_eq_index_iff hi2⟩
  rw [hd]
  rfl

theorem levelCells_length (mif : MIFFile) (level : Level) :
    (levelCells mif level).length = mif.width * mif.depth := by
  have h := congrArg List.length (levelCells_positions mif level)
  rw [List.length_map] at h
  rw [h]
  exact (List.length_product _ _).trans (by simp [countDown])

/-- Every word number below `width * depth` is the number of a column of the grid. -/
theorem cellNumber_surj {width depth k : Nat} (hk : k < width * depth) :
    width - 1 - k / depth < width ∧ depth - 1 - k % depth < depth ∧
      cellNumber width depth (width - 1 - k / depth) (depth - 1 - k % depth) = k := by
  have hd : 0 < depth := by
    rcases Nat.eq_zero_or_pos depth with h | h
    · rw [h] at hk; simp at hk
    · exact h
  have hw : 0 < width := by
    rcases Nat.eq_zero_or_pos width with h | h
    · rw [h] at hk; simp at hk
    · exact h
  have h1 : k / depth < width := Nat.div_lt_of_lt_mul (by rw [Nat.mul_comm]; exact hk)
  have h2 : k % depth < depth := Nat.mod_lt _ hd
  have h3 : k / depth * depth + k % depth = k := Nat.div_add_mod' k depth
  unfold cellNumber
  generalize k / depth = a at h1 h3 ⊢
  generalize k % depth = b at h2 h3 ⊢
  have e1 : width - 1 - (width - 1 - a) = a := by omega
  have e2 : depth - 1 - (depth - 1 - b) = b := by omega
  rw [e1, e2]
  exact ⟨by omega, by omega, h3⟩

/-- The words of a byte array of `2 * width * depth` bytes are the words the
loop reads for the columns of the grid. -/
theorem mem_levelWords (mif : MIFFile) (buf : List Nat)
    (hlen : buf.length = 2 * mif.width * mif.depth) (w : Nat) :
    w ∈ (List.range (mif.width * mif.depth)).filterMap (fun k => getLE16 buf (2 * k)) ↔
      ∃ x z, x < mif.width ∧ z < mif.depth ∧
        wordAt buf (cellNumber mif.width mif.depth x z) = w := by
  simp only [List.mem_filterMap, List.mem_range]
  constructor
  · rintro ⟨k, hk, hw⟩
    obtain ⟨h1, h2, h3⟩ := cellNumber_surj hk
    exact ⟨_, _, h1, h2, by rw [h3]; exact wordAt_of_getLE16 hw⟩
  · rintro ⟨x, z, hx, hz, hw⟩
    have hk := cellNumber_lt hx hz
    refine ⟨_, hk, ?_⟩
    rw [getLE16_eq_wordAt (by rw [hlen, Nat.mul_assoc]; omega), hw]

theorem exists_mem_levelCells_iff (mif : MIFFile) (level : Level) (P : Cell → Prop) :
    (∃ q ∈ levelCells mif level, P q) ↔
      ∃ x z, x < mif.width ∧ z < mif.depth ∧ P (cellAt mif level x z) := by
  constructor
  · rintro ⟨q, hq, hp⟩
    obtain ⟨h1, h2, h3⟩ := mem_levelCells.1 hq
    exact ⟨q.x, q.z, h1, h2, by rw [← h3]; exact hp⟩
  · rintro ⟨x, z, hx, hz, hp⟩
    exact ⟨_, cellAt_mem_levelCells mif level hx hz, hp⟩

theorem length_le_of_nodup_of_subset {l : List Nat} {qs : List Cell} (g : Cell → Nat)
    (hnd : l.Nodup) (hsub : ∀ k ∈ l, ∃ q ∈ qs, g q = k) : l.length ≤ qs.length := by
  have h : l ⊆ qs.map g := by
    intro k hk
    obtain ⟨q, hq, rfl⟩ := hsub k hk
    exact List.mem_map_of_mem g hq
  have := (List.subperm_of_subset hnd h).length_le
  simpa using this

/-- The tables after the whole decode: they are consistent, the keys of each
mapping are the words of the level that mapping is for, and the table has at
most one descriptor for each word read, besides the empty one. -/
theorem decodeVoxels_tables (c : MIFConstants) (inf : INFFile) (mif : MIFFile) (level : Level)
    (hlev : mif.levels.head? = some level)
    (hfl : level.flor.length = 2 * mif.width * mif.depth)
    (hml : level.map1.length = 2 * mif.width * mif.depth)
    (s : DecodeState) (hs : decodeVoxels c inf mif = some s) :
    Consistent c inf s ∧
    (∀ k, k ∈ s.floorDataMappings.map Prod.fst ↔
      (k ∈ (List.range (mif.width * mif.depth)).filterMap (fun j => getLE16 level.flor (2 * j)) ∧
        notChasm c (floorTextureID k) = true)) ∧
    (∀ k, k ∈ s.wallDataMappings.map Prod.fst ↔
      (k ∈ (List.range (mif.width * mif.depth)).filterMap (fun j => getLE16 level.map1 (2 * j)) ∧
        isWallVoxel k = true)) ∧
    s.voxelGrid.voxelData.length ≤ 1 + 2 * (mif.width * mif.depth) := by
  rw [decodeVoxels_eq c inf mif level hlev hfl hml] at hs
  cases hs
  obtain ⟨h1, _, _, _, _, _⟩ := foldl_voxelStep_effect c inf mif (levelCells mif level)
    (levelCells_inside mif level) (initialState mif) (initialState_consistent c inf mif)
    (initialState_shape mif)
  obtain ⟨k1, k2⟩ := decodeVoxels_keys c inf mif level
  refine ⟨h1, ?_, ?_, ?_⟩
  · intro k
    rw [k1 k, mem_levelWords mif level.flor hfl k,
      exists_mem_levelCells_iff mif level
        (fun q => q.florVoxel = k ∧ notChasm c (floorTextureID k) = true)]
    constructor
    · rintro ⟨x, z, hx, hz, hq, hn⟩
      exact ⟨⟨x, z, hx, hz, hq⟩, hn⟩
    · rintro ⟨⟨x, z, hx, hz, hq⟩, hn⟩
      exact ⟨x, z, hx, hz, hq, hn⟩
  · intro k
    rw [k2 k, mem_levelWords mif level.map1 hml k,
      exists_mem_levelCells_iff mif level
        (fun q => q.map1Voxel = k ∧ isWallVoxel k = true)]
    constructor
    · rintro ⟨x, z, hx, hz, hq, hn⟩
      exact ⟨⟨x, z, hx, hz, hq⟩, hn⟩
    · rintro ⟨⟨x, z, hx, hz, hq⟩, hn⟩
      exact ⟨x, z, hx, hz, hq, hn⟩
  · have l1 := length_le_of_nodup_of_subset (fun q => q.florVoxel) h1.floor_nodup
      (fun k hk => by
        obtain ⟨q, hq, hq', _⟩ := (k1 k).1 hk
        exact ⟨q, hq, hq'⟩)
    have l2 := length_le_of_nodup_of_subset (fun q => q.map1Voxel) h1.wall_nodup
      (fun k hk => by
        obtain ⟨q, hq, hq', _⟩ := (k2 k).1 hk
        exact ⟨q, hq, hq'⟩)
    rw [List.length_map, levelCells_length] at l1 l2
    have := h1.count
    omega

theorem single_key_mapping {m : DataMappings} {a i : Nat} (hnd : (m.map Prod.fst).Nodup)
    (hall : ∀ k ∈ m.map Prod.fst, k = a) (hfind : m.find a = some i) : m = [(a, i)] := by
  match m, hnd, hall, hfind with
  | [], _, _, hfind => simp [find_nil] at hfind
  | [(k, v)], _, hall, hfind =>
    have hk : k = a := hall k (by simp)
    subst hk
    simp [find_cons] at hfind
    rw [hfind]
  | (k, v) :: (k', v') :: rest, hnd, hall, _ =>
    have hk : k = a := hall k (by simp)
    have hk' : k' = a := hall k' (by simp)
    simp [hk, hk'] at hnd

theorem filter_key_length (m : DataMappings) (hnd : (m.map Prod.fst).Nodup) (v : Nat) :
    (m.filter (fun e => e.1 == v)).length = if v ∈ m.map Prod.fst then 1 else 0 := by
  induction m with
  | nil => simp
  | cons e m ih =>
    obtain ⟨k, x⟩ := e
    simp only [List.map_cons, List.nodup_cons] at hnd
    have ih' := ih hnd.2
    by_cases hk : k = v
    · subst hk
      have : (k ∉ m.map Prod.fst) := hnd.1
      rw [if_neg this] at ih'
      simp [List.filter_cons, ih']
    · have hb : (k == v) = false := by simpa using hk
      have hne : ¬ (v = k) := fun h => hk h.symm
      simp only [List.filter_cons, hb, List.map_cons, List.mem_cons, hne, false_or]
      exact ih'

/-- C7 as stated fails: on `sampleMIF`, a 2x2 level whose floor word is
`0x0205` in every cell, whatever the constants and the INF file are, the
descriptor designated by the voxel at `(0, 0, 0)` does not have 5 among its
texture references. -/
theorem shared_floor_descriptor_counterexample :
    ¬ ∃ (c : MIFConstants) (inf : INFFile) (s : DecodeState) (i : Nat) (d : VoxelData),
      decodeVoxels c inf sampleMIF = some s ∧ s.voxelGrid.getVoxel 0 0 0 = some (i : Int) ∧
        s.voxelGrid.voxelData[i]? = some d ∧ 5 ∈ d.textureRefs := by
  rintro ⟨c, inf, s, i, d, hs, hg, hd, h5⟩
  obtain ⟨s', hs', hc, _, _, hfloor, hskip, _, _⟩ :=
    decodeVoxels_cell c inf sampleMIF _ rfl (by decide) (by decide) 0 0 (by decide) (by decide)
  rw [hs] at hs'
  cases hs'
  obtain ⟨_, _, _, hlen⟩ := decodeVoxels_tables c inf sampleMIF _ rfl (by decide) (by decide) s hs
  have hq : (cellAt sampleMIF
      { flor := [0x05, 0x02, 0x05, 0x02, 0x05, 0x02, 0x05, 0x02],
        map1 := [0x07, 0x07, 0x03, 0x12, 0x01, 0x80, 0x00, 0x00] } 0 0).florVoxel = 0x0205 := by
    decide
  have ht : floorTextureID 0x0205 = 2 := by decide
  rw [hq, ht] at hfloor hskip
  cases hn : notChasm c 2 with
  | false =>
    have h0 := hskip hn
    rw [hg] at h0
    have hi0 : i = 0 := by
      have := Option.some.inj h0
      omega
    subst hi0
    rw [hc.air] at hd
    cases hd
    simp [VoxelData.textureRefs] at h5
  | true =>
    obtain ⟨j, hj1, hj2⟩ := hfloor hn
    have hdj := (hc.floor_data _ j hj1).2.1
    have hlt := lt_length_of_getElem?_eq_some hdj
    have hw : sampleMIF.width * sampleMIF.depth = 4 := rfl
    rw [hw] at hlen
    rw [(toChar_eq_self_iff j).2 (by omega), hg] at hj2
    have hij : i = j := by
      have := Option.some.inj hj2
      omega
    subst hij
    rw [hdj, ht] at hd
    cases hd
    simp [VoxelData.textureRefs] at h5

/-- C7, amended. Decoding a 2x2 level whose floor word is `0x0205` in every
cell, when 2 is not a chasm identifier: all four voxels at `y = 0` hold the same
index `i`, the descriptor at index `i` is `VoxelData(2)`, whose texture
reference is 2, the high byte of `0x0205`, and it is the only floor descriptor:
`floorDataMappings` has the single entry `(0x0205, i)`. -/
theorem shared_floor_descriptor (c : MIFConstants) (inf : INFFile) (mif : MIFFile)
    (level : Level) (hlev : mif.levels.head? = some level)
    (hwidth : mif.width = 2) (hdepth : mif.depth = 2)
    (hfl : level.flor.length = 8) (hml : level.map1.length = 8)
    (hwords : ∀ k, k < 4 → getLE16 level.flor (2 * k) = some 0x0205)
    (h2 : notChasm c 2 = true) :
    ∃ (s : DecodeState) (i : Nat), decodeVoxels c inf mif = some s ∧
      (∀ x z, x < 2 → z < 2 → s.voxelGrid.getVoxel x 0 z = some (i : Int)) ∧
      s.voxelGrid.voxelData[i]? = some (VoxelData.ofId 2) ∧
      s.voxelGrid.voxelData[i]?.map VoxelData.textureRefs = some [2] ∧
      s.floorDataMappings = [(0x0205, i)] := by
  have hfl' : level.flor.length = 2 * mif.width * mif.depth := by rw [hwidth, hdepth, hfl]
  have hml' : level.map1.length = 2 * mif.width * mif.depth := by rw [hwidth, hdepth, hml]
  have ht : floorTextureID 0x0205 = 2 := by decide
  have hcell : ∀ x z, x < 2 → z < 2 → (cellAt mif level x z).florVoxel = 0x0205 := by
    intro x z hx hz
    have hk : cellNumber mif.width mif.depth x z < 4 := by
      have := cellNumber_lt (show x < mif.width by omega) (show z < mif.depth by omega)
      have h4 : mif.width * mif.depth = 4 := by rw [hwidth, hdepth]
      rw [h4] at this
      exact this
    exact wordAt_of_getLE16 (hwords _ hk)
  obtain ⟨s, hs, hc, _, _, hfloor, _, _, _⟩ :=
    decodeVoxels_cell c inf mif level hlev hfl' hml' 0 0 (by omega) (by omega)
  obtain ⟨_, hkeys, _, hlen⟩ := decodeVoxels_tables c inf mif level hlev hfl' hml' s hs
  rw [hcell 0 0 (by omega) (by omega), ht] at hfloor
  obtain ⟨i, hi1, _⟩ := hfloor h2
  have hdi := (hc.floor_data _ i hi1).2.1
  rw [ht] at hdi
  have hlt := lt_length_of_getElem?_eq_some hdi
  rw [hwidth, hdepth] at hlen
  refine ⟨s, i, hs, ?_, hdi, by rw [hdi]; rfl, ?_⟩
  · intro x z hx hz
    obtain ⟨s', hs', _, _, _, hfloor', _, _, _⟩ :=
      decodeVoxels_cell c inf mif level hlev hfl' hml' x z (by omega) (by omega)
    rw [hs] at hs'
    cases hs'
    rw [hcell x z hx hz, ht] at hfloor'
    obtain ⟨j, hj1, hj2⟩ := hfloor' h2
    rw [hi1] at hj1
    cases hj1
    rw [hj2, (toChar_eq_self_iff i).2 (by omega)]
  · apply single_key_mapping hc.floor_nodup _ hi1
    intro k hk
    obtain ⟨hmem, _⟩ := (hkeys k).1 hk
    simp only [List.mem_filterMap, List.mem_range] at hmem
    obtain ⟨j, hj, hjw⟩ := hmem
    rw [hwidth, hdepth] at hj
    rw [hwords j hj] at hjw
    cases hjw
    rfl

/-- C7, amended, on `sampleMIF` with `sampleConstants`. -/
theorem shared_floor_descriptor_witness :
    ∃ (s : DecodeState) (i : Nat), decodeVoxels sampleConstants sampleINF sampleMIF = some s ∧
      (∀ x z, x < 2 → z < 2 → s.voxelGrid.getVoxel x 0 z = some (i : Int)) ∧
      s.voxelGrid.voxelData[i]? = some (VoxelData.ofId 2) ∧
      s.voxelGrid.voxelData[i]?.map VoxelData.textureRefs = some [2] ∧
      s.floorDataMappings = [(0x0205, i)] :=
  shared_floor_descriptor sampleConstants sampleINF sampleMIF _ rfl rfl rfl (by decide)
    (by decide) (by decide) (by decide)

/-- C8. The descriptors created for wall cells are as many as the distinct
wall words of the level that are non-zero and have bit `0x8000` clear: that
number is the number of entries of `wallDataMappings` and also the number of
descriptors in the table that were built by the wall lambdas. -/
theorem wall_descriptor_count (c : MIFConstants) (inf : INFFile) (mif : MIFFile)
    (level : Level) (hlev : mif.levels.head? = some level)
    (hfl : level.flor.length = 2 * mif.width * mif.depth)
    (hml : level.map1.length = 2 * mif.width * mif.depth) :
    ∃ s, decodeVoxels c inf mif = some s ∧
      s.wallDataMappings.length = ((wallWords mif level).filter isWallVoxel).dedup.length ∧
      s.voxelGrid.voxelData.countP VoxelData.isFull
        = ((wallWords mif level).filter isWallVoxel).dedup.length := by
  have hs := decodeVoxels_eq c inf mif level hlev hfl hml
  generalize (levelCells mif level).foldl (voxelStep c inf) (initialState mif) = s at hs
  obtain ⟨hc, _, hkeys, _⟩ := decodeVoxels_tables c inf mif level hlev hfl hml s hs
  have hperm : (s.wallDataMappings.map Prod.fst).Perm
      ((wallWords mif level).filter isWallVoxel).dedup := by
    rw [List.perm_ext_iff_of_nodup hc.wall_nodup (List.nodup_dedup _)]
    intro k
    rw [hkeys k, List.mem_dedup, List.mem_filter]
    rfl
  have hlen := hperm.length_eq
  rw [List.length_map] at hlen
  exact ⟨s, hs, hlen, hc.wall_count.trans hlen⟩

/-- C8, on `sampleMIF`: two wall descriptors, for `0x0707` and `0x1203`. -/
theorem wall_descriptor_count_witness :
    ∃ s, decodeVoxels sampleConstants sampleINF sampleMIF = some s ∧
      s.wallDataMappings.length = 2 ∧
      s.voxelGrid.voxelData.countP VoxelData.isFull = 2 :=
  wall_descriptor_count sampleConstants sampleINF sampleMIF _ rfl (by decide) (by decide)

/-- Among 1, 2, 3 and 4 at least one is none of the three chasm identifiers. -/
theorem exists_notChasm (c : MIFConstants) :
    notChasm c 1 = true ∨ notChasm c 2 = true ∨ notChasm c 3 = true ∨ notChasm c 4 = true := by
  by_contra hcon
  simp only [not_or, Bool.not_eq_true, notChasm_eq_false_iff] at hcon
  omega

/-- A value that is the floor word of a column, not a chasm, and the wall word
of a column, non-zero with bit `0x8000` clear, has two descriptors. -/
theorem descriptorsWithKey_length_two (c : MIFConstants) (inf : INFFile) (mif : MIFFile)
    (level : Level) (hlev : mif.levels.head? = some level)
    (hfl : level.flor.length = 2 * mif.width * mif.depth)
    (hml : level.map1.length = 2 * mif.width * mif.depth)
    (s : DecodeState) (hs : decodeVoxels c inf mif = some s) (v : Nat)
    (h1 : v ∈ floorWords mif level) (h2 : notChasm c (floorTextureID v) = true)
    (h3 : v ∈ wallWords mif level) (h4 : isWallVoxel v = true) :
    (descriptorsWithKey s v).length = 2 := by
  obtain ⟨hc, hfk, hwk, _⟩ := decodeVoxels_tables c inf mif level hlev hfl hml s hs
  have e1 := filter_key_length s.floorDataMappings hc.floor_nodup v
  have e2 := filter_key_length s.wallDataMappings hc.wall_nodup v
  rw [if_pos ((hfk v).2 ⟨h1, h2⟩)] at e1
  rw [if_pos ((hwk v).2 ⟨h3, h4⟩)] at e2
  simp only [descriptorsWithKey, List.filter_append, List.length_map, List.length_append,
    e1, e2]

theorem twiceMIF_two_descriptors (c : MIFConstants) (inf : INFFile) (h : Nat)
    (hh : h = 1 ∨ h = 2 ∨ h = 3 ∨ h = 4) (hn : notChasm c h = true) :
    ∃ s, decodeVoxels c inf (twiceMIF h) = some s ∧
      (descriptorsWithKey s (h + 256 * h)).length = 2 := by
  obtain ⟨s, hs, _⟩ := decodeVoxels_cell c inf (twiceMIF h) _ rfl rfl rfl 0 0
    Nat.one_pos Nat.one_pos
  refine ⟨s, hs, ?_⟩
  apply descriptorsWithKey_length_two c inf (twiceMIF h) _ rfl rfl rfl s hs
  · rcases hh with rfl | rfl | rfl | rfl <;> decide
  · have : floorTextureID (h + 256 * h) = h := by
      rcases hh with rfl | rfl | rfl | rfl <;> decide
    rw [this]; exact hn
  · rcases hh with rfl | rfl | rfl | rfl <;> decide
  · rcases hh with rfl | rfl | rfl | rfl <;> decide

/-- C9 as stated fails: on `chasmMIF` the value `0x0301` is the floor word of
the column `(0, 1)` and also its wall word, and the decoder creates two
descriptors with raw key `0x0301`: `VoxelData(3)` at index 2, through
`floorDataMappings`, and a raised platform at index 3, through
`wallDataMappings`.  The same happens whatever the constants are: for one of
the bytes `h = 1, 2, 3, 4` the 1x1 map with floor and wall word `h + 256 * h`
gets two descriptors with that raw key. -/
theorem one_descriptor_per_value_counterexample :
    (∃ s, decodeVoxels sampleConstants sampleINF chasmMIF = some s ∧
      chasmMIF.levels.map (fun l => getLE16 l.flor (2 * cellNumber 1 3 0 1)) = [some 0x0301] ∧
      chasmMIF.levels.map (fun l => getLE16 l.map1 (2 * cellNumber 1 3 0 1)) = [some 0x0301] ∧
      descriptorsWithKey s 0x0301 = [2, 3] ∧
      s.voxelGrid.voxelData[2]?.map VoxelData.textureRefs = some [3] ∧
      s.voxelGrid.voxelData[3]?.map VoxelData.textureRefs = some [1, 0, 0]) ∧
    (∀ (c : MIFConstants) (inf : INFFile), ∃ h s, decodeVoxels c inf (twiceMIF h) = some s ∧
      (descriptorsWithKey s (h + 256 * h)).length = 2) := by
  refine ⟨⟨_, rfl, by decide, by decide, by decide, by decide, by decide⟩, ?_⟩
  intro c inf
  rcases exists_notChasm c with h | h | h | h
  · obtain ⟨s, hs⟩ := twiceMIF_two_descriptors c inf 1 (by decide) h
    exact ⟨1, s, hs⟩
  · obtain ⟨s, hs⟩ := twiceMIF_two_descriptors c inf 2 (by decide) h
    exact ⟨2, s, hs⟩
  · obtain ⟨s, hs⟩ := twiceMIF_two_descriptors c inf 3 (by decide) h
    exact ⟨3, s, hs⟩
  · obtain ⟨s, hs⟩ := twiceMIF_two_descriptors c inf 4 (by decide) h
    exact ⟨4, s, hs⟩

theorem mem_of_find {m : DataMappings} {k i : Nat} (h : m.find k = some i) : (k, i) ∈ m := by
  induction m with
  | nil => cases h
  | cons e m ih =>
    obtain ⟨k0, v0⟩ := e
    rw [find_cons] at h
    by_cases hk : k = k0
    · rw [if_pos hk] at h
      cases h
      rw [hk]
      exact List.mem_cons_self _ _
    · rw [if_neg hk] at h
      exact List.mem_cons_of_mem _ (ih h)

theorem find_of_mem {m : DataMappings} {k i : Nat} (hnd : (m.map Prod.fst).Nodup)
    (h : (k, i) ∈ m) : m.find k = some i := by
  induction m with
  | nil => cases h
  | cons e m ih =>
    obtain ⟨k0, v0⟩ := e
    simp only [List.map_cons, List.nodup_cons] at hnd
    rw [find_cons]
    rcases List.mem_cons.1 h with h' | h'
    · cases h'
      rw [if_pos rfl]
    · have hne : k ≠ k0 := by
        intro hk
        rw [← hk] at hnd
        exact hnd.1 (List.mem_map.2 ⟨(k, i), h', rfl⟩)
      rw [if_neg hne]
      exact ih hnd.2 h'

/-- In a consistent state every descriptor of the table other than the air
descriptor at index 0 is the descriptor of a key of one of the two mappings. -/
theorem Consistent.index_onto {c : MIFConstants} {inf : INFFile} {s : DecodeState}
    (hc : Consistent c inf s) (j : Nat) (h1 : 1 ≤ j) (hj : j < s.voxelGrid.voxelData.length) :
    (∃ k, s.floorDataMappings.find k = some j) ∨ (∃ k, s.wallDataMappings.find k = some j) := by
  have hfn : (s.floorDataMappings.map Prod.snd).Nodup := by
    apply List.Nodup.map_on _ (List.Nodup.of_map _ hc.floor_nodup)
    rintro ⟨k, i⟩ hx ⟨k', i'⟩ hy hxy
    simp only at hxy
    subst hxy
    have := hc.floor_inj k k' i (find_of_mem hc.floor_nodup hx) (find_of_mem hc.floor_nodup hy)
    rw [this]
  have hwn : (s.wallDataMappings.map Prod.snd).Nodup := by
    apply List.Nodup.map_on _ (List.Nodup.of_map _ hc.wall_nodup)
    rintro ⟨k, i⟩ hx ⟨k', i'⟩ hy hxy
    simp only at hxy
    subst hxy
    have := hc.wall_inj k k' i (find_of_mem hc.wall_nodup hx) (find_of_mem hc.wall_nodup hy)
    rw [this]
  have hnd : (s.floorDataMappings.map Prod.snd ++ s.wallDataMappings.map Prod.snd).Nodup := by
    rw [List.nodup_append]
    refine ⟨hfn, hwn, ?_⟩
    intro i hi1 hi2
    obtain ⟨⟨k, i'⟩, hx, rfl⟩ := List.mem_map.1 hi1
    obtain ⟨⟨k', i''⟩, hy, hxy⟩ := List.mem_map.1 hi2
    simp only at hxy
    subst hxy
    have a := (hc.floor_data k _ (find_of_mem hc.floor_nodup hx)).2.1
    have b := (hc.wall_data k' _ (find_of_mem hc.wall_nodup hy)).2.1
    rw [a] at b
    exact wallData_ne_ofId c inf k' _ (Option.some.inj b).symm
  have hsub : (s.floorDataMappings.map Prod.snd ++ s.wallDataMappings.map Prod.snd)
      ⊆ List.range' 1 (s.voxelGrid.voxelData.length - 1) := by
    intro i hi
    rw [List.mem_range'_1]
    rcases List.mem_append.1 hi with hi | hi
    · obtain ⟨⟨k, i'⟩, hx, rfl⟩ := List.mem_map.1 hi
      have a := hc.floor_data k _ (find_of_mem hc.floor_nodup hx)
      have := lt_length_of_getElem?_eq_some a.2.1
      simp only
      omega
    · obtain ⟨⟨k, i'⟩, hx, rfl⟩ := List.mem_map.1 hi
      have a := hc.wall_data k _ (find_of_mem hc.wall_nodup hx)
      have := lt_length_of_getElem?_eq_some a.2.1
      simp only
      omega
  have hperm := (List.subperm_of_subset hnd hsub).perm_of_length_le (by
    rw [List.length_range', List.length_append, List.length_map, List.length_map, hc.count]
    omega)
  have hmem : j ∈ s.floorDataMappings.map Prod.snd ++ s.wallDataMappings.map Prod.snd := by
    rw [hperm.mem_iff, List.mem_range'_1]
    omega
  rcases List.mem_append.1 hmem with hi | hi
  · obtain ⟨⟨k, i'⟩, hx, rfl⟩ := List.mem_map.1 hi
    exact Or.inl ⟨k, find_of_mem hc.floor_nodup hx⟩
  · obtain ⟨⟨k, i'⟩, hx, rfl⟩ := List.mem_map.1 hi
    exact Or.inr ⟨k, find_of_mem hc.wall_nodup hx⟩

/-- C9, amended. Within one decode, for every value `v` at most one descriptor
is created with raw key `v` through `floorDataMappings` and at most one through
`wallDataMappings`; a value that occurs both as a floor word that is not a
chasm and as a wall word that is non-zero with bit `0x8000` clear gets exactly
two descriptors, one through each mapping.  In the table of voxel data: besides
the air descriptor at index 0 it holds exactly one descriptor for every
different floor word that is not a chasm and one for every different voxel wall
word; every index from 1 on is the index of a key of one of the two mappings;
no two keys of one mapping share an index, and no index belongs to both
mappings. -/
theorem one_descriptor_per_mapping (c : MIFConstants) (inf : INFFile) (mif : MIFFile)
    (level : Level) (hlev : mif.levels.head? = some level)
    (hfl : level.flor.length = 2 * mif.width * mif.depth)
    (hml : level.map1.length = 2 * mif.width * mif.depth) (v : Nat) :
    ∃ s, decodeVoxels c inf mif = some s ∧
      (s.floorDataMappings.filter (fun e => e.1 == v)).length ≤ 1 ∧
      (s.wallDataMappings.filter (fun e => e.1 == v)).length ≤ 1 ∧
      (v ∈ floorWords mif level → notChasm c (floorTextureID v) = true →
        v ∈ wallWords mif level → isWallVoxel v = true →
          (descriptorsWithKey s v).length = 2) ∧
      s.voxelGrid.voxelData.length
        = 1 + ((floorWords mif level).filter (fun f => notChasm c (floorTextureID f))).dedup.length
            + ((wallWords mif level).filter isWallVoxel).dedup.length ∧
      (∀ j, 1 ≤ j → j < s.voxelGrid.voxelData.length →
        (∃ k, s.floorDataMappings.find k = some j) ∨
          (∃ k, s.wallDataMappings.find k = some j)) ∧
      (∀ k k' j, s.floorDataMappings.find k = some j → s.floorDataMappings.find k' = some j →
        k = k') ∧
      (∀ k k' j, s.wallDataMappings.find k = some j → s.wallDataMappings.find k' = some j →
        k = k') ∧
      (∀ k k' j, s.floorDataMappings.find k = some j → s.wallDataMappings.find k' ≠ some j) ∧
      (∀ k j, s.floorDataMappings.find k = some j →
        s.voxelGrid.voxelData[j]? = some (VoxelData.ofId (floorTextureID k))) ∧
      (∀ k j, s.wallDataMappings.find k = some j →
        s.voxelGrid.voxelData[j]? = some (wallData c inf k)) := by
  have hs := decodeVoxels_eq c inf mif level hlev hfl hml
  generalize (levelCells mif level).foldl (voxelStep c inf) (initialState mif) = s at hs
  obtain ⟨hc, hfk, hwk, _⟩ := decodeVoxels_tables c inf mif level hlev hfl hml s hs
  have e1 := filter_key_length s.floorDataMappings hc.floor_nodup v
  have e2 := filter_key_length s.wallDataMappings hc.wall_nodup v
  have hfperm : (s.floorDataMappings.map Prod.fst).Perm
      ((floorWords mif level).filter (fun f => notChasm c (floorTextureID f))).dedup := by
    rw [List.perm_ext_iff_of_nodup hc.floor_nodup (List.nodup_dedup _)]
    intro k
    rw [hfk k, List.mem_dedup, List.mem_filter]
    rfl
  have hwperm : (s.wallDataMappings.map Prod.fst).Perm
      ((wallWords mif level).filter isWallVoxel).dedup := by
    rw [List.perm_ext_iff_of_nodup hc.wall_nodup (List.nodup_dedup _)]
    intro k
    rw [hwk k, List.mem_dedup, List.mem_filter]
    rfl
  have hflen := hfperm.length_eq
  have hwlen := hwperm.length_eq
  rw [List.length_map] at hflen hwlen
  refine ⟨s, hs, ?_, ?_, ?_, ?_, hc.index_onto, hc.floor_inj, hc.wall_inj, ?_,
    fun k j h => (hc.floor_data k j h).2.1, fun k j h => (hc.wall_data k j h).2.1⟩
  · rw [e1]; split <;> omega
  · rw [e2]; split <;> omega
  · intro h1 h2 h3 h4
    rw [if_pos ((hfk v).2 ⟨h1, h2⟩)] at e1
    rw [if_pos ((hwk v).2 ⟨h3, h4⟩)] at e2
    simp only [descriptorsWithKey, List.filter_append, List.length_map, List.length_append,
      e1, e2]
  · rw [hc.count, hflen, hwlen]
  · intro k k' j h1 h2
    have a := (hc.floor_data k j h1).2.1
    have b := (hc.wall_data k' j h2).2.1
    rw [a] at b
    exact wallData_ne_ofId c inf k' _ (Option.some.inj b).symm

/-- C9, amended, on `chasmMIF`: the value `0x0301` has one descriptor through
each mapping, and the table has five descriptors: air, two for the floor words
`0x0301` and `0x0302`, two for the wall words `0x0180` and `0x0301`. -/
theorem one_descriptor_per_mapping_witness :
    ∃ s, decodeVoxels sampleConstants sampleINF chasmMIF = some s ∧
      (s.floorDataMappings.filter (fun e => e.1 == 0x0301)).length ≤ 1 ∧
      (s.wallDataMappings.filter (fun e => e.1 == 0x0301)).length ≤ 1 ∧
      (descriptorsWithKey s 0x0301).length = 2 ∧
      s.voxelGrid.voxelData.length = 5 := by
  obtain ⟨s, h1, h2, h3, h4, h5, _⟩ :=
    one_descriptor_per_mapping sampleConstants sampleINF chasmMIF _ rfl (by decide) (by decide)
      0x0301
  refine ⟨s, h1, h2, h3, h4 (by decide) (by decide) (by decide) (by decide), ?_⟩
  rw [h5]
  decide

/-- C10. Two columns `(x1, z1)` and `(x2, z2)` whose floor words `f1` and `f2`
are not chasms: `floorDataMappings` maps the words to indices `i1` and `i2`,
which are what `setVoxel` is given for the voxels at `y = 0`, and `i1 = i2`
exactly when `f1 = f2`; the voxels hold the indices converted to `char`, so
equal words give equal voxels, but the two voxels are equal exactly when `i1`
and `i2` are congruent modulo 256: two different words whose indices differ by
a multiple of 256 leave the same value in their voxels. -/
theorem floor_indices_equal_iff (c : MIFConstants) (inf : INFFile) (mif : MIFFile)
    (level : Level) (hlev : mif.levels.head? = some level)
    (hfl : level.flor.length = 2 * mif.width * mif.depth)
    (hml : level.map1.length = 2 * mif.width * mif.depth)
    (x1 z1 x2 z2 : Nat) (hx1 : x1 < mif.width) (hz1 : z1 < mif.depth)
    (hx2 : x2 < mif.width) (hz2 : z2 < mif.depth) (f1 f2 : Nat)
    (hf1 : getLE16 level.flor (2 * cellNumber mif.width mif.depth x1 z1) = some f1)
    (hf2 : getLE16 level.flor (2 * cellNumber mif.width mif.depth x2 z2) = some f2)
    (hn1 : notChasm c ((f1 &&& 0xFF00) >>> 8) = true)
    (hn2 : notChasm c ((f2 &&& 0xFF00) >>> 8) = true) :
    ∃ s i1 i2, decodeVoxels c inf mif = some s ∧
      s.floorDataMappings.find f1 = some i1 ∧ s.floorDataMappings.find f2 = some i2 ∧
      s.voxelGrid.getVoxel x1 0 z1 = some (toChar i1) ∧
      s.voxelGrid.getVoxel x2 0 z2 = some (toChar i2) ∧
      (i1 = i2 ↔ f1 = f2) ∧
      (f1 = f2 → s.voxelGrid.getVoxel x1 0 z1 = s.voxelGrid.getVoxel x2 0 z2) ∧
      (s.voxelGrid.getVoxel x1 0 z1 = s.voxelGrid.getVoxel x2 0 z2
        ↔ i1 % 256 = i2 % 256) := by
  obtain ⟨s, hs, hc, _, _, hfloor1, _, _, _⟩ :=
    decodeVoxels_cell c inf mif level hlev hfl hml x1 z1 hx1 hz1
  obtain ⟨s', hs', _, _, _, hfloor2, _, _, _⟩ :=
    decodeVoxels_cell c inf mif level hlev hfl hml x2 z2 hx2 hz2
  rw [hs] at hs'
  cases hs'
  rw [show (cellAt mif level x1 z1).florVoxel = f1 from wordAt_of_getLE16 hf1] at hfloor1
  rw [show (cellAt mif level x2 z2).florVoxel = f2 from wordAt_of_getLE16 hf2] at hfloor2
  obtain ⟨i1, ha1, hb1⟩ := hfloor1 hn1
  obtain ⟨i2, ha2, hb2⟩ := hfloor2 hn2
  have hiff : i1 = i2 ↔ f1 = f2 := by
    constructor
    · intro h
      rw [← h] at ha2
      exact hc.floor_inj f1 f2 i1 ha1 ha2
    · intro h
      rw [← h, ha1] at ha2
      cases ha2
      rfl
  refine ⟨s, i1, i2, hs, ha1, ha2, hb1, hb2, hiff, ?_, ?_⟩
  · intro h
    rw [hb1, hb2, hiff.2 h]
  · rw [hb1, hb2, Option.some.injEq, toChar_eq_iff]

/-! ## The order of the iterations and the writes of an iteration -/

/-- The columns `(x, z)` in the order in which the double loop reaches them
(WorldData.cpp:95-97): `x` from `width - 1` down to 0 and, for each `x`, `z`
from `depth - 1` down to 0. -/
def cellOrder (width depth : Nat) : List (Nat × Nat) :=
  (countDown width).flatMap (fun x => (countDown depth).map (fun z => (x, z)))

/-- The coordinates `(x, y, z)` with which one iteration of the loop calls
`setVoxel`: `(x, 0, z)` when the floor word is not a chasm (WorldData.cpp:129),
then `(x, 1, z)` when the wall word is a voxel (WorldData.cpp:172 and 211). -/
def cellWrites (c : MIFConstants) (q : Cell) : List (Nat × Nat × Nat) :=
  (if notChasm c (floorTextureID q.florVoxel) then [(q.x, 0, q.z)] else []) ++
    (if isWallVoxel q.map1Voxel then [(q.x, 1, q.z)] else [])

/-- The calls `setVoxel(x, y, z, id)` of a list of coordinates and IDs, made
one after the other on a grid. -/
def applyWrites (g : VoxelGrid) (ws : List ((Nat × Nat × Nat) × Nat)) : VoxelGrid :=
  ws.foldl (fun g w => setVoxel g w.1.1 w.1.2.1 w.1.2.2 w.2) g

/-- A 1x128 map with 256 different tile words: the floor word and the wall word
with number `k` are both `0x0100 + k`, so that, with `sampleConstants`, every
floor word and every wall word gets a descriptor of its own. -/
def manyDescriptorsMIF : MIFFile :=
  { width := 1, depth := 128,
    levels := [{ flor := (List.range 128).flatMap (fun k => [k, 1]),
                 map1 := (List.range 128).flatMap (fun k => [k, 1]) }] }

/-! ## Triggers: the INF lookups, `TextTrigger` and the trigger tables -/

/-- Modelled from the spec: `INFFile::hasTextIndex`, whether the text table has
an entry for the index that is a text ("not a key or riddle"). -/
def INFFile.hasTextIndex (inf : INFFile) (index : Int) : Bool :=
  (inf.texts.lookup index).isSome

/-- Modelled from the spec: `INFFile::getText`, the "text-entry lookup by
index"; `none` when the table has no such entry. -/
def INFFile.getText (inf : INFFile) (index : Int) : Option TextData :=
  inf.texts.lookup index

/-- Modelled from the spec: `INFFile::getSound`, the "sound-identifier lookup
by index"; for an index the table lacks it does what `soundOnMiss` says. -/
def INFFile.getSound (inf : INFFile) (index : Int) : Option String :=
  match inf.sounds.lookup index with
  | some sound => some sound
  | none => inf.soundOnMiss

/-- The class `WorldData::TextTrigger` (WorldData.cpp:11-41). -/
structure TextTrigger where
  text : String
  displayedOnce : Bool
  previouslyDisplayed : Bool
deriving DecidableEq

/-- The constructor `TextTrigger(text, displayedOnce)` (WorldData.cpp:11-16). -/
def TextTrigger.create (text : String) (displayedOnce : Bool) : TextTrigger :=
  { text := text, displayedOnce := displayedOnce, previouslyDisplayed := false }

/-- The getter `getText` (WorldData.cpp:23-26). -/
def TextTrigger.getText (t : TextTrigger) : String :=
  t.text

/-- The getter `isSingleDisplay` (WorldData.cpp:28-31). -/
def TextTrigger.isSingleDisplay (t : TextTrigger) : Bool :=
  t.displayedOnce

/-- The getter `hasBeenDisplayed` (WorldData.cpp:33-36). -/
def TextTrigger.hasBeenDisplayed (t : TextTrigger) : Bool :=
  t.previouslyDisplayed

/-- The setter `setPreviouslyDisplayed` (WorldData.cpp:38-41). -/
def TextTrigger.setPreviouslyDisplayed (t : TextTrigger) (previouslyDisplayed : Bool) :
    TextTrigger :=
  { t with previouslyDisplayed := previouslyDisplayed }

/-- Modelled from the spec: the two overloads of the static function
`VoxelGrid::arenaVoxelToNewVoxel` are not available; the spec says only that it
"performs the origin/axis-direction transform" from a point and the grid
dimensions it is given.  They are parameters: `arenaVoxelToNewVoxel` is the
`Int2` overload and `arenaVoxelToNewVoxelD` the `Double2` one. -/
structure CoordinateMapper where
  arenaVoxelToNewVoxel : Int × Int → Int → Int → Int × Int
  arenaVoxelToNewVoxelD : ℚ × ℚ → Int → Int → ℚ × ℚ

/-- An `std::unordered_map<Int2, T>` as an association list. -/
abbrev TriggerTable (α : Type) := List ((Int × Int) × α)

/-- The member `find`: the mapped value, or `none` for `end()`. -/
def TriggerTable.find {α : Type} (m : TriggerTable α) (voxel : Int × Int) : Option α :=
  m.lookup voxel

/-- The member `insert`: an existing entry for the key is kept, otherwise the
pair is added. -/
def TriggerTable.insert {α : Type} (m : TriggerTable α) (voxel : Int × Int) (value : α) :
    TriggerTable α :=
  match m.find voxel with
  | some _ => m
  | none => (voxel, value) :: m

/-- The members of `WorldData` that the constructor and `loadFromMIF` touch.
Modelled from the spec: `EntityManager` is not available; here it is the list
of the IDs of its entities. -/
structure WorldData where
  voxelGrid : VoxelGrid
  entityManager : List Nat
  textTriggers : TriggerTable TextTrigger
  soundTriggers : TriggerTable String
deriving DecidableEq

/-- The key of a trigger record (WorldData.cpp:228-229): the transform is given
`mif.getWidth() - 1` and `mif.getDepth() - 1`. -/
def triggerVoxel (m : CoordinateMapper) (mif : MIFFile) (trigger : Trigger) : Int × Int :=
  m.arenaVoxelToNewVoxel (trigger.x, trigger.y) ((mif.width : Int) - 1) ((mif.depth : Int) - 1)

/-- The text part of the body of the trigger loop (WorldData.cpp:232, 235-241). -/
def textTriggerStep (m : CoordinateMapper) (inf : INFFile) (mif : MIFFile)
    (wd : WorldData) (trigger : Trigger) : Option WorldData :=
  if trigger.textIndex != -1 && inf.hasTextIndex trigger.textIndex then
    match inf.getText trigger.textIndex with
    | some textData =>
      let textTrigger := TextTrigger.create textData.text textData.displayedOnce
      some { wd with
        textTriggers := wd.textTriggers.insert (triggerVoxel m mif trigger) textTrigger }
    | none => none
  else some wd

/-- The sound part of the body of the trigger loop (WorldData.cpp:233, 243-246). -/
def soundTriggerStep (m : CoordinateMapper) (inf : INFFile) (mif : MIFFile)
    (wd : WorldData) (trigger : Trigger) : Option WorldData :=
  if trigger.soundIndex != -1 then
    match inf.getSound trigger.soundIndex with
    | some sound =>
      some { wd with soundTriggers := wd.soundTriggers.insert (triggerVoxel m mif trigger) sound }
    | none => none
  else some wd

/-- The body of the trigger loop (WorldData.cpp:223-247). -/
def triggerStep (m : CoordinateMapper) (inf : INFFile) (mif : MIFFile)
    (wd : WorldData) (trigger : Trigger) : Option WorldData :=
  match textTriggerStep m inf mif wd trigger with
  | some wd1 => soundTriggerStep m inf mif wd1 trigger
  | none => none

/-- The constructor `WorldData::WorldData(mif, inf)` (WorldData.cpp:43-248): the
voxel decode, then the trigger loop over `level.trig`.  `none` stands for a
constructor that does not return. -/
def WorldData.ofMIF (m : CoordinateMapper) (c : MIFConstants) (inf : INFFile) (mif : MIFFile) :
    Option WorldData :=
  match mif.levels.head?, decodeVoxels c inf mif with
  | some level, some s =>
    level.trig.foldlM (triggerStep m inf mif)
      { voxelGrid := s.voxelGrid, entityManager := [], textTriggers := [], soundTriggers := [] }
  | _, _ => none

/-- The member `getTextTrigger` (WorldData.cpp:278-282). -/
def WorldData.getTextTrigger (wd : WorldData) (voxel : Int × Int) : Option TextTrigger :=
  wd.textTriggers.find voxel

/-- The member `getSoundTrigger` (WorldData.cpp:284-288). -/
def WorldData.getSoundTrigger (wd : WorldData) (voxel : Int × Int) : Option String :=
  wd.soundTriggers.find voxel

/-! ## `GameData::loadFromMIF` -/

/-- The reference parameters `playerPosition` and `worldData` of
`GameData::loadFromMIF`; the texture manager and the renderer are left out. -/
structure LoadTarget where
  playerPosition : ℚ × ℚ × ℚ
  worldData : WorldData
deriving DecidableEq

/-- How a call of `loadFromMIF` ends: it returns (`done`) or it does not
(`failed`); either way with what the reference parameters then hold. -/
inductive LoadResult where
  | done (t : LoadTarget)
  | failed (t : LoadTarget)
deriving DecidableEq

/-- The loop "Clear all entities" (GameData.cpp:61-67): every entity the
manager had when the loop started is removed from it. -/
def clearEntities (entities : List Nat) : List Nat :=
  entities.foldl (fun remaining id => remaining.filter (fun e => e != id)) entities

/-- The static function `GameData::loadFromMIF` (GameData.cpp:51-73).  The
player position is assigned first, then the entities are removed, and only then
is the new `WorldData` constructed and move-assigned; when the construction
does not return, the assignment does not happen.  `front()` on an empty list of
start points is taken as a call that fails before it has changed anything. -/
def loadFromMIF (m : CoordinateMapper) (c : MIFConstants) (mif : MIFFile) (inf : INFFile)
    (t : LoadTarget) : LoadResult :=
  match mif.startPoints.head? with
  | none => LoadResult.failed t
  | some first =>
    let startPoint := m.arenaVoxelToNewVoxelD first mif.width mif.depth
    let t1 : LoadTarget :=
      { t with playerPosition := (startPoint.1, t.playerPosition.2.1, startPoint.2) }
    let t2 : LoadTarget :=
      { t1 with worldData :=
          { t1.worldData with entityManager := clearEntities t1.worldData.entityManager } }
    match WorldData.ofMIF m c inf mif with
    | none => LoadResult.failed t2
    | some wd => LoadResult.done { t2 with worldData := wd }

/-! ## Inputs for the worked examples with triggers -/

/-- A mapper for the worked examples: both axes are mirrored within the grid
dimensions the transform is given. -/
def mirrorMapper : CoordinateMapper :=
  { arenaVoxelToNewVoxel := fun p w d => (w - p.1, d - p.2),
    arenaVoxelToNewVoxelD := fun p w d => ((w : ℚ) - p.1, (d : ℚ) - p.2) }

/-- An 8x4 map of empty cells (floor and wall words 0) with the start point
`(1, 2)` and the trigger records `trig`. -/
def triggerMIF (trig : List Trigger) : MIFFile :=
  { width := 8, depth := 4, startPoints := [(1, 2)],
    levels := [{ flor := List.replicate 64 0, map1 := List.replicate 64 0, trig := trig }] }

/-- An INF file whose text entry 2 is `{"Welcome", singleDisplay: true}` and
whose sound entry 4 is `"DRUMS.VOC"`. -/
def triggerINF : INFFile :=
  { ceilingHeight := 100, texts := [(2, { text := "Welcome", displayedOnce := true })],
    sounds := [(4, "DRUMS.VOC")] }

/-- The effect of the trigger loop run over the records `trig` from `wd0` to
`wd`: grid and entities are as before; a table has an entry under a key exactly
when it had one or a record of `trig` with that key qualifies; every entry is
either an old one or built from a qualifying record; and old entries stay. -/
structure TriggersEffect (m : CoordinateMapper) (inf : INFFile) (mif : MIFFile)
    (trig : List Trigger) (wd0 wd : WorldData) : Prop where
  grid : wd.voxelGrid = wd0.voxelGrid
  entities : wd.entityManager = wd0.entityManager
  text_keys : ∀ key, (wd.textTriggers.find key).isSome ↔ (wd0.textTriggers.find key).isSome ∨
    ∃ t ∈ trig, triggerVoxel m mif t = key ∧ t.textIndex ≠ -1 ∧
      inf.hasTextIndex t.textIndex = true
  sound_keys : ∀ key, (wd.soundTriggers.find key).isSome ↔
    (wd0.soundTriggers.find key).isSome ∨
      ∃ t ∈ trig, triggerVoxel m mif t = key ∧ t.soundIndex ≠ -1
  text_values : ∀ key tt, wd.textTriggers.find key = some tt →
    wd0.textTriggers.find key = some tt ∨
      ∃ t ∈ trig, ∃ td, triggerVoxel m mif t = key ∧ t.textIndex ≠ -1 ∧
        inf.getText t.textIndex = some td ∧
        tt = TextTrigger.create td.text td.displayedOnce
  sound_values : ∀ key sound, wd.soundTriggers.find key = some sound →
    wd0.soundTriggers.find key = some sound ∨
      ∃ t ∈ trig, triggerVoxel m mif t = key ∧ t.soundIndex ≠ -1 ∧
        inf.getSound t.soundIndex = some sound
  text_kept : ∀ key tt, wd0.textTriggers.find key = some tt →
    wd.textTriggers.find key = some tt
  sound_kept : ∀ key sound, wd0.soundTriggers.find key = some sound →
    wd.soundTriggers.find key = some sound

/-- The text trigger built from the first record of `trig` that has the key
`voxel` and qualifies for the text-trigger table (`textIndex != -1` and the INF
file has the text index). -/
def firstTextTrigger (m : CoordinateMapper) (inf : INFFile) (mif : MIFFile)
    (trig : List Trigger) (voxel : Int × Int) : Option TextTrigger :=
  (trig.find? (fun t => decide (triggerVoxel m mif t = voxel) &&
      (t.textIndex != -1 && inf.hasTextIndex t.textIndex))).bind
    (fun t => (inf.getText t.textIndex).map
      (fun textData => TextTrigger.create textData.text textData.displayedOnce))

/-- The sound of the first record of `trig` that has the key `voxel` and
qualifies for the sound-trigger table (`soundIndex != -1`). -/
def firstSoundTrigger (m : CoordinateMapper) (inf : INFFile) (mif : MIFFile)
    (trig : List Trigger) (voxel : Int × Int) : Option String :=
  (trig.find? (fun t => decide (triggerVoxel m mif t = voxel) && t.soundIndex != -1)).bind
    (fun t => inf.getSound t.soundIndex)

/-- A level whose two trigger records share the voxel `(5, 3)`: the first has
text 2 and sound 4, the second text 3 and sound 6. -/
def sharedVoxelMIF : MIFFile :=
  triggerMIF [⟨5, 3, 2, 4⟩, ⟨5, 3, 3, 6⟩]

/-- An INF file with two text entries and two sound entries. -/
def sharedVoxelINF : INFFile :=
  { ceilingHeight := 100,
    texts := [(2, { text := "Welcome", displayedOnce := true }),
              (3, { text := "Beware", displayedOnce := false })],
    sounds := [(4, "DRUMS.VOC"), (6, "WIND.VOC")] }

/-! ## The raw-array tag loaders of `MIFFile::Level` -/

/-- Modelled from the spec: how a tag is laid out is not available; a tag has a
"tag header" of `headerSize` bytes, which starts with the "4-byte tag label"
and holds the "declared payload size", followed by the payload. -/
structure TagLayout where
  headerSize : Nat
  declaredSize : List Nat → Option Nat

/-- Modelled from the spec: the bodies of `loadFLOR`, `loadMAP1`, `loadMAP2`
and `loadTARG` (declared in MIFFile.h:46-54) are not available.  Their common
part: "copy `2 x width x depth` bytes verbatim into the Level's raw array;
fails if the declared payload size does not match", and report the
"consumed-byte count (tag header + payload)".  The declarations pass only the
level and `tagStart`; the width and the depth the sentence speaks of are
arguments here.  `none` is the failure. -/
def loadRawArray (layout : TagLayout) (width depth : Nat) (tagStart : List Nat) :
    Option (List Nat × Nat) :=
  match layout.declaredSize tagStart with
  | none => none
  | some size =>
    if size = 2 * width * depth ∧ layout.headerSize + size ≤ tagStart.length then
      some ((tagStart.drop layout.headerSize).take size, layout.headerSize + size)
    else none

/-- Modelled from the spec: `MIFFile::Level::loadFLOR`, see `loadRawArray`. -/
def loadFLOR (layout : TagLayout) (width depth : Nat) (level : Level) (tagStart : List Nat) :
    Option (Level × Nat) :=
  (loadRawArray layout width depth tagStart).map (fun r => ({ level with flor := r.1 }, r.2))

/-- Modelled from the spec: `MIFFile::Level::loadMAP1`, see `loadRawArray`. -/
def loadMAP1 (layout : TagLayout) (width depth : Nat) (level : Level) (tagStart : List Nat) :
    Option (Level × Nat) :=
  (loadRawArray layout width depth tagStart).map (fun r => ({ level with map1 := r.1 }, r.2))

/-- Modelled from the spec: `MIFFile::Level::loadMAP2`, see `loadRawArray`. -/
def loadMAP2 (layout : TagLayout) (width depth : Nat) (level : Level) (tagStart : List Nat) :
    Option (Level × Nat) :=
  (loadRawArray layout width depth tagStart).map (fun r => ({ level with map2 := r.1 }, r.2))

/-- Modelled from the spec: `MIFFile::Level::loadTARG`, see `loadRawArray`. -/
def loadTARG (layout : TagLayout) (width depth : Nat) (level : Level) (tagStart : List Nat) :
    Option (Level × Nat) :=
  (loadRawArray layout width depth tagStart).map (fun r => ({ level with targ := r.1 }, r.2))

/-- A layout for the worked examples: a 4-byte label and a 16-bit
little-endian size. -/
def sampleLayout : TagLayout :=
  { headerSize := 6, declaredSize := fun tagStart => getLE16 tagStart 4 }

/-- A `FLOR` tag of a 1x2 map in `sampleLayout`: label, size 4, four payload
bytes, and the first byte of what follows. -/
def sampleTag : List Nat :=
  [0x46, 0x4C, 0x4F, 0x52, 4, 0, 0x05, 0x02, 0x06, 0x02, 0x4D]

/-! ## `Options` and the buttons of `OptionsPanel` -/

/-- The enumeration `PlayerInterface`, declared ahead in Options.h:9; its two
values are the ones OptionsPanel.cpp names. -/
inductive PlayerInterface where
  | Classic
  | Modern
deriving DecidableEq

/-- A `double` of the options: a number or NaN.  Infinities and rounding are
left out: the handlers only add or subtract a small step and then clamp with
`std::min` or `std::max`, and the clamps decide by comparisons alone. -/
inductive Double where
  | nan
  | num (value : ℚ)
deriving DecidableEq

/-- The operator `+` of `double`: NaN if an operand is NaN. -/
def Double.add : Double → Double → Double
  | .num a, .num b => .num (a + b)
  | _, _ => .nan

/-- The operator `-` of `double`: NaN if an operand is NaN. -/
def Double.sub : Double → Double → Double
  | .num a, .num b => .num (a - b)
  | _, _ => .nan

/-- The operator `<` of `double`: false if an operand is NaN. -/
def Double.lt : Double → Double → Bool
  | .num a, .num b => decide (a < b)
  | _, _ => false

/-- The operator `<=` of `double`: false if an operand is NaN. -/
def Double.le : Double → Double → Bool
  | .num a, .num b => decide (a ≤ b)
  | _, _ => false

/-- The function `std::min(a, b)`: `(b < a) ? b : a`. -/
def stdMin (a b : Double) : Double :=
  if b.lt a then b else a

/-- The function `std::max(a, b)`: `(a < b) ? b : a`. -/
def stdMax (a b : Double) : Double :=
  if a.lt b then b else a

/-- The result of an `int` addition or subtraction whose mathematical value is
`v`: the value itself when it is in the range of the 32-bit `int`; past the
range the behaviour is undefined in C++, and the builds of the game wrap around
modulo `2^32`, which is what this function does. -/
def wrapInt (v : Int) : Int :=
  (v + 2147483648) % 4294967296 - 2147483648

/-- The private members of `Options` (Options.h:13-35); an `int` is an integer
in the range of the 32-bit `int`. -/
structure Options where
  screenWidth : Int
  screenHeight : Int
  fullscreen : Bool
  targetFPS : Int
  resolutionScale : Double
  verticalFOV : Double
  letterboxAspect : Double
  cursorScale : Double
  playerInterface : PlayerInterface
  hSensitivity : Double
  vSensitivity : Double
  soundfont : String
  musicVolume : Double
  soundVolume : Double
  soundChannels : Int
  arenaPath : String
  skipIntro : Bool
  showDebug : Bool
deriving DecidableEq

/-- Modelled from the spec: the static constants of Options.h:44-56 are
declared there and defined in a file that is not available, and the spec leaves
the options UI out of scope; they are parameters, the `double` ones being
numbers. -/
structure OptionsConstants where
  MIN_FPS : Int
  MIN_RESOLUTION_SCALE : ℚ
  MAX_RESOLUTION_SCALE : ℚ
  MIN_VERTICAL_FOV : ℚ
  MAX_VERTICAL_FOV : ℚ
  MIN_CURSOR_SCALE : ℚ
  MAX_CURSOR_SCALE : ℚ
  MIN_LETTERBOX_ASPECT : ℚ
  MAX_LETTERBOX_ASPECT : ℚ
  MIN_HORIZONTAL_SENSITIVITY : ℚ
  MAX_HORIZONTAL_SENSITIVITY : ℚ
  MIN_VERTICAL_SENSITIVITY : ℚ
  MAX_VERTICAL_SENSITIVITY : ℚ
deriving DecidableEq

/-- Modelled from the spec: the getters and setters of Options.h:58-94 are
declared there and defined in a file that is not available; a getter returns
the member and a setter stores its argument in it. -/
def Options.getTargetFPS (o : Options) : Int := o.targetFPS

/-- Modelled from the spec: see `Options.getTargetFPS`. -/
def Options.setTargetFPS (o : Options) (targetFPS : Int) : Options :=
  { o with targetFPS := targetFPS }

/-- Modelled from the spec: see `Options.getTargetFPS`. -/
def Options.getResolutionScale (o : Options) : Double := o.resolutionScale

/-- Modelled from the spec: see `Options.getTargetFPS`. -/
def Options.setResolutionScale (o : Options) (percent : Double) : Options :=
  { o with resolutionScale := percent }

/-- Modelled from the spec: see `Options.getTargetFPS`. -/
def Options.getVerticalFOV (o : Options) : Double := o.verticalFOV

/-- Modelled from the spec: see `Options.getTargetFPS`. -/
def Options.setVerticalFOV (o : Options) (fov : Double) : Options :=
  { o with verticalFOV := fov }

/-- Modelled from the spec: see `Options.getTargetFPS`. -/
def Options.getLetterboxAspect (o : Options) : Double := o.letterboxAspect

/-- Modelled from the spec: see `Options.getTargetFPS`. -/
def Options.setLetterboxAspect (o : Options) (aspect : Double) : Options :=
  { o with letterboxAspect := aspect }

/-- Modelled from the spec: see `Options.getTargetFPS`. -/
def Options.getCursorScale (o : Options) : Double := o.cursorScale

/-- Modelled from the spec: see `Options.getTargetFPS`. -/
def Options.setCursorScale (o : Options) (cursorScale : Double) : Options :=
  { o with cursorScale := cursorScale }

/-- Modelled from the spec: see `Options.getTargetFPS`. -/
def Options.getPlayerInterface (o : Options) : PlayerInterface := o.playerInterface

/-- Modelled from the spec: see `Options.getTargetFPS`. -/
def Options.setPlayerInterface (o : Options) (playerInterface : PlayerInterface) : Options :=
  { o with playerInterface := playerInterface }

/-- Modelled from the spec: see `Options.getTargetFPS`. -/
def Options.getHorizontalSensitivity (o : Options) : Double := o.hSensitivity

/-- Modelled from the spec: see `Options.getTargetFPS`. -/
def Options.setHorizontalSensitivity (o : Options) (hSensitivity : Double) : Options :=
  { o with hSensitivity := hSensitivity }

/-- Modelled from the spec: see `Options.getTargetFPS`. -/
def Options.getVerticalSensitivity (o : Options) : Double := o.vSensitivity

/-- Modelled from the spec: see `Options.getTargetFPS`. -/
def Options.setVerticalSensitivity (o : Options) (vSensitivity : Double) : Options :=
  { o with vSensitivity := vSensitivity }

/-- The handler of `fpsUpButton` (OptionsPanel.cpp:245-250), as far as it
changes `options`; the text update of the panel is left out.  The addition is
an `int` addition. -/
def fpsUpButton (options : Options) : Options :=
  let newFPS := wrapInt (options.getTargetFPS + 5)
  options.setTargetFPS newFPS

/-- The handler of `fpsDownButton` (OptionsPanel.cpp:261-266); the subtraction
is an `int` subtraction. -/
def fpsDownButton (k : OptionsConstants) (options : Options) : Options :=
  let newFPS := max (wrapInt (options.getTargetFPS - 5)) k.MIN_FPS
  options.setTargetFPS newFPS

/-- The handler of `resolutionScaleUpButton` (OptionsPanel.cpp:277-289); the
resize of the renderer is left out. -/
def resolutionScaleUpButton (k : OptionsConstants) (options : Options) : Options :=
  let newResolutionScale := stdMin (options.getResolutionScale.add (Double.num (5 / 100)))
    (Double.num k.MAX_RESOLUTION_SCALE)
  options.setResolutionScale newResolutionScale

/-- The handler of `resolutionScaleDownButton` (OptionsPanel.cpp:301-313). -/
def resolutionScaleDownButton (k : OptionsConstants) (options : Options) : Options :=
  let newResolutionScale := stdMax (options.getResolutionScale.sub (Double.num (5 / 100)))
    (Double.num k.MIN_RESOLUTION_SCALE)
  options.setResolutionScale newResolutionScale

/-- The handler of `playerInterfaceButton` (OptionsPanel.cpp:324-348), as far
as it changes `options`. -/
def playerInterfaceButton (options : Options) : Options :=
  let newPlayerInterface :=
    if options.getPlayerInterface = PlayerInterface.Classic then PlayerInterface.Modern
    else PlayerInterface.Classic
  options.setPlayerInterface newPlayerInterface

/-- The handler of `verticalFOVUpButton` (OptionsPanel.cpp:359-365). -/
def verticalFOVUpButton (k : OptionsConstants) (options : Options) : Options :=
  let newVerticalFOV := stdMin (options.getVerticalFOV.add (Double.num 5))
    (Double.num k.MAX_VERTICAL_FOV)
  options.setVerticalFOV newVerticalFOV

/-- The handler of `verticalFOVDownButton` (OptionsPanel.cpp:376-382). -/
def verticalFOVDownButton (k : OptionsConstants) (options : Options) : Options :=
  let newVerticalFOV := stdMax (options.getVerticalFOV.sub (Double.num 5))
    (Double.num k.MIN_VERTICAL_FOV)
  options.setVerticalFOV newVerticalFOV

/-- The handler of `cursorScaleUpButton` (OptionsPanel.cpp:393-399). -/
def cursorScaleUpButton (k : OptionsConstants) (options : Options) : Options :=
  let newCursorScale := stdMin (options.getCursorScale.add (Double.num (10 / 100)))
    (Double.num k.MAX_CURSOR_SCALE)
  options.setCursorScale newCursorScale

/-- The handler of `cursorScaleDownButton` (OptionsPanel.cpp:410-416). -/
def cursorScaleDownButton (k : OptionsConstants) (options : Options) : Options :=
  let newCursorScale := stdMax (options.getCursorScale.sub (Double.num (10 / 100)))
    (Double.num k.MIN_CURSOR_SCALE)
  options.setCursorScale newCursorScale

/-- The handler of `letterboxAspectUpButton` (OptionsPanel.cpp:427-434). -/
def letterboxAspectUpButton (k : OptionsConstants) (options : Options) : Options :=
  let newLetterboxAspect := stdMin (options.getLetterboxAspect.add (Double.num (10 / 1000)))
    (Double.num k.MAX_LETTERBOX_ASPECT)
  options.setLetterboxAspect newLetterboxAspect

/-- The handler of `letterboxAspectDownButton` (OptionsPanel.cpp:446-453). -/
def letterboxAspectDownButton (k : OptionsConstants) (options : Options) : Options :=
  let newLetterboxAspect := stdMax (options.getLetterboxAspect.sub (Double.num (10 / 1000)))
    (Double.num k.MIN_LETTERBOX_ASPECT)
  options.setLetterboxAspect newLetterboxAspect

/-- The handler of `hSensitivityUpButton` (OptionsPanel.cpp:464-470). -/
def hSensitivityUpButton (k : OptionsConstants) (options : Options) : Options :=
  let newHorizontalSensitivity :=
    stdMin (options.getHorizontalSensitivity.add (Double.num (50 / 100)))
      (Double.num k.MAX_HORIZONTAL_SENSITIVITY)
  options.setHorizontalSensitivity newHorizontalSensitivity

/-- The handler of `hSensitivityDownButton` (OptionsPanel.cpp:482-488). -/
def hSensitivityDownButton (k : OptionsConstants) (options : Options) : Options :=
  let newHorizontalSensitivity :=
    stdMax (options.getHorizontalSensitivity.sub (Double.num (50 / 100)))
      (Double.num k.MIN_HORIZONTAL_SENSITIVITY)
  options.setHorizontalSensitivity newHorizontalSensitivity

/-- The handler of `vSensitivityUpButton` (OptionsPanel.cpp:499-505). -/
def vSensitivityUpButton (k : OptionsConstants) (options : Options) : Options :=
  let newVerticalSensitivity :=
    stdMin (options.getVerticalSensitivity.add (Double.num (50 / 100)))
      (Double.num k.MAX_VERTICAL_SENSITIVITY)
  options.setVerticalSensitivity newVerticalSensitivity

/-- The handler of `vSensitivityDownButton` (OptionsPanel.cpp:517-523). -/
def vSensitivityDownButton (k : OptionsConstants) (options : Options) : Options :=
  let newVerticalSensitivity :=
    stdMax (options.getVerticalSensitivity.sub (Double.num (50 / 100)))
      (Double.num k.MIN_VERTICAL_SENSITIVITY)
  options.setVerticalSensitivity newVerticalSensitivity

/-- The buttons of the panel that change `options`. -/
inductive OptionsButton where
  | fpsUp | fpsDown
  | resolutionScaleUp | resolutionScaleDown
  | playerInterface
  | verticalFOVUp | verticalFOVDown
  | cursorScaleUp | cursorScaleDown
  | letterboxAspectUp | letterboxAspectDown
  | hSensitivityUp | hSensitivityDown
  | vSensitivityUp | vSensitivityDown
deriving DecidableEq

/-- One click: the handler of the button is run on `options`. -/
def clickButton (k : OptionsConstants) (options : Options) : OptionsButton → Options
  | .fpsUp => fpsUpButton options
  | .fpsDown => fpsDownButton k options
  | .resolutionScaleUp => resolutionScaleUpButton k options
  | .resolutionScaleDown => resolutionScaleDownButton k options
  | .playerInterface => playerInterfaceButton options
  | .verticalFOVUp => verticalFOVUpButton k options
  | .verticalFOVDown => verticalFOVDownButton k options
  | .cursorScaleUp => cursorScaleUpButton k options
  | .cursorScaleDown => cursorScaleDownButton k options
  | .letterboxAspectUp => letterboxAspectUpButton k options
  | .letterboxAspectDown => letterboxAspectDownButton k options
  | .hSensitivityUp => hSensitivityUpButton k options
  | .hSensitivityDown => hSensitivityDownButton k options
  | .vSensitivityUp => vSensitivityUpButton k options
  | .vSensitivityDown => vSensitivityDownButton k options

/-- A sequence of clicks, one after the other. -/
def clickButtons (k : OptionsConstants) (options : Options) (clicks : List OptionsButton) :
    Options :=
  clicks.foldl (clickButton k) options

/-- Every `MIN` constant of a `double` option is at most its `MAX` constant. -/
structure OptionsConstants.Ordered (k : OptionsConstants) : Prop where
  resolutionScale : k.MIN_RESOLUTION_SCALE ≤ k.MAX_RESOLUTION_SCALE
  verticalFOV : k.MIN_VERTICAL_FOV ≤ k.MAX_VERTICAL_FOV
  cursorScale : k.MIN_CURSOR_SCALE ≤ k.MAX_CURSOR_SCALE
  letterboxAspect : k.MIN_LETTERBOX_ASPECT ≤ k.MAX_LETTERBOX_ASPECT
  hSensitivity : k.MIN_HORIZONTAL_SENSITIVITY ≤ k.MAX_HORIZONTAL_SENSITIVITY
  vSensitivity : k.MIN_VERTICAL_SENSITIVITY ≤ k.MAX_VERTICAL_SENSITIVITY

/-- The value `x` lies in `[lo, hi]`, by the comparisons of `double`: so `x`
is a number. -/
def Double.within (lo hi : ℚ) (x : Double) : Prop :=
  (Double.num lo).le x = true ∧ x.le (Double.num hi) = true

/-- The six `double` options with a `MIN` and a `MAX` lie between them. -/
structure Options.InRange (k : OptionsConstants) (o : Options) : Prop where
  resolutionScale :
    o.resolutionScale.within k.MIN_RESOLUTION_SCALE k.MAX_RESOLUTION_SCALE
  verticalFOV : o.verticalFOV.within k.MIN_VERTICAL_FOV k.MAX_VERTICAL_FOV
  cursorScale : o.cursorScale.within k.MIN_CURSOR_SCALE k.MAX_CURSOR_SCALE
  letterboxAspect :
    o.letterboxAspect.within k.MIN_LETTERBOX_ASPECT k.MAX_LETTERBOX_ASPECT
  hSensitivity :
    o.hSensitivity.within k.MIN_HORIZONTAL_SENSITIVITY k.MAX_HORIZONTAL_SENSITIVITY
  vSensitivity :
    o.vSensitivity.within k.MIN_VERTICAL_SENSITIVITY k.MAX_VERTICAL_SENSITIVITY

/-- Constants for the worked examples. -/
def sampleOptionsConstants : OptionsConstants :=
  { MIN_FPS := 15,
    MIN_RESOLUTION_SCALE := 1 / 10, MAX_RESOLUTION_SCALE := 1,
    MIN_VERTICAL_FOV := 40, MAX_VERTICAL_FOV := 150,
    MIN_CURSOR_SCALE := 1 / 2, MAX_CURSOR_SCALE := 8,
    MIN_LETTERBOX_ASPECT := 3 / 4, MAX_LETTERBOX_ASPECT := 3,
    MIN_HORIZONTAL_SENSITIVITY := 1 / 2, MAX_HORIZONTAL_SENSITIVITY := 50,
    MIN_VERTICAL_SENSITIVITY := 1 / 2, MAX_VERTICAL_SENSITIVITY := 50 }

/-- Options for the worked examples. -/
def sampleOptions : Options :=
  { screenWidth := 1280, screenHeight := 720, fullscreen := false, targetFPS := 60,
    resolutionScale := Double.num (1 / 2), verticalFOV := Double.num 90,
    letterboxAspect := Double.num (8 / 5), cursorScale := Double.num 3,
    playerInterface := PlayerInterface.Classic, hSensitivity := Double.num 20,
    vSensitivity := Double.num 20, soundfont := "data/eawpats/timidity.cfg",
    musicVolume := Double.num 1, soundVolume := Double.num 1, soundChannels := 32,
    arenaPath := "data/ARENA", skipIntro := false, showDebug := true }

/-! ## A level with more than 128 descriptors -/

/-- The byte array of `n` 16-bit words, low byte first. -/
def tileBytes (n : Nat) (word : Nat → Nat) : List Nat :=
  (List.range n).flatMap (fun k => [word k % 256, word k / 256])

/-- The floor word with number `k` of `narrowingMIF`: `0x0100 + k`, except
that the word with number 128 is `0x0000`. -/
def narrowingFloorWord (k : Nat) : Nat :=
  if k = 128 then 0x0000 else 0x0100 + k

/-- The wall word with number `k` of `narrowingMIF`: `0x0100 + k`, except that
the word with number 0 is `0x0000` (no voxel) and the word with number 64 is
`0x0202` (a solid wall). -/
def narrowingWallWord (k : Nat) : Nat :=
  if k = 0 then 0x0000 else if k = 64 then 0x0202 else 0x0100 + k

/-- A 1x130 map whose floor words are pairwise different and whose wall words,
but for the first, are pairwise different voxel words: with `sampleConstants`
the floor word with number `k >= 1` gets the descriptor with index `2 * k` and
the wall word the one with index `2 * k + 1`. -/
def narrowingMIF : MIFFile :=
  { width := 1, depth := 130,
    levels := [{ flor := tileBytes 130 narrowingFloorWord,
                 map1 := tileBytes 130 narrowingWallWord }] }

/-! # Lemmas -/

theorem foldlM_flatMap_map {σ : Type} (f : Nat → Nat → σ → Option σ) (xs zs : List Nat)
    (s : σ) :
    (xs.flatMap (fun x => zs.map (fun z => (x, z)))).foldlM (fun st p => f p.1 p.2 st) s
      = xs.foldlM (fun st x => zs.foldlM (fun st' z => f x z st') st) s := by
  induction xs generalizing s with
  | nil => rfl
  | cons x xs ih =>
    simp only [List.flatMap_cons, List.foldlM_append, List.foldlM_cons, List.foldlM_map]
    cases h : zs.foldlM (fun st' z => f x z st') s with
    | none => rfl
    | some s' => simp only [Option.bind_eq_bind, Option.some_bind]; exact ih s'

/-- The double loop is one loop over `cellOrder`. -/
theorem xLoop_eq_foldlM (c : MIFConstants) (inf : INFFile) (level : Level) (width depth : Nat)
    (s : DecodeState) :
    xLoop c inf level width depth s
      = (cellOrder width depth).foldlM (fun st p => cellStep c inf level p.1 p.2 st) s := by
  unfold xLoop zLoop cellOrder
  exact (foldlM_flatMap_map (fun x z st => cellStep c inf level x z st) _ _ s).symm

theorem cellOrder_length (width depth : Nat) : (cellOrder width depth).length = width * depth := by
  unfold cellOrder
  exact (List.length_product _ _).trans (by simp [countDown])

theorem countDown_getElem? {n i : Nat} (h : i < n) : (countDown n)[i]? = some (n - 1 - i) := by
  unfold countDown
  rw [List.getElem?_reverse (by simpa using h)]
  simp only [List.length_range]
  rw [List.getElem?_range (by omega)]

/-- The `k`-th column the double loop reaches. -/
theorem cellOrder_getElem? (width depth k : Nat) (hk : k < width * depth) :
    (cellOrder width depth)[k]? = some (width - 1 - k / depth, depth - 1 - k % depth) := by
  induction width generalizing k with
  | zero => simp at hk
  | succ n ih =>
    have hd : 0 < depth := by
      rcases Nat.eq_zero_or_pos depth with h | h
      · rw [h] at hk; simp at hk
      · exact h
    have hlen : ((countDown depth).map (fun z => (n, z))).length = depth := by
      simp [countDown]
    unfold cellOrder
    rw [countDown_succ, List.flatMap_cons]
    by_cases hlt : k < depth
    · rw [List.getElem?_append_left (by rw [hlen]; exact hlt), List.getElem?_map,
        countDown_getElem? hlt, Nat.div_eq_of_lt hlt, Nat.mod_eq_of_lt hlt]
      simp
    · obtain ⟨j, rfl⟩ : ∃ j, k = depth + j := ⟨k - depth, by omega⟩
      have hj : j < n * depth := by
        have : (n + 1) * depth = n * depth + depth := by ring
        omega
      rw [List.getElem?_append_right (by rw [hlen]; omega), hlen]
      have e : depth + j - depth = j := by omega
      rw [e]
      have := ih j hj
      unfold cellOrder at this
      rw [this, Nat.add_div_left _ hd, Nat.add_mod_left]
      have hq : j / depth < n := Nat.div_lt_of_lt_mul (by rw [Nat.mul_comm]; exact hj)
      generalize j / depth = a at hq ⊢
      have e2 : n + 1 - 1 - a.succ = n - 1 - a := by omega
      rw [e2]

/-- A run of iterations succeeds while both arrays have words left, whatever
the columns are, and advances both read indices by two per iteration. -/
theorem foldlM_cellStep_some (c : MIFConstants) (inf : INFFile) (level : Level)
    (ps : List (Nat × Nat)) (s : DecodeState) (j : Nat)
    (hf : s.floorIndex = 2 * j) (hm : s.map1Index = 2 * j)
    (hfl : 2 * (j + ps.length) ≤ level.flor.length)
    (hml : 2 * (j + ps.length) ≤ level.map1.length) :
    ∃ t, ps.foldlM (fun st p => cellStep c inf level p.1 p.2 st) s = some t ∧
      t.floorIndex = 2 * (j + ps.length) ∧ t.map1Index = 2 * (j + ps.length) := by
  induction ps generalizing s j with
  | nil => exact ⟨s, rfl, by simpa using hf, by simpa using hm⟩
  | cons p ps ih =>
    simp only [List.length_cons] at hfl hml
    rw [List.foldlM_cons, cellStep_eq c inf level p.1 p.2 j s hf hm (by omega) (by omega)]
    simp only [Option.bind_eq_bind, Option.some_bind]
    have hi := voxelStep_index c inf s
      ⟨p.1, p.2, wordAt level.flor j, wordAt level.map1 j⟩
    obtain ⟨t, h1, h2, h3⟩ := ih _ (j + 1) (by rw [hi.1, hf]; ring) (by rw [hi.2, hm]; ring)
      (by omega) (by omega)
    refine ⟨t, h1, ?_, ?_⟩
    · rw [h2, List.length_cons]; ring
    · rw [h3, List.length_cons]; ring

/-- C11. In a map of width `W` and depth `D` the double loop is one loop over
`cellOrder W D`, whose `k`-th column (`k < W * D`) is
`(W - 1 - k / D, D - 1 - k % D)`; the first `k` iterations succeed and leave
both read indices at `2 * k`, so the iteration for that column reads the `k`-th
word `f` of `flor` and the `k`-th word `w` of `map1` and decodes them into that
column; the rest of the decode continues from there. -/
theorem word_to_cell (c : MIFConstants) (inf : INFFile) (mif : MIFFile) (level : Level)
    (hlev : mif.levels.head? = some level)
    (hfl : level.flor.length = 2 * mif.width * mif.depth)
    (hml : level.map1.length = 2 * mif.width * mif.depth)
    (k : Nat) (hk : k < mif.width * mif.depth) :
    (cellOrder mif.width mif.depth)[k]?
      = some (mif.width - 1 - k / mif.depth, mif.depth - 1 - k % mif.depth) ∧
    ∃ s f w,
      ((cellOrder mif.width mif.depth).take k).foldlM
        (fun st p => cellStep c inf level p.1 p.2 st) (initialState mif) = some s ∧
      s.floorIndex = 2 * k ∧ s.map1Index = 2 * k ∧
      getLE16 level.flor (2 * k) = some f ∧ getLE16 level.map1 (2 * k) = some w ∧
      cellStep c inf level (mif.width - 1 - k / mif.depth) (mif.depth - 1 - k % mif.depth) s
        = some (wallStep c inf (mif.width - 1 - k / mif.depth) (mif.depth - 1 - k % mif.depth) w
            (floorStep c (mif.width - 1 - k / mif.depth) (mif.depth - 1 - k % mif.depth) f
              (advanceReads s))) ∧
      decodeVoxels c inf mif
        = ((cellOrder mif.width mif.depth).drop k).foldlM
            (fun st p => cellStep c inf level p.1 p.2 st) s := by
  have hmul : 2 * mif.width * mif.depth = 2 * (mif.width * mif.depth) := by ring
  have hlen : ((cellOrder mif.width mif.depth).take k).length = k := by
    rw [List.length_take, cellOrder_length]; omega
  obtain ⟨s, hs, hsf, hsm⟩ := foldlM_cellStep_some c inf level
    ((cellOrder mif.width mif.depth).take k) (initialState mif) 0 rfl rfl
    (by rw [hlen]; omega) (by rw [hlen]; omega)
  rw [hlen, Nat.zero_add] at hsf hsm
  refine ⟨cellOrder_getElem? _ _ k hk, s, wordAt level.flor k, wordAt level.map1 k, hs, hsf,
    hsm, getLE16_eq_wordAt (by omega), getLE16_eq_wordAt (by omega), ?_, ?_⟩
  · rw [cellStep_eq c inf level _ _ k s hsf hsm (by omega) (by omega)]
    rfl
  · unfold decodeVoxels
    rw [hlev]
    simp only []
    rw [xLoop_eq_foldlM]
    conv_lhs => rw [← List.take_append_drop k (cellOrder mif.width mif.depth)]
    rw [List.foldlM_append, hs]
    rfl

/-- C11, on `sampleMIF`: the word with number 1 goes to the column `(1, 0)`. -/
theorem word_to_cell_witness :
    (cellOrder 2 2)[1]? = some (1, 0) ∧
    ∃ s f w,
      ((cellOrder 2 2).take 1).foldlM
        (fun st p => cellStep sampleConstants sampleINF
          { flor := [0x05, 0x02, 0x05, 0x02, 0x05, 0x02, 0x05, 0x02],
            map1 := [0x07, 0x07, 0x03, 0x12, 0x01, 0x80, 0x00, 0x00] } p.1 p.2 st)
        (initialState sampleMIF) = some s ∧
      s.floorIndex = 2 ∧ s.map1Index = 2 ∧ f = 0x0205 ∧ w = 0x1203 := by
  obtain ⟨h0, s, f, w, h1, h2, h3, h4, h5, _⟩ :=
    word_to_cell sampleConstants sampleINF sampleMIF _ rfl (by decide) (by decide) 1 (by decide)
  have e4 : f = 0x0205 := by
    have : some f = some 0x0205 := by rw [← h4]; decide
    exact Option.some.inj this
  have e5 : w = 0x1203 := by
    have : some w = some 0x1203 := by rw [← h5]; decide
    exact Option.some.inj this
  exact ⟨h0, s, f, w, h1, h2, h3, e4, e5⟩

/-- C12. The constructor adds `VoxelData(0)` to the empty table of the new grid
before the loops start, so `emptyID` is 0 and the table is `[VoxelData(0)]`
(as in `GameData::createDefault`, where it is also the first call of
`addVoxelData`); after the decode index 0 still holds `VoxelData(0)` and every
index stored for a floor word or a wall word is at least 1. -/
theorem air_descriptor_first (c : MIFConstants) (inf : INFFile) (mif : MIFFile) (level : Level)
    (hlev : mif.levels.head? = some level)
    (hfl : level.flor.length = 2 * mif.width * mif.depth)
    (hml : level.map1.length = 2 * mif.width * mif.depth) :
    ((VoxelGrid.create mif.width 5 mif.depth).addVoxelData (VoxelData.ofId 0)).1 = 0 ∧
    ((VoxelGrid.create 24 5 24).addVoxelData (VoxelData.ofId 0)).1 = 0 ∧
    (initialState mif).voxelGrid.voxelData = [VoxelData.ofId 0] ∧
    ∃ s, decodeVoxels c inf mif = some s ∧
      s.voxelGrid.voxelData[0]? = some (VoxelData.ofId 0) ∧
      (∀ k i, s.floorDataMappings.find k = some i → 1 ≤ i) ∧
      (∀ k i, s.wallDataMappings.find k = some i → 1 ≤ i) := by
  refine ⟨rfl, rfl, rfl, ?_⟩
  have hs := decodeVoxels_eq c inf mif level hlev hfl hml
  generalize (levelCells mif level).foldl (voxelStep c inf) (initialState mif) = s at hs
  obtain ⟨hc, _, _, _⟩ := decodeVoxels_tables c inf mif level hlev hfl hml s hs
  exact ⟨s, hs, hc.air, fun k i h => (hc.floor_data k i h).1, fun k i h => (hc.wall_data k i h).1⟩

/-- C12, on `sampleMIF`. -/
theorem air_descriptor_first_witness :
    ((VoxelGrid.create 2 5 2).addVoxelData (VoxelData.ofId 0)).1 = 0 ∧
    ((VoxelGrid.create 24 5 24).addVoxelData (VoxelData.ofId 0)).1 = 0 ∧
    (initialState sampleMIF).voxelGrid.voxelData = [VoxelData.ofId 0] ∧
    ∃ s, decodeVoxels sampleConstants sampleINF sampleMIF = some s ∧
      s.voxelGrid.voxelData[0]? = some (VoxelData.ofId 0) ∧
      (∀ k i, s.floorDataMappings.find k = some i → 1 ≤ i) ∧
      (∀ k i, s.wallDataMappings.find k = some i → 1 ≤ i) :=
  air_descriptor_first sampleConstants sampleINF sampleMIF _ rfl (by decide) (by decide)

theorem applyWrites_append (g : VoxelGrid) (a b : List ((Nat × Nat × Nat) × Nat)) :
    applyWrites g (a ++ b) = applyWrites (applyWrites g a) b := by
  unfold applyWrites
  rw [List.foldl_append]

theorem applyWrites_dims (g : VoxelGrid) (ws : List ((Nat × Nat × Nat) × Nat)) :
    (applyWrites g ws).width = g.width ∧ (applyWrites g ws).height = g.height := by
  induction ws generalizing g with
  | nil => exact ⟨rfl, rfl⟩
  | cons w ws ih =>
    have := ih (setVoxel g w.1.1 w.1.2.1 w.1.2.2 w.2)
    exact this

theorem applyWrites_congr (g g' : VoxelGrid) (ws : List ((Nat × Nat × Nat) × Nat))
    (hw : g.width = g'.width) (hh : g.height = g'.height) (hv : g.voxels = g'.voxels) :
    (applyWrites g ws).voxels = (applyWrites g' ws).voxels := by
  induction ws generalizing g g' with
  | nil => exact hv
  | cons w ws ih =>
    apply ih
    · exact hw
    · exact hh
    · simp only [setVoxel, voxelIndex, hw, hh, hv]

/-- The grid after one iteration is the grid before it with the calls of
`setVoxel` at `cellWrites` made, in that order. -/
theorem voxelStep_writes (c : MIFConstants) (inf : INFFile) (mif : MIFFile) (s : DecodeState)
    (q : Cell) (hc : Consistent c inf s) (hs : GridShape mif s) :
    ∃ ids : List Nat, ids.length = (cellWrites c q).length ∧
      (voxelStep c inf s q).voxelGrid.voxels
        = (applyWrites s.voxelGrid ((cellWrites c q).zip ids)).voxels := by
  have hc0 : Consistent c inf (advanceReads s) := hc.congr rfl rfl rfl
  have hs0 : GridShape mif (advanceReads s) := ⟨hs.width, hs.height, hs.depth, hs.length⟩
  obtain ⟨f1, f2, _, _, _, f6, f7⟩ := floorStep_spec c inf mif _ q.x q.z q.florVoxel hc0 hs0
  obtain ⟨_, _, _, _, _, w6, w7⟩ := wallStep_spec c inf mif _ q.x q.z q.map1Voxel f1 f2
  simp only [advanceReads_voxelGrid] at f6 f7
  have e1 : voxelIndex (floorStep c q.x q.z q.florVoxel (advanceReads s)).voxelGrid q.x 1 q.z
      = voxelIndex s.voxelGrid q.x 1 q.z := by
    rw [voxelIndex_eq f2, voxelIndex_eq hs]
  rw [e1] at w6
  unfold voxelStep cellWrites
  cases hn : notChasm c (floorTextureID q.florVoxel) <;>
    cases hw : isWallVoxel q.map1Voxel
  · refine ⟨[], rfl, ?_⟩
    rw [w7 hw, f7 hn]
    rfl
  · obtain ⟨i, _, hi⟩ := w6 hw
    refine ⟨[i], rfl, ?_⟩
    rw [hi, f7 hn]
    rfl
  · obtain ⟨i, _, hi⟩ := f6 hn
    refine ⟨[i], rfl, ?_⟩
    rw [w7 hw, hi]
    rfl
  · obtain ⟨i, _, hi⟩ := f6 hn
    obtain ⟨j, _, hj⟩ := w6 hw
    refine ⟨[i, j], rfl, ?_⟩
    rw [hj, hi]
    rfl

/-- The grid after a run of iterations is the grid before it with the calls of
`setVoxel` at the `cellWrites` of the cells made, in order. -/
theorem foldl_voxelStep_writes (c : MIFConstants) (inf : INFFile) (mif : MIFFile)
    (qs : List Cell) (hqs : ∀ q ∈ qs, q.x < mif.width ∧ q.z < mif.depth) (s : DecodeState)
    (hc : Consistent c inf s) (hs : GridShape mif s) :
    ∃ ids : List Nat, ids.length = (qs.flatMap (cellWrites c)).length ∧
      (qs.foldl (voxelStep c inf) s).voxelGrid.voxels
        = (applyWrites s.voxelGrid ((qs.flatMap (cellWrites c)).zip ids)).voxels := by
  induction qs generalizing s with
  | nil => exact ⟨[], rfl, rfl⟩
  | cons q qs ih =>
    have hq := hqs q (List.mem_cons_self _ _)
    have e := voxelStep_effect c inf mif s q hc hs hq.1 hq.2
    obtain ⟨ids1, hl1, hv1⟩ := voxelStep_writes c inf mif s q hc hs
    obtain ⟨ids2, hl2, hv2⟩ := ih (fun q' h' => hqs q' (List.mem_cons_of_mem _ h'))
      (voxelStep c inf s q) e.consistent e.shape
    refine ⟨ids1 ++ ids2, ?_, ?_⟩
    · simp only [List.flatMap_cons, List.length_append, hl1, hl2]
    · simp only [List.foldl_cons, List.flatMap_cons]
      rw [hv2, List.zip_append hl1.symm, applyWrites_append]
      apply applyWrites_congr
      · rw [(applyWrites_dims _ _).1, e.shape.width, hs.width]
      · rw [(applyWrites_dims _ _).2, e.shape.height, hs.height]
      · exact hv1

/-- A run of iterations leaves the voxels at `y >= 2` as they are. -/
theorem foldl_voxelStep_upper (c : MIFConstants) (inf : INFFile) (mif : MIFFile)
    (qs : List Cell) (hqs : ∀ q ∈ qs, q.x < mif.width ∧ q.z < mif.depth) (s : DecodeState)
    (hc : Consistent c inf s) (hs : GridShape mif s) (x y z : Nat) (hx : x < mif.width)
    (hy2 : 2 ≤ y) (hy5 : y < 5) :
    (qs.foldl (voxelStep c inf) s).voxelGrid.getVoxel x y z = s.voxelGrid.getVoxel x y z := by
  induction qs generalizing s with
  | nil => rfl
  | cons q qs ih =>
    have hq := hqs q (List.mem_cons_self _ _)
    have e := voxelStep_effect c inf mif s q hc hs hq.1 hq.2
    simp only [List.foldl_cons]
    rw [ih (fun q' h' => hqs q' (List.mem_cons_of_mem _ h')) _ e.consistent e.shape]
    unfold VoxelGrid.getVoxel
    rw [voxelIndex_eq e.shape, ← voxelIndex_eq hs]
    apply e.frame
    · intro h
      have := (voxelIndex_inj hs hx hy5 hq.1 (by decide : 0 < 5) h).2.1
      omega
    · intro h
      have := (voxelIndex_inj hs hx hy5 hq.1 (by decide : 1 < 5) h).2.1
      omega

theorem cellWrites_nodup (c : MIFConstants) (q : Cell) : (cellWrites c q).Nodup := by
  unfold cellWrites
  split <;> split <;> simp

theorem mem_cellWrites {c : MIFConstants} {q : Cell} {p : Nat × Nat × Nat}
    (h : p ∈ cellWrites c q) : p.1 = q.x ∧ p.2.2 = q.z ∧ p.2.1 ≤ 1 := by
  unfold cellWrites at h
  split at h <;> split at h <;> simp at h
  · rcases h with h | h <;> subst h <;> simp
  · subst h; simp
  · subst h; simp

/-- No coordinate is written twice in a run over cells of different columns. -/
theorem flatMap_cellWrites_nodup (c : MIFConstants) (qs : List Cell)
    (hnd : (qs.map (fun q => (q.x, q.z))).Nodup) : (qs.flatMap (cellWrites c)).Nodup := by
  rw [List.nodup_flatMap]
  refine ⟨fun q _ => cellWrites_nodup c q, ?_⟩
  have hp : List.Pairwise (fun a b : Cell => (a.x, a.z) ≠ (b.x, b.z)) qs :=
    List.pairwise_map.1 hnd
  refine hp.imp ?_
  intro a b hab p ha hb
  obtain ⟨a1, a2, _⟩ := mem_cellWrites ha
  obtain ⟨b1, b2, _⟩ := mem_cellWrites hb
  apply hab
  rw [← a1, ← a2, ← b1, ← b2]

/-- C13. The decode is the loop body folded over the columns of the level; the
voxels with `y >= 2` are after the decode what they were before it; the final
grid is the initial grid with the calls of `setVoxel` made at the coordinates
`cellWrites` lists for the columns, and among those coordinates none occurs
twice and all have `y = 0` or `y = 1` and lie in the grid. -/
theorem only_floor_and_wall_written (c : MIFConstants) (inf : INFFile) (mif : MIFFile)
    (level : Level) (hlev : mif.levels.head? = some level)
    (hfl : level.flor.length = 2 * mif.width * mif.depth)
    (hml : level.map1.length = 2 * mif.width * mif.depth) :
    ∃ s, decodeVoxels c inf mif = some s ∧
      s = (levelCells mif level).foldl (voxelStep c inf) (initialState mif) ∧
      (∀ x y z, x < mif.width → 2 ≤ y → y < 5 → z < mif.depth →
        s.voxelGrid.getVoxel x y z = (initialState mif).voxelGrid.getVoxel x y z) ∧
      (∃ ids : List Nat, ids.length = ((levelCells mif level).flatMap (cellWrites c)).length ∧
        s.voxelGrid.voxels = (applyWrites (initialState mif).voxelGrid
          (((levelCells mif level).flatMap (cellWrites c)).zip ids)).voxels) ∧
      ((levelCells mif level).flatMap (cellWrites c)).Nodup ∧
      (∀ p ∈ (levelCells mif level).flatMap (cellWrites c),
        p.1 < mif.width ∧ p.2.1 ≤ 1 ∧ p.2.2 < mif.depth) := by
  refine ⟨_, decodeVoxels_eq c inf mif level hlev hfl hml, rfl, ?_, ?_, ?_, ?_⟩
  · intro x y z hx hy2 hy5 _
    exact foldl_voxelStep_upper c inf mif _ (levelCells_inside mif level) _
      (initialState_consistent c inf mif) (initialState_shape mif) x y z hx hy2 hy5
  · exact foldl_voxelStep_writes c inf mif _ (levelCells_inside mif level) _
      (initialState_consistent c inf mif) (initialState_shape mif)
  · exact flatMap_cellWrites_nodup c _ (levelCells_nodup mif level)
  · intro p hp
    obtain ⟨q, hq, hpq⟩ := List.mem_flatMap.1 hp
    obtain ⟨h1, h2, h3⟩ := mem_cellWrites hpq
    have := levelCells_inside mif level q hq
    rw [h1, h2]
    exact ⟨this.1, h3, this.2⟩

/-- C13, on `sampleMIF`: four floor writes and two wall writes. -/
theorem only_floor_and_wall_written_witness :
    ∃ s, decodeVoxels sampleConstants sampleINF sampleMIF = some s ∧
      (∀ x y z, x < 2 → 2 ≤ y → y < 5 → z < 2 →
        s.voxelGrid.getVoxel x y z = (initialState sampleMIF).voxelGrid.getVoxel x y z) ∧
      (sampleMIF.levels.map (fun l => (levelCells sampleMIF l).flatMap
          (cellWrites sampleConstants)))
        = [[(1, 0, 1), (1, 1, 1), (1, 0, 0), (1, 1, 0), (0, 0, 1), (0, 0, 0)]] := by
  obtain ⟨s, h1, _, h3, _⟩ :=
    only_floor_and_wall_written sampleConstants sampleINF sampleMIF _ rfl (by decide) (by decide)
  exact ⟨s, h1, h3, by decide⟩

theorem levelCells_eq_map (mif : MIFFile) (level : Level) :
    levelCells mif level
      = (cellOrder mif.width mif.depth).map (fun p => cellAt mif level p.1 p.2) := by
  simp [levelCells, cellOrder, List.map_flatMap, Function.comp_def]

/-- The `k`-th cell of the run: its column and the `k`-th words of both arrays. -/
theorem levelCells_getElem? (mif : MIFFile) (level : Level) (k : Nat)
    (hk : k < mif.width * mif.depth) :
    (levelCells mif level)[k]?
      = some ⟨mif.width - 1 - k / mif.depth, mif.depth - 1 - k % mif.depth,
          wordAt level.flor k, wordAt level.map1 k⟩ := by
  rw [levelCells_eq_map, List.getElem?_map, cellOrder_getElem? _ _ k hk]
  simp only [Option.map_some', cellAt, (cellNumber_surj hk).2.2]

theorem levelWords_eq_map (mif : MIFFile) (buf : List Nat)
    (hlen : buf.length = 2 * mif.width * mif.depth) :
    (List.range (mif.width * mif.depth)).filterMap (fun k => getLE16 buf (2 * k))
      = (List.range (mif.width * mif.depth)).map (wordAt buf) := by
  rw [← List.filterMap_eq_map]
  apply List.filterMap_congr
  intro k hk
  have hk' : k < mif.width * mif.depth := List.mem_range.1 hk
  rw [getLE16_eq_wordAt (by rw [hlen, Nat.mul_assoc]; omega)]
  rfl

theorem levelCells_map_florVoxel (mif : MIFFile) (level : Level)
    (hfl : level.flor.length = 2 * mif.width * mif.depth) :
    (levelCells mif level).map (fun q => q.florVoxel) = floorWords mif level := by
  unfold floorWords
  rw [levelWords_eq_map mif level.flor hfl]
  apply List.ext_getElem?
  intro k
  by_cases hk : k < mif.width * mif.depth
  · rw [List.getElem?_map, levelCells_getElem? mif level k hk, List.getElem?_map,
      List.getElem?_range hk]
    rfl
  · rw [List.getElem?_eq_none (by simp [levelCells_length]; omega),
      List.getElem?_eq_none (by simp; omega)]

theorem levelCells_map_map1Voxel (mif : MIFFile) (level : Level)
    (hml : level.map1.length = 2 * mif.width * mif.depth) :
    (levelCells mif level).map (fun q => q.map1Voxel) = wallWords mif level := by
  unfold wallWords
  rw [levelWords_eq_map mif level.map1 hml]
  apply List.ext_getElem?
  intro k
  by_cases hk : k < mif.width * mif.depth
  · rw [List.getElem?_map, levelCells_getElem? mif level k hk, List.getElem?_map,
      List.getElem?_range hk]
    rfl
  · rw [List.getElem?_eq_none (by simp [levelCells_length]; omega),
      List.getElem?_eq_none (by simp; omega)]

/-- One iteration whose floor word and wall word both have no descriptor yet
appends two descriptors: the floor one and, after it, the wall one. -/
theorem voxelStep_fresh (c : MIFConstants) (inf : INFFile) (s : DecodeState) (q : Cell)
    (hn : notChasm c (floorTextureID q.florVoxel) = true)
    (hw : isWallVoxel q.map1Voxel = true)
    (hf : s.floorDataMappings.find q.florVoxel = none)
    (hm : s.wallDataMappings.find q.map1Voxel = none) :
    (voxelStep c inf s q).voxelGrid.voxelData
      = s.voxelGrid.voxelData
          ++ [VoxelData.ofId (floorTextureID q.florVoxel), wallData c inf q.map1Voxel] ∧
    (voxelStep c inf s q).wallDataMappings.find q.map1Voxel
      = some (s.voxelGrid.voxelData.length + 1) := by
  have hf' : (advanceReads s).floorDataMappings.find q.florVoxel = none := hf
  unfold voxelStep
  rw [floorStep_eq, if_pos hn, floorDataIndex_of_none hf', wallStep_eq, if_pos hw]
  rw [wallDataIndex_of_none _ (by exact hm)]
  simp [setVoxel, advanceReads, find_cons]

/-- A run over cells whose floor words are pairwise different, not chasms and
new to `floorDataMappings`, and whose wall words are pairwise different, voxels
and new to `wallDataMappings`, appends two descriptors per cell. -/
theorem foldl_voxelStep_fresh (c : MIFConstants) (inf : INFFile) (mif : MIFFile)
    (qs : List Cell) (hqs : ∀ q ∈ qs, q.x < mif.width ∧ q.z < mif.depth)
    (hok : ∀ q ∈ qs, notChasm c (floorTextureID q.florVoxel) = true ∧
      isWallVoxel q.map1Voxel = true)
    (hfn : (qs.map (fun q => q.florVoxel)).Nodup)
    (hwn : (qs.map (fun q => q.map1Voxel)).Nodup)
    (s : DecodeState) (hc : Consistent c inf s) (hs : GridShape mif s)
    (hnew : ∀ q ∈ qs, q.florVoxel ∉ s.floorDataMappings.map Prod.fst ∧
      q.map1Voxel ∉ s.wallDataMappings.map Prod.fst) :
    (qs.foldl (voxelStep c inf) s).voxelGrid.voxelData.length
      = s.voxelGrid.voxelData.length + 2 * qs.length := by
  induction qs generalizing s with
  | nil => rfl
  | cons q qs ih =>
    have hq := hqs q (List.mem_cons_self _ _)
    have hokq := hok q (List.mem_cons_self _ _)
    have hnq := hnew q (List.mem_cons_self _ _)
    have e := voxelStep_effect c inf mif s q hc hs hq.1 hq.2
    have hfr := voxelStep_fresh c inf s q hokq.1 hokq.2
      ((find_eq_none_iff _ _).2 hnq.1) ((find_eq_none_iff _ _).2 hnq.2)
    simp only [List.map_cons, List.nodup_cons] at hfn hwn
    simp only [List.foldl_cons, List.length_cons]
    rw [ih (fun q' h' => hqs q' (List.mem_cons_of_mem _ h'))
      (fun q' h' => hok q' (List.mem_cons_of_mem _ h')) hfn.2 hwn.2 _ e.consistent e.shape,
      hfr.1]
    · simp only [List.length_append, List.length_cons, List.length_nil]
      omega
    · intro q' h'
      have hn' := hnew q' (List.mem_cons_of_mem _ h')
      constructor
      · rw [e.floor_keys]
        rintro (h | ⟨h, _⟩)
        · exact hn'.1 h
        · exact hfn.1 (by rw [← h]; exact List.mem_map_of_mem (fun q => q.florVoxel) h')
      · rw [e.wall_keys]
        rintro (h | ⟨h, _⟩)
        · exact hn'.2 h
        · exact hwn.1 (by rw [← h]; exact List.mem_map_of_mem (fun q => q.map1Voxel) h')

/-- C14 fails for a 1x128 level whose 128 floor words are pairwise different
and not chasms and whose 128 wall words are pairwise different voxel words: the
wall word `w` of the column `(0, 0)`, the last one read, gets the descriptor
with index 256, the 257th of the table, but the voxel at `(0, 1, 0)` holds 0,
the ID of the empty voxel data at index 0, because `setVoxel` narrows the index
to a `char`. -/
theorem stored_id_narrowed (c : MIFConstants) (inf : INFFile) (mif : MIFFile) (level : Level)
    (hlev : mif.levels.head? = some level)
    (hwidth : mif.width = 1) (hdepth : mif.depth = 128)
    (hfl : level.flor.length = 256) (hml : level.map1.length = 256)
    (hfn : (floorWords mif level).Nodup) (hwn : (wallWords mif level).Nodup)
    (hfo : ∀ f ∈ floorWords mif level, notChasm c (floorTextureID f) = true)
    (hwo : ∀ w ∈ wallWords mif level, isWallVoxel w = true)
    (w : Nat) (hw : getLE16 level.map1 (2 * cellNumber mif.width mif.depth 0 0) = some w) :
    ∃ s, decodeVoxels c inf mif = some s ∧
      s.wallDataMappings.find w = some 256 ∧
      s.voxelGrid.voxelData.length = 257 ∧
      s.voxelGrid.voxelData[256]? = some (wallData c inf w) ∧
      s.voxelGrid.voxelData[0]? = some (VoxelData.ofId 0) ∧
      s.voxelGrid.getVoxel 0 1 0 = some 0 := by
  have hfl' : level.flor.length = 2 * mif.width * mif.depth := by rw [hwidth, hdepth, hfl]
  have hml' : level.map1.length = 2 * mif.width * mif.depth := by rw [hwidth, hdepth, hml]
  have hWD : mif.width * mif.depth = 128 := by rw [hwidth, hdepth]
  have hlen : (levelCells mif level).length = 128 := by rw [levelCells_length, hWD]
  have hlast : (levelCells mif level)[127]?
      = some ⟨0, 0, wordAt level.flor 127, wordAt level.map1 127⟩ := by
    rw [levelCells_getElem? mif level 127 (by omega), hwidth, hdepth]
  have hget : (levelCells mif level)[127]
      = ⟨0, 0, wordAt level.flor 127, wordAt level.map1 127⟩ := by
    rw [List.getElem?_eq_getElem (by omega)] at hlast
    exact Option.some.inj hlast
  have hsplit : levelCells mif level
      = (levelCells mif level).take 127
          ++ [⟨0, 0, wordAt level.flor 127, wordAt level.map1 127⟩] := by
    conv_lhs => rw [← List.take_append_drop 127 (levelCells mif level)]
    rw [List.drop_eq_getElem_cons (by omega), hget, List.drop_eq_nil_of_le (by omega)]
  have hwq : wordAt level.map1 127 = w := by
    apply wordAt_of_getLE16
    rw [← hw, hwidth, hdepth]
    rfl
  rw [hwq] at hsplit
  have hin := levelCells_inside mif level
  have hF := levelCells_map_florVoxel mif level hfl'
  have hW := levelCells_map_map1Voxel mif level hml'
  have hfnL : ((levelCells mif level).map (fun q => q.florVoxel)).Nodup := by rw [hF]; exact hfn
  have hwnL : ((levelCells mif level).map (fun q => q.map1Voxel)).Nodup := by rw [hW]; exact hwn
  have hokL : ∀ q ∈ levelCells mif level, notChasm c (floorTextureID q.florVoxel) = true ∧
      isWallVoxel q.map1Voxel = true := by
    intro q hq
    exact ⟨hfo _ (by rw [← hF]; exact List.mem_map_of_mem (fun q => q.florVoxel) hq),
      hwo _ (by rw [← hW]; exact List.mem_map_of_mem (fun q => q.map1Voxel) hq)⟩
  have hs := decodeVoxels_eq c inf mif level hlev hfl' hml'
  generalize hpre : (levelCells mif level).take 127 = pre at hsplit
  have hprelen : pre.length = 127 := by rw [← hpre, List.length_take, hlen]; rfl
  rw [hsplit] at hin hfnL hwnL hokL hs
  simp only [List.map_append, List.map_cons, List.map_nil] at hfnL hwnL
  rw [List.nodup_append] at hfnL hwnL
  have hinpre : ∀ q ∈ pre, q.x < mif.width ∧ q.z < mif.depth :=
    fun q hq => hin q (List.mem_append_left _ hq)
  obtain ⟨p1, p2, _, p4, p5, _⟩ := foldl_voxelStep_effect c inf mif pre hinpre
    (initialState mif) (initialState_consistent c inf mif) (initialState_shape mif)
  have plen := foldl_voxelStep_fresh c inf mif pre hinpre
    (fun q hq => hokL q (List.mem_append_left _ hq)) hfnL.1 hwnL.1 (initialState mif)
    (initialState_consistent c inf mif) (initialState_shape mif)
    (fun q _ => by simp [initialState])
  have hT0 : (initialState mif).voxelGrid.voxelData.length = 1 := rfl
  rw [hT0, hprelen] at plen
  have hlastok := hokL ⟨0, 0, wordAt level.flor 127, w⟩ (by simp)
  have hlastin := hin ⟨0, 0, wordAt level.flor 127, w⟩ (by simp)
  have hfnew : (pre.foldl (voxelStep c inf) (initialState mif)).floorDataMappings.find
      (wordAt level.flor 127) = none := by
    rw [find_eq_none_iff, p4]
    rintro (h | ⟨q, hq, hqf, _⟩)
    · simp [initialState] at h
    · exact hfnL.2.2 (List.mem_map_of_mem (fun q => q.florVoxel) hq) (by simp [hqf])
  have hwnew : (pre.foldl (voxelStep c inf) (initialState mif)).wallDataMappings.find w
      = none := by
    rw [find_eq_none_iff, p5]
    rintro (h | ⟨q, hq, hqw, _⟩)
    · simp [initialState] at h
    · exact hwnL.2.2 (List.mem_map_of_mem (fun q => q.map1Voxel) hq) (by simp [hqw])
  have hfr := voxelStep_fresh c inf (pre.foldl (voxelStep c inf) (initialState mif))
    ⟨0, 0, wordAt level.flor 127, w⟩ hlastok.1 hlastok.2 hfnew hwnew
  have e := voxelStep_effect c inf mif (pre.foldl (voxelStep c inf) (initialState mif))
    ⟨0, 0, wordAt level.flor 127, w⟩ p1 p2 hlastin.1 hlastin.2
  simp only [List.foldl_append, List.foldl_cons, List.foldl_nil] at hs
  rw [plen] at hfr
  refine ⟨_, hs, hfr.2, ?_, ?_, e.consistent.air, ?_⟩
  · rw [hfr.1, List.length_append, plen]
    rfl
  · rw [hfr.1, List.getElem?_append_right (by omega), plen]
    rfl
  · obtain ⟨i, hi1, hi2⟩ := e.wall_write hlastok.2
    rw [hfr.2] at hi1
    cases hi1
    unfold VoxelGrid.getVoxel
    rw [voxelIndex_eq e.shape, ← voxelIndex_eq p2]
    exact hi2

set_option maxRecDepth 100000 in
/-- C14 fails on `manyDescriptorsMIF` with `sampleConstants`: the wall word
`0x017F` of the column `(0, 0)` gets the descriptor with index 256 and the voxel
at `(0, 1, 0)` holds 0. -/
theorem stored_id_narrowed_witness :
    ∃ s, decodeVoxels sampleConstants sampleINF manyDescriptorsMIF = some s ∧
      s.wallDataMappings.find 0x017F = some 256 ∧
      s.voxelGrid.voxelData.length = 257 ∧
      s.voxelGrid.voxelData[256]? = some (wallData sampleConstants sampleINF 0x017F) ∧
      s.voxelGrid.voxelData[0]? = some (VoxelData.ofId 0) ∧
      s.voxelGrid.getVoxel 0 1 0 = some 0 :=
  stored_id_narrowed sampleConstants sampleINF manyDescriptorsMIF _ rfl rfl rfl
    (by decide!) (by decide!) (by decide!) (by decide!) (by decide!) (by decide!)
    0x017F (by decide!)

theorem TriggerTable.find_entry_cons {α : Type} (m : TriggerTable α) (k k' : Int × Int) (v : α) :
    TriggerTable.find ((k, v) :: m) k' = if k' = k then some v else TriggerTable.find m k' := by
  unfold TriggerTable.find
  by_cases h : k' = k
  · subst h; simp [List.lookup_cons]
  · have hb : (k' == k) = false := by simpa using h
    simp [List.lookup_cons, hb, h]

theorem TriggerTable.insert_of_some {α : Type} {m : TriggerTable α} {k : Int × Int} {x : α}
    (v : α) (h : m.find k = some x) : m.insert k v = m := by
  simp [TriggerTable.insert, h]

theorem TriggerTable.insert_of_none {α : Type} {m : TriggerTable α} {k : Int × Int}
    (v : α) (h : m.find k = none) : m.insert k v = (k, v) :: m := by
  simp [TriggerTable.insert, h]

/-- What `insert` leaves under each key: an entry that was there stays, and
the new value is stored only under a key that had none. -/
theorem TriggerTable.find_insert {α : Type} (m : TriggerTable α) (k k' : Int × Int) (v : α) :
    (m.insert k v).find k'
      = if k' = k then (match m.find k with | some x => some x | none => some v)
        else m.find k' := by
  cases h : m.find k with
  | some x =>
    rw [TriggerTable.insert_of_some v h]
    split
    · rename_i hk; rw [hk, h]
    · rfl
  | none =>
    rw [TriggerTable.insert_of_none v h, TriggerTable.find_entry_cons]

theorem TriggerTable.find_insert_isSome {α : Type} (m : TriggerTable α) (k k' : Int × Int)
    (v : α) : ((m.insert k v).find k').isSome ↔ (m.find k').isSome ∨ k' = k := by
  rw [TriggerTable.find_insert]
  by_cases hk : k' = k
  · subst hk
    cases h : m.find k' <;> simp
  · simp [hk]

theorem INFFile.getText_of_hasTextIndex {inf : INFFile} {index : Int}
    (h : inf.hasTextIndex index = true) : ∃ td, inf.getText index = some td := by
  unfold INFFile.hasTextIndex at h
  unfold INFFile.getText
  exact Option.isSome_iff_exists.1 h

/-- Whether a trigger record gets a text trigger (WorldData.cpp:232, 236). -/
theorem textTriggerStep_eq (m : CoordinateMapper) (inf : INFFile) (mif : MIFFile)
    (wd : WorldData) (t : Trigger) :
    (t.textIndex ≠ -1 ∧ inf.hasTextIndex t.textIndex = true ∧
      ∃ td, inf.getText t.textIndex = some td ∧
        textTriggerStep m inf mif wd t = some { wd with
          textTriggers := wd.textTriggers.insert (triggerVoxel m mif t)
            (TextTrigger.create td.text td.displayedOnce) }) ∨
    (¬ (t.textIndex ≠ -1 ∧ inf.hasTextIndex t.textIndex = true) ∧
      textTriggerStep m inf mif wd t = some wd) := by
  unfold textTriggerStep
  by_cases h1 : t.textIndex = -1
  · right
    simp [h1]
  · by_cases h2 : inf.hasTextIndex t.textIndex = true
    · left
      obtain ⟨td, htd⟩ := INFFile.getText_of_hasTextIndex h2
      refine ⟨h1, h2, td, htd, ?_⟩
      simp [h1, h2, htd]
    · right
      simp [h1, h2]

/-- Whether a trigger record gets a sound trigger (WorldData.cpp:233, 243). -/
theorem soundTriggerStep_eq (m : CoordinateMapper) (inf : INFFile) (mif : MIFFile)
    (wd : WorldData) (t : Trigger) :
    (t.soundIndex ≠ -1 ∧
      soundTriggerStep m inf mif wd t = (inf.getSound t.soundIndex).map (fun sound =>
        { wd with soundTriggers := wd.soundTriggers.insert (triggerVoxel m mif t) sound })) ∨
    (t.soundIndex = -1 ∧ soundTriggerStep m inf mif wd t = some wd) := by
  unfold soundTriggerStep
  by_cases h1 : t.soundIndex = -1
  · right
    simp [h1]
  · left
    refine ⟨h1, ?_⟩
    cases h : inf.getSound t.soundIndex <;> simp [h1]

theorem TriggerTable.find_insert_value {α : Type} (m : TriggerTable α) (k k' : Int × Int)
    (v x : α) (h : (m.insert k v).find k' = some x) :
    m.find k' = some x ∨ (k' = k ∧ x = v ∧ m.find k = none) := by
  rw [TriggerTable.find_insert] at h
  by_cases hk : k' = k
  · subst hk
    rw [if_pos rfl] at h
    cases hm : m.find k' with
    | some y => rw [hm] at h; exact Or.inl h
    | none =>
      rw [hm] at h
      exact Or.inr ⟨rfl, (Option.some.inj h).symm, rfl⟩
  · rw [if_neg hk] at h
    exact Or.inl h

theorem TriggerTable.find_insert_kept {α : Type} (m : TriggerTable α) (k k' : Int × Int)
    (v x : α) (h : m.find k' = some x) : (m.insert k v).find k' = some x := by
  rw [TriggerTable.find_insert]
  by_cases hk : k' = k
  · subst hk
    rw [if_pos rfl, h]
  · rw [if_neg hk, h]

theorem TriggersEffect.nil (m : CoordinateMapper) (inf : INFFile) (mif : MIFFile)
    (wd : WorldData) : TriggersEffect m inf mif [] wd wd := by
  constructor <;> simp

theorem TriggersEffect.append {m : CoordinateMapper} {inf : INFFile} {mif : MIFFile}
    {l1 l2 : List Trigger} {a b c : WorldData} (h1 : TriggersEffect m inf mif l1 a b)
    (h2 : TriggersEffect m inf mif l2 b c) : TriggersEffect m inf mif (l1 ++ l2) a c := by
  constructor
  · rw [h2.grid, h1.grid]
  · rw [h2.entities, h1.entities]
  · intro key
    rw [h2.text_keys, h1.text_keys]
    simp only [List.mem_append]
    constructor
    · rintro ((h | ⟨t, ht, h⟩) | ⟨t, ht, h⟩)
      · exact Or.inl h
      · exact Or.inr ⟨t, Or.inl ht, h⟩
      · exact Or.inr ⟨t, Or.inr ht, h⟩
    · rintro (h | ⟨t, ht | ht, h⟩)
      · exact Or.inl (Or.inl h)
      · exact Or.inl (Or.inr ⟨t, ht, h⟩)
      · exact Or.inr ⟨t, ht, h⟩
  · intro key
    rw [h2.sound_keys, h1.sound_keys]
    simp only [List.mem_append]
    constructor
    · rintro ((h | ⟨t, ht, h⟩) | ⟨t, ht, h⟩)
      · exact Or.inl h
      · exact Or.inr ⟨t, Or.inl ht, h⟩
      · exact Or.inr ⟨t, Or.inr ht, h⟩
    · rintro (h | ⟨t, ht | ht, h⟩)
      · exact Or.inl (Or.inl h)
      · exact Or.inl (Or.inr ⟨t, ht, h⟩)
      · exact Or.inr ⟨t, ht, h⟩
  · intro key tt h
    rcases h2.text_values key tt h with h | ⟨t, ht, h⟩
    · rcases h1.text_values key tt h with h | ⟨t, ht, h⟩
      · exact Or.inl h
      · exact Or.inr ⟨t, List.mem_append_left _ ht, h⟩
    · exact Or.inr ⟨t, List.mem_append_right _ ht, h⟩
  · intro key sound h
    rcases h2.sound_values key sound h with h | ⟨t, ht, h⟩
    · rcases h1.sound_values key sound h with h | ⟨t, ht, h⟩
      · exact Or.inl h
      · exact Or.inr ⟨t, List.mem_append_left _ ht, h⟩
    · exact Or.inr ⟨t, List.mem_append_right _ ht, h⟩
  · exact fun key tt h => h2.text_kept key tt (h1.text_kept key tt h)
  · exact fun key sound h => h2.sound_kept key sound (h1.sound_kept key sound h)

/-- One iteration of the trigger loop that returns. -/
theorem triggerStep_effect (m : CoordinateMapper) (inf : INFFile) (mif : MIFFile)
    (wd0 wd : WorldData) (t : Trigger) (h : triggerStep m inf mif wd0 t = some wd) :
    TriggersEffect m inf mif [t] wd0 wd := by
  unfold triggerStep at h
  rcases textTriggerStep_eq m inf mif wd0 t with ⟨a1, a2, td, a3, a4⟩ | ⟨a1, a4⟩ <;>
    rw [a4] at h <;> simp only [] at h <;>
    rcases soundTriggerStep_eq m inf mif _ t with ⟨b1, b2⟩ | ⟨b1, b2⟩ <;>
    rw [b2] at h
  · cases hsnd : inf.getSound t.soundIndex with
    | none => rw [hsnd] at h; cases h
    | some sound =>
      rw [hsnd] at h
      cases h
      constructor
      · rfl
      · rfl
      · intro key
        simp only [TriggerTable.find_insert_isSome, List.mem_singleton, exists_eq_left]
        constructor
        · rintro (h | h)
          · exact Or.inl h
          · exact Or.inr ⟨h.symm, a1, a2⟩
        · rintro (h | ⟨h, _⟩)
          · exact Or.inl h
          · exact Or.inr h.symm
      · intro key
        simp only [TriggerTable.find_insert_isSome, List.mem_singleton, exists_eq_left]
        constructor
        · rintro (h | h)
          · exact Or.inl h
          · exact Or.inr ⟨h.symm, b1⟩
        · rintro (h | ⟨h, _⟩)
          · exact Or.inl h
          · exact Or.inr h.symm
      · intro key tt h
        rcases TriggerTable.find_insert_value _ _ _ _ _ h with h | ⟨h1, h2, _⟩
        · exact Or.inl h
        · exact Or.inr ⟨t, List.mem_singleton.2 rfl, td, h1.symm, a1, a3, h2⟩
      · intro key snd h
        rcases TriggerTable.find_insert_value _ _ _ _ _ h with h | ⟨h1, h2, _⟩
        · exact Or.inl h
        · exact Or.inr ⟨t, List.mem_singleton.2 rfl, h1.symm, b1, by rw [hsnd, h2]⟩
      · exact fun key tt h => TriggerTable.find_insert_kept _ _ _ _ _ h
      · exact fun key snd h => TriggerTable.find_insert_kept _ _ _ _ _ h
  · cases h
    constructor
    · rfl
    · rfl
    · intro key
      simp only [TriggerTable.find_insert_isSome, List.mem_singleton, exists_eq_left]
      constructor
      · rintro (h | h)
        · exact Or.inl h
        · exact Or.inr ⟨h.symm, a1, a2⟩
      · rintro (h | ⟨h, _⟩)
        · exact Or.inl h
        · exact Or.inr h.symm
    · intro key
      simp only [List.mem_singleton, exists_eq_left]
      constructor
      · exact fun h => Or.inl h
      · rintro (h | ⟨_, h⟩)
        · exact h
        · exact absurd b1 h
    · intro key tt h
      rcases TriggerTable.find_insert_value _ _ _ _ _ h with h | ⟨h1, h2, _⟩
      · exact Or.inl h
      · exact Or.inr ⟨t, List.mem_singleton.2 rfl, td, h1.symm, a1, a3, h2⟩
    · exact fun key snd h => Or.inl h
    · exact fun key tt h => TriggerTable.find_insert_kept _ _ _ _ _ h
    · exact fun key snd h => h
  · cases hsnd : inf.getSound t.soundIndex with
    | none => rw [hsnd] at h; cases h
    | some sound =>
      rw [hsnd] at h
      cases h
      constructor
      · rfl
      · rfl
      · intro key
        simp only [List.mem_singleton, exists_eq_left]
        constructor
        · exact fun h => Or.inl h
        · rintro (h | ⟨_, h⟩)
          · exact h
          · exact absurd h a1
      · intro key
        simp only [TriggerTable.find_insert_isSome, List.mem_singleton, exists_eq_left]
        constructor
        · rintro (h | h)
          · exact Or.inl h
          · exact Or.inr ⟨h.symm, b1⟩
        · rintro (h | ⟨h, _⟩)
          · exact Or.inl h
          · exact Or.inr h.symm
      · exact fun key tt h => Or.inl h
      · intro key snd h
        rcases TriggerTable.find_insert_value _ _ _ _ _ h with h | ⟨h1, h2, _⟩
        · exact Or.inl h
        · exact Or.inr ⟨t, List.mem_singleton.2 rfl, h1.symm, b1, by rw [hsnd, h2]⟩
      · exact fun key tt h => h
      · exact fun key snd h => TriggerTable.find_insert_kept _ _ _ _ _ h
  · cases h
    constructor
    · rfl
    · rfl
    · intro key
      simp only [List.mem_singleton, exists_eq_left]
      constructor
      · exact fun h => Or.inl h
      · rintro (h | ⟨_, h⟩)
        · exact h
        · exact absurd h a1
    · intro key
      simp only [List.mem_singleton, exists_eq_left]
      constructor
      · exact fun h => Or.inl h
      · rintro (h | ⟨_, h⟩)
        · exact h
        · exact absurd b1 h
    · exact fun key tt h => Or.inl h
    · exact fun key snd h => Or.inl h
    · exact fun key tt h => h
    · exact fun key snd h => h

/-- An iteration of the trigger loop returns unless the record has a sound
index for which `getSound` does not return. -/
theorem triggerStep_isSome (m : CoordinateMapper) (inf : INFFile) (mif : MIFFile)
    (wd : WorldData) (t : Trigger) :
    (triggerStep m inf mif wd t).isSome
      ↔ (t.soundIndex ≠ -1 → (inf.getSound t.soundIndex).isSome) := by
  unfold triggerStep
  rcases textTriggerStep_eq m inf mif wd t with ⟨_, _, td, _, a4⟩ | ⟨_, a4⟩ <;>
    rw [a4] <;> simp only [] <;>
    rcases soundTriggerStep_eq m inf mif _ t with ⟨b1, b2⟩ | ⟨b1, b2⟩ <;>
    rw [b2]
  · cases inf.getSound t.soundIndex <;> simp [b1]
  · simp [b1]
  · cases inf.getSound t.soundIndex <;> simp [b1]
  · simp [b1]

/-- The trigger loop returns when `getSound` returns for every sound index of
the records. -/
theorem foldlM_triggerStep_some (m : CoordinateMapper) (inf : INFFile) (mif : MIFFile)
    (trig : List Trigger)
    (hsound : ∀ t ∈ trig, t.soundIndex ≠ -1 → (inf.getSound t.soundIndex).isSome)
    (wd0 : WorldData) : ∃ wd, trig.foldlM (triggerStep m inf mif) wd0 = some wd := by
  induction trig generalizing wd0 with
  | nil => exact ⟨wd0, rfl⟩
  | cons t trig ih =>
    have h1 := (triggerStep_isSome m inf mif wd0 t).2 (hsound t (List.mem_cons_self _ _))
    obtain ⟨wd1, hwd1⟩ := Option.isSome_iff_exists.1 h1
    obtain ⟨wd, hwd⟩ := ih (fun t' h' => hsound t' (List.mem_cons_of_mem _ h')) wd1
    exact ⟨wd, by rw [List.foldlM_cons, hwd1]; exact hwd⟩

/-- The trigger loop does not return when `getSound` does not return for the
sound index of one of the records. -/
theorem foldlM_triggerStep_none (m : CoordinateMapper) (inf : INFFile) (mif : MIFFile)
    (trig : List Trigger) (t : Trigger) (ht : t ∈ trig) (h1 : t.soundIndex ≠ -1)
    (h2 : inf.getSound t.soundIndex = none) (wd0 : WorldData) :
    trig.foldlM (triggerStep m inf mif) wd0 = none := by
  induction trig generalizing wd0 with
  | nil => cases ht
  | cons t' trig ih =>
    rw [List.foldlM_cons]
    cases hstep : triggerStep m inf mif wd0 t' with
    | none => rfl
    | some wd1 =>
      simp only [Option.bind_eq_bind, Option.some_bind]
      rcases List.mem_cons.1 ht with h | h
      · subst h
        have := (triggerStep_isSome m inf mif wd0 t).1 (by rw [hstep]; rfl) h1
        rw [h2] at this
        cases this
      · exact ih h wd1

theorem foldlM_triggerStep_effect (m : CoordinateMapper) (inf : INFFile) (mif : MIFFile)
    (trig : List Trigger) (wd0 wd : WorldData)
    (h : trig.foldlM (triggerStep m inf mif) wd0 = some wd) :
    TriggersEffect m inf mif trig wd0 wd := by
  induction trig generalizing wd0 with
  | nil =>
    cases h
    exact TriggersEffect.nil m inf mif _
  | cons t trig ih =>
    rw [List.foldlM_cons] at h
    cases hstep : triggerStep m inf mif wd0 t with
    | none => rw [hstep] at h; cases h
    | some wd1 =>
      rw [hstep] at h
      exact (triggerStep_effect m inf mif wd0 wd1 t hstep).append (ih wd1 h)

/-- The constructor is the voxel decode followed by the trigger loop, started
with the decoded grid, no entities and empty trigger tables. -/
theorem WorldData.ofMIF_eq (m : CoordinateMapper) (c : MIFConstants) (inf : INFFile)
    (mif : MIFFile) (level : Level) (s : DecodeState) (hlev : mif.levels.head? = some level)
    (hs : decodeVoxels c inf mif = some s) :
    WorldData.ofMIF m c inf mif
      = level.trig.foldlM (triggerStep m inf mif)
          { voxelGrid := s.voxelGrid, entityManager := [], textTriggers := [],
            soundTriggers := [] } := by
  unfold WorldData.ofMIF
  rw [hlev, hs]

/-- The constructor returns for a level with `2 * width * depth` bytes in
`flor` and in `map1` when `getSound` returns for every sound index of its
trigger records; its result has the decoded grid and the trigger tables the
loop builds from empty ones. -/
theorem WorldData.ofMIF_some (m : CoordinateMapper) (c : MIFConstants) (inf : INFFile)
    (mif : MIFFile) (level : Level) (hlev : mif.levels.head? = some level)
    (hfl : level.flor.length = 2 * mif.width * mif.depth)
    (hml : level.map1.length = 2 * mif.width * mif.depth)
    (hsound : ∀ t ∈ level.trig, t.soundIndex ≠ -1 → (inf.getSound t.soundIndex).isSome) :
    ∃ s wd, decodeVoxels c inf mif = some s ∧ WorldData.ofMIF m c inf mif = some wd ∧
      TriggersEffect m inf mif level.trig
        { voxelGrid := s.voxelGrid, entityManager := [], textTriggers := [],
          soundTriggers := [] } wd := by
  have hs := decodeVoxels_eq c inf mif level hlev hfl hml
  obtain ⟨wd, hwd⟩ := foldlM_triggerStep_some m inf mif level.trig hsound
    { voxelGrid := ((levelCells mif level).foldl (voxelStep c inf)
        (initialState mif)).voxelGrid,
      entityManager := [], textTriggers := [], soundTriggers := [] }
  refine ⟨_, wd, hs, ?_, foldlM_triggerStep_effect m inf mif _ _ _ hwd⟩
  rw [WorldData.ofMIF_eq m c inf mif level _ hlev hs, hwd]

/-- C15. For a level whose trigger records have pairwise different keys, and an
INF file whose `getSound` returns for the sound indices of the records: the
constructor returns, and for every record the text-trigger table has an entry
under the record's key exactly when `textIndex != -1` and the INF file has a
text entry for `textIndex`, and the sound-trigger table has an entry under the
same key exactly when `soundIndex != -1`. -/
theorem trigger_tables_entries (m : CoordinateMapper) (c : MIFConstants) (inf : INFFile)
    (mif : MIFFile) (level : Level) (hlev : mif.levels.head? = some level)
    (hfl : level.flor.length = 2 * mif.width * mif.depth)
    (hml : level.map1.length = 2 * mif.width * mif.depth)
    (hsound : ∀ t ∈ level.trig, t.soundIndex ≠ -1 → (inf.getSound t.soundIndex).isSome)
    (hdistinct : (level.trig.map (triggerVoxel m mif)).Nodup) :
    ∃ wd, WorldData.ofMIF m c inf mif = some wd ∧
      ∀ t ∈ level.trig,
        ((wd.getTextTrigger (triggerVoxel m mif t)).isSome
          ↔ (t.textIndex ≠ -1 ∧ inf.hasTextIndex t.textIndex = true)) ∧
        ((wd.getSoundTrigger (triggerVoxel m mif t)).isSome ↔ t.soundIndex ≠ -1) := by
  obtain ⟨s, wd, _, hwd, e⟩ := WorldData.ofMIF_some m c inf mif level hlev hfl hml hsound
  refine ⟨wd, hwd, ?_⟩
  intro t ht
  have hinj := List.inj_on_of_nodup_map hdistinct
  unfold WorldData.getTextTrigger WorldData.getSoundTrigger
  constructor
  · rw [e.text_keys]
    constructor
    · rintro (h | ⟨t', ht', hk, h⟩)
      · cases h
      · rw [hinj ht' ht hk] at h
        exact h
    · exact fun h => Or.inr ⟨t, ht, rfl, h⟩
  · rw [e.sound_keys]
    constructor
    · rintro (h | ⟨t', ht', hk, h⟩)
      · cases h
      · rw [hinj ht' ht hk] at h
        exact h
    · exact fun h => Or.inr ⟨t, ht, rfl, h⟩

/-- C15, on the 8x4 map with the records `(5, 3)` (text 2 and sound 4), `(1, 1)`
(sound 4 only) and `(2, 2)` (text 9, which `triggerINF` lacks). -/
theorem trigger_tables_entries_witness :
    ∃ wd, WorldData.ofMIF mirrorMapper sampleConstants triggerINF
        (triggerMIF [⟨5, 3, 2, 4⟩, ⟨1, 1, -1, 4⟩, ⟨2, 2, 9, -1⟩]) = some wd ∧
      (wd.getTextTrigger (2, 0)).isSome ∧ (wd.getSoundTrigger (2, 0)).isSome ∧
      ¬ (wd.getTextTrigger (6, 2)).isSome ∧ (wd.getSoundTrigger (6, 2)).isSome ∧
      ¬ (wd.getTextTrigger (5, 1)).isSome ∧ ¬ (wd.getSoundTrigger (5, 1)).isSome := by
  obtain ⟨wd, h1, h2⟩ := trigger_tables_entries mirrorMapper sampleConstants triggerINF
    (triggerMIF [⟨5, 3, 2, 4⟩, ⟨1, 1, -1, 4⟩, ⟨2, 2, 9, -1⟩]) _ rfl (by decide) (by decide)
    (by decide) (by decide)
  have a := h2 ⟨5, 3, 2, 4⟩ (by decide)
  have b := h2 ⟨1, 1, -1, 4⟩ (by decide)
  have d := h2 ⟨2, 2, 9, -1⟩ (by decide)
  exact ⟨wd, h1, a.1.2 (by decide), a.2.2 (by decide), fun h => absurd (b.1.1 h) (by decide),
    b.2.2 (by decide), fun h => absurd (d.1.1 h) (by decide),
    fun h => absurd (d.2.1 h) (by decide)⟩

/-- C16 (amended). The keys of the trigger tables are the transform applied
with width minus one and depth minus one: when the constructor returns (which
it does when `getSound` returns for the sound indices in use), every key of the
text-trigger table and of the sound-trigger table is
`arenaVoxelToNewVoxel((x, y), W - 1, D - 1)` for a record `(x, y)` of the level
that qualifies for that table, and every qualifying record has its entry under
that key. -/
theorem trigger_key (m : CoordinateMapper) (c : MIFConstants) (inf : INFFile)
    (mif : MIFFile) (level : Level) (hlev : mif.levels.head? = some level)
    (hfl : level.flor.length = 2 * mif.width * mif.depth)
    (hml : level.map1.length = 2 * mif.width * mif.depth)
    (hsound : ∀ t ∈ level.trig, t.soundIndex ≠ -1 → (inf.getSound t.soundIndex).isSome) :
    ∃ wd, WorldData.ofMIF m c inf mif = some wd ∧
      (∀ key, (wd.getTextTrigger key).isSome ↔
        ∃ t ∈ level.trig,
          m.arenaVoxelToNewVoxel (t.x, t.y) ((mif.width : Int) - 1) ((mif.depth : Int) - 1) = key ∧
            t.textIndex ≠ -1 ∧ inf.hasTextIndex t.textIndex = true) ∧
      (∀ key, (wd.getSoundTrigger key).isSome ↔
        ∃ t ∈ level.trig,
          m.arenaVoxelToNewVoxel (t.x, t.y) ((mif.width : Int) - 1) ((mif.depth : Int) - 1) = key ∧
            t.soundIndex ≠ -1) := by
  obtain ⟨s, wd, _, hwd, e⟩ := WorldData.ofMIF_some m c inf mif level hlev hfl hml hsound
  refine ⟨wd, hwd, ?_, ?_⟩
  · intro key
    unfold WorldData.getTextTrigger
    rw [e.text_keys]
    constructor
    · rintro (h | h)
      · cases h
      · exact h
    · exact fun h => Or.inr h
  · intro key
    unfold WorldData.getSoundTrigger
    rw [e.sound_keys]
    constructor
    · rintro (h | h)
      · cases h
      · exact h
    · exact fun h => Or.inr h

/-- C16 (amended), on the 8x4 map with the record `(5, 3)`: the only key of the
text-trigger table is the transform of `(5, 3)` with 7 and 3. -/
theorem trigger_key_witness :
    ∃ wd, WorldData.ofMIF mirrorMapper sampleConstants triggerINF
        (triggerMIF [⟨5, 3, 2, -1⟩]) = some wd ∧
      (wd.getTextTrigger (mirrorMapper.arenaVoxelToNewVoxel (5, 3) 7 3)).isSome ∧
      ¬ (wd.getTextTrigger (mirrorMapper.arenaVoxelToNewVoxel (5, 3) 8 4)).isSome := by
  obtain ⟨wd, h1, h2, _⟩ := trigger_key mirrorMapper sampleConstants triggerINF
    (triggerMIF [⟨5, 3, 2, -1⟩]) _ rfl (by decide) (by decide) (by decide)
  refine ⟨wd, h1, (h2 _).2 ⟨⟨5, 3, 2, -1⟩, by decide, by decide⟩, ?_⟩
  intro h
  obtain ⟨t, ht, hk, _⟩ := (h2 _).1 h
  have ht' : t = ⟨5, 3, 2, -1⟩ := by simpa using ht
  subst ht'
  revert hk
  decide

/-- C16 (counterexample). On the 8x4 map with the single record
`{x: 5, y: 3, textIndex: 2, soundIndex: -1}`, for every coordinate transform
that tells the dimensions `(8, 4)` from `(7, 3)` at the point `(5, 3)`: the
constructor returns and the text-trigger table has no entry under
`arenaVoxelToNewVoxel((5, 3), 8, 4)`, the transform applied with the width and
depth of the map; the mirror transform is one such. -/
theorem trigger_key_counterexample :
    (∀ (m : CoordinateMapper) (c : MIFConstants),
      m.arenaVoxelToNewVoxel (5, 3) 8 4 ≠ m.arenaVoxelToNewVoxel (5, 3) 7 3 →
      ∃ wd, WorldData.ofMIF m c triggerINF (triggerMIF [⟨5, 3, 2, -1⟩]) = some wd ∧
        wd.getTextTrigger (m.arenaVoxelToNewVoxel (5, 3) (triggerMIF [⟨5, 3, 2, -1⟩]).width
          (triggerMIF [⟨5, 3, 2, -1⟩]).depth) = none) ∧
    mirrorMapper.arenaVoxelToNewVoxel (5, 3) 8 4 ≠ mirrorMapper.arenaVoxelToNewVoxel (5, 3) 7 3 := by
  refine ⟨?_, by decide⟩
  intro m c hne
  obtain ⟨s, wd, _, hwd, e⟩ := WorldData.ofMIF_some m c triggerINF
    (triggerMIF [⟨5, 3, 2, -1⟩]) _ rfl (by decide) (by decide) (by decide)
  refine ⟨wd, hwd, ?_⟩
  unfold WorldData.getTextTrigger
  rw [← Option.not_isSome_iff_eq_none, e.text_keys]
  rintro (h | ⟨t, ht, hk, _⟩)
  · cases h
  · have ht' : t = ⟨5, 3, 2, -1⟩ := by simpa using ht
    subst ht'
    exact hne hk.symm

/-- C17. When the constructor returns (which it does when `getSound` returns
for the sound indices in use), every `TextTrigger` in the text-trigger table has
`hasBeenDisplayed() = false`, and its text and `isSingleDisplay()` are the text
and the `displayedOnce` flag of the INF text entry of a record with that key;
and when the level has the single record
`{x: 5, y: 3, textIndex: 2, soundIndex: -1}` and text entry 2 is
`{"Welcome", true}`, the text-trigger table is exactly one entry, under the
record's key, holding "Welcome", single display and not yet displayed, and the
sound-trigger table is empty. -/
theorem text_trigger_contents (m : CoordinateMapper) (c : MIFConstants) (inf : INFFile)
    (mif : MIFFile) (level : Level) (hlev : mif.levels.head? = some level)
    (hfl : level.flor.length = 2 * mif.width * mif.depth)
    (hml : level.map1.length = 2 * mif.width * mif.depth)
    (hsound : ∀ t ∈ level.trig, t.soundIndex ≠ -1 → (inf.getSound t.soundIndex).isSome) :
    ∃ wd, WorldData.ofMIF m c inf mif = some wd ∧
      (∀ key tt, wd.getTextTrigger key = some tt →
        tt.hasBeenDisplayed = false ∧
        ∃ t ∈ level.trig, ∃ td, triggerVoxel m mif t = key ∧
          inf.getText t.textIndex = some td ∧
          tt.getText = td.text ∧ tt.isSingleDisplay = td.displayedOnce) ∧
      (level.trig = [⟨5, 3, 2, -1⟩] →
        inf.getText 2 = some { text := "Welcome", displayedOnce := true } →
        wd.textTriggers = [(triggerVoxel m mif ⟨5, 3, 2, -1⟩,
          { text := "Welcome", displayedOnce := true, previouslyDisplayed := false })] ∧
        (∀ tt ∈ wd.textTriggers.map Prod.snd, tt.hasBeenDisplayed = false) ∧
        wd.soundTriggers = []) := by
  obtain ⟨s, wd, hs, hwd, e⟩ := WorldData.ofMIF_some m c inf mif level hlev hfl hml hsound
  refine ⟨wd, hwd, ?_, ?_⟩
  · intro key tt htt
    unfold WorldData.getTextTrigger at htt
    rcases e.text_values key tt htt with h | ⟨t, ht, td, hk, _, htd, rfl⟩
    · cases h
    · exact ⟨rfl, t, ht, td, hk, htd, rfl, rfl⟩
  · intro htrig htext
    have hwd' := hwd
    rw [WorldData.ofMIF_eq m c inf mif level s hlev hs, htrig] at hwd'
    have hhas : inf.hasTextIndex 2 = true := by
      unfold INFFile.hasTextIndex
      unfold INFFile.getText at htext
      rw [htext]; rfl
    simp only [List.foldlM_cons, List.foldlM_nil, triggerStep, textTriggerStep, soundTriggerStep,
      hhas, htext] at hwd'
    simp only [bne_iff_ne, ne_eq, Bool.and_true, Option.bind_eq_bind] at hwd'
    simp at hwd'
    subst hwd'
    simp [TriggerTable.insert, TriggerTable.find, TextTrigger.create,
      TextTrigger.hasBeenDisplayed]

/-- C17, on the 8x4 map with the record `{5, 3, 2, -1}` and `triggerINF`. -/
theorem text_trigger_contents_witness :
    ∃ wd, WorldData.ofMIF mirrorMapper sampleConstants triggerINF
        (triggerMIF [⟨5, 3, 2, -1⟩]) = some wd ∧
      wd.textTriggers = [((2, 0),
        { text := "Welcome", displayedOnce := true, previouslyDisplayed := false })] ∧
      wd.soundTriggers = [] := by
  obtain ⟨wd, h1, _, h3⟩ := text_trigger_contents mirrorMapper sampleConstants triggerINF
    (triggerMIF [⟨5, 3, 2, -1⟩]) _ rfl (by decide) (by decide) (by decide)
  obtain ⟨ha, _, hb⟩ := h3 rfl rfl
  exact ⟨wd, h1, ha, hb⟩

/-- What a returning constructor ran: the decode of the first level and the
trigger loop over its records. -/
theorem WorldData.ofMIF_inv (m : CoordinateMapper) (c : MIFConstants) (inf : INFFile)
    (mif : MIFFile) (wd : WorldData) (h : WorldData.ofMIF m c inf mif = some wd) :
    ∃ level s, mif.levels.head? = some level ∧ decodeVoxels c inf mif = some s ∧
      level.trig.foldlM (triggerStep m inf mif)
        { voxelGrid := s.voxelGrid, entityManager := [], textTriggers := [],
          soundTriggers := [] } = some wd := by
  unfold WorldData.ofMIF at h
  split at h
  · next level s hlev hs => exact ⟨level, s, hlev, hs, h⟩
  · cases h

/-- C18. The text lookup is guarded and the sound lookup is not.  A record
whose text index the INF file lacks is skipped and the other records are
processed (first conjunct, on the 8x4 map).  For a sound index the INF file
lacks there is no such skip: in every run of the constructor that returns,
every record with `soundIndex != -1` has an entry in the sound-trigger table
under its key, whatever the INF file holds (second conjunct); and when
`getSound` does not return for the missing index the constructor does not
return, so no record is processed (third conjunct). -/
theorem sound_lookup_unguarded :
    (∃ wd, WorldData.ofMIF mirrorMapper sampleConstants triggerINF
        (triggerMIF [⟨5, 3, 9, -1⟩, ⟨1, 1, 2, 4⟩]) = some wd ∧
      wd.textTriggers = [((6, 2),
        { text := "Welcome", displayedOnce := true, previouslyDisplayed := false })] ∧
      wd.soundTriggers = [((6, 2), "DRUMS.VOC")]) ∧
    (∀ (m : CoordinateMapper) (c : MIFConstants) (inf : INFFile) (mif : MIFFile)
      (level : Level) (wd : WorldData), mif.levels.head? = some level →
      WorldData.ofMIF m c inf mif = some wd →
      ∀ t ∈ level.trig, t.soundIndex ≠ -1 →
        (wd.getSoundTrigger (triggerVoxel m mif t)).isSome) ∧
    (∀ (m : CoordinateMapper) (c : MIFConstants) (inf : INFFile) (mif : MIFFile)
      (level : Level), mif.levels.head? = some level →
      ∀ t ∈ level.trig, t.soundIndex ≠ -1 → inf.getSound t.soundIndex = none →
        WorldData.ofMIF m c inf mif = none) ∧
    triggerINF.getSound 9 = none ∧
    WorldData.ofMIF mirrorMapper sampleConstants triggerINF
        (triggerMIF [⟨5, 3, -1, 9⟩, ⟨1, 1, 2, 4⟩]) = none := by
  have h3 : ∀ (m : CoordinateMapper) (c : MIFConstants) (inf : INFFile) (mif : MIFFile)
      (level : Level), mif.levels.head? = some level →
      ∀ t ∈ level.trig, t.soundIndex ≠ -1 → inf.getSound t.soundIndex = none →
        WorldData.ofMIF m c inf mif = none := by
    intro m c inf mif level hlev t ht h1 h2
    cases hwd : WorldData.ofMIF m c inf mif with
    | none => rfl
    | some wd =>
      obtain ⟨level', s, hlev', _, hfold⟩ := WorldData.ofMIF_inv m c inf mif wd hwd
      rw [hlev] at hlev'
      cases hlev'
      rw [foldlM_triggerStep_none m inf mif level.trig t ht h1 h2] at hfold
      cases hfold
  refine ⟨?_, ?_, h3, by decide, ?_⟩
  · obtain ⟨s, wd, hs, hwd, _⟩ := WorldData.ofMIF_some mirrorMapper sampleConstants triggerINF
      (triggerMIF [⟨5, 3, 9, -1⟩, ⟨1, 1, 2, 4⟩]) _ rfl (by decide) (by decide) (by decide)
    refine ⟨wd, hwd, ?_⟩
    rw [WorldData.ofMIF_eq mirrorMapper sampleConstants triggerINF
      (triggerMIF [⟨5, 3, 9, -1⟩, ⟨1, 1, 2, 4⟩])
      { flor := List.replicate 64 0, map1 := List.replicate 64 0,
        trig := [⟨5, 3, 9, -1⟩, ⟨1, 1, 2, 4⟩] } s rfl hs] at hwd
    have hfold : ∀ wd0 : WorldData, wd0.textTriggers = [] → wd0.soundTriggers = [] →
        ∀ wd1, List.foldlM (triggerStep mirrorMapper triggerINF
          (triggerMIF [⟨5, 3, 9, -1⟩, ⟨1, 1, 2, 4⟩])) wd0
            [⟨5, 3, 9, -1⟩, ⟨1, 1, 2, 4⟩] = some wd1 →
        wd1.textTriggers = [((6, 2),
          { text := "Welcome", displayedOnce := true, previouslyDisplayed := false })] ∧
        wd1.soundTriggers = [((6, 2), "DRUMS.VOC")] := by
      intro wd0 ht hs wd1 h
      have e1 : triggerINF.hasTextIndex 9 = false := by decide
      have e2 : triggerINF.hasTextIndex 2 = true := by decide
      have e3 : triggerINF.getText 2 = some { text := "Welcome", displayedOnce := true } := by
        decide
      have e4 : triggerINF.getSound 4 = some "DRUMS.VOC" := by decide
      have e5 : triggerVoxel mirrorMapper (triggerMIF [⟨5, 3, 9, -1⟩, ⟨1, 1, 2, 4⟩])
          ⟨1, 1, 2, 4⟩ = (6, 2) := by decide
      simp only [List.foldlM_cons, List.foldlM_nil, triggerStep, textTriggerStep,
        soundTriggerStep, e1, e2, e3, e4, e5] at h
      simp at h
      subst h
      simp [TriggerTable.insert, TriggerTable.find, TextTrigger.create, ht, hs]
    exact hfold _ rfl rfl wd hwd
  · intro m c inf mif level wd hlev hwd t ht h1
    obtain ⟨level', s, hlev', _, hfold⟩ := WorldData.ofMIF_inv m c inf mif wd hwd
    rw [hlev] at hlev'
    cases hlev'
    have e := foldlM_triggerStep_effect m inf mif _ _ _ hfold
    unfold WorldData.getSoundTrigger
    rw [e.sound_keys]
    exact Or.inr ⟨t, ht, rfl, h1⟩
  · exact h3 mirrorMapper sampleConstants triggerINF _ _ rfl ⟨5, 3, -1, 9⟩ (by decide)
      (by decide) (by decide)

theorem clearEntities_fold (l acc : List Nat) :
    l.foldl (fun remaining id => remaining.filter (fun e => e != id)) acc
      = acc.filter (fun e => decide (e ∉ l)) := by
  induction l generalizing acc with
  | nil => simp
  | cons id l ih =>
    rw [List.foldl_cons, ih, List.filter_filter]
    congr 1
    funext e
    by_cases h1 : e ∈ l <;> by_cases h2 : e = id <;> simp [h1, h2]

/-- The loop "Clear all entities" leaves no entity. -/
theorem clearEntities_eq_nil (entities : List Nat) : clearEntities entities = [] := by
  unfold clearEntities
  rw [clearEntities_fold, List.filter_eq_nil_iff]
  intro e he
  simpa using he

/-- C19 (amended). When the construction of the new `WorldData` does not
return, `loadFromMIF` ends with the caller's state overwritten in part: the X
and Z of the player position are the transformed first start point, the entity
manager is empty, and only the player's Y, the voxel grid and the two trigger
tables are as before the call.  When the construction returns, the world data
is the new one and the player position is the same one. -/
theorem loadFromMIF_overwrites (m : CoordinateMapper) (c : MIFConstants) (mif : MIFFile)
    (inf : INFFile) (t : LoadTarget) (first : ℚ × ℚ)
    (hstart : mif.startPoints.head? = some first) :
    (WorldData.ofMIF m c inf mif = none →
      ∃ t1, loadFromMIF m c mif inf t = LoadResult.failed t1 ∧
        t1.playerPosition = ((m.arenaVoxelToNewVoxelD first mif.width mif.depth).1,
          t.playerPosition.2.1, (m.arenaVoxelToNewVoxelD first mif.width mif.depth).2) ∧
        t1.worldData.entityManager = [] ∧
        t1.worldData.voxelGrid = t.worldData.voxelGrid ∧
        t1.worldData.textTriggers = t.worldData.textTriggers ∧
        t1.worldData.soundTriggers = t.worldData.soundTriggers) ∧
    (∀ wd, WorldData.ofMIF m c inf mif = some wd →
      loadFromMIF m c mif inf t = LoadResult.done
        { playerPosition := ((m.arenaVoxelToNewVoxelD first mif.width mif.depth).1,
            t.playerPosition.2.1, (m.arenaVoxelToNewVoxelD first mif.width mif.depth).2),
          worldData := wd }) := by
  constructor
  · intro h
    unfold loadFromMIF
    rw [hstart]
    simp only [h, clearEntities_eq_nil]
    exact ⟨_, rfl, rfl, rfl, rfl, rfl, rfl⟩
  · intro wd h
    unfold loadFromMIF
    rw [hstart]
    simp only [h]

/-- C19 (amended), on the 8x4 map whose record asks for sound 9, which
`triggerINF` lacks: the load fails, the player has moved from `(0, 0, 0)` to
`(7, 0, 2)` and the entities 3 and 8 are gone. -/
theorem loadFromMIF_overwrites_witness :
    WorldData.ofMIF mirrorMapper sampleConstants triggerINF
        (triggerMIF [⟨5, 3, -1, 9⟩]) = none ∧
    ∃ t1, loadFromMIF mirrorMapper sampleConstants (triggerMIF [⟨5, 3, -1, 9⟩]) triggerINF
        { playerPosition := (0, 0, 0),
          worldData := { voxelGrid := VoxelGrid.create 1 5 1, entityManager := [3, 8],
                         textTriggers := [], soundTriggers := [] } }
        = LoadResult.failed t1 ∧
      t1.playerPosition = (7, 0, 2) ∧ t1.worldData.entityManager = [] := by
  have hnone : WorldData.ofMIF mirrorMapper sampleConstants triggerINF
      (triggerMIF [⟨5, 3, -1, 9⟩]) = none := by
    cases hwd : WorldData.ofMIF mirrorMapper sampleConstants triggerINF
        (triggerMIF [⟨5, 3, -1, 9⟩]) with
    | none => rfl
    | some wd =>
      obtain ⟨level, s, hlev, _, hfold⟩ := WorldData.ofMIF_inv _ _ _ _ wd hwd
      cases hlev
      rw [foldlM_triggerStep_none mirrorMapper triggerINF _ _ ⟨5, 3, -1, 9⟩ (by decide)
        (by decide) (by decide)] at hfold
      cases hfold
  obtain ⟨t1, h1, h2, h3, _⟩ := (loadFromMIF_overwrites mirrorMapper sampleConstants
    (triggerMIF [⟨5, 3, -1, 9⟩]) triggerINF
    { playerPosition := (0, 0, 0),
      worldData := { voxelGrid := VoxelGrid.create 1 5 1, entityManager := [3, 8],
                     textTriggers := [], soundTriggers := [] } } (1, 2) rfl).1 hnone
  refine ⟨hnone, t1, h1, ?_, h3⟩
  rw [h2]
  simp [mirrorMapper, triggerMIF]
  norm_num

/-- C19 (counterexample). A load whose decoding fails and whose caller's state
is not the same as before the call: on a 1x1 map whose level has empty `FLOR`
and `MAP1` arrays (a truncated buffer), whatever the coordinate transform, the
constants and the INF file are, the call does not return, and the caller is
left with the player moved to the transformed start point and without the
entities 3 and 8. -/
theorem load_atomic_counterexample :
    ¬ ∃ (m : CoordinateMapper) (c : MIFConstants) (inf : INFFile),
      loadFromMIF m c
        { width := 1, depth := 1, startPoints := [(1, 2)], levels := [{ flor := [], map1 := [] }] }
        inf
        { playerPosition := (0, 0, 0),
          worldData := { voxelGrid := VoxelGrid.create 1 5 1, entityManager := [3, 8],
                         textTriggers := [], soundTriggers := [] } }
      ≠ LoadResult.failed
        { playerPosition := ((m.arenaVoxelToNewVoxelD (1, 2) 1 1).1, 0,
            (m.arenaVoxelToNewVoxelD (1, 2) 1 1).2),
          worldData := { voxelGrid := VoxelGrid.create 1 5 1, entityManager := [],
                         textTriggers := [], soundTriggers := [] } } := by
  rintro ⟨m, c, inf, h⟩
  apply h
  have hd : decodeVoxels c inf
      { width := 1, depth := 1, startPoints := [(1, 2)], levels := [{ flor := [], map1 := [] }] }
        = none := by
    simp [decodeVoxels, xLoop, zLoop, countDown, cellStep, getNextFloorVoxel, getLE16,
      initialState, List.range_succ]
  unfold loadFromMIF
  simp [WorldData.ofMIF, hd, clearEntities_eq_nil]

/-- C20. Decoding is deterministic: two decodes of the same level with the same
width, depth, constants and INF data, from files that may differ in everything
else (start points, further levels, starting level index), both return, and
they return the same state: the same grid contents, the same descriptor table
(same descriptors at the same indices), the same read positions and the same
two mappings.  So do the two constructors, trigger tables included, whenever
one of them returns. -/
theorem decode_deterministic (m : CoordinateMapper) (c : MIFConstants) (inf : INFFile)
    (mif mif2 : MIFFile) (level : Level)
    (hlev : mif.levels.head? = some level) (hlev2 : mif2.levels.head? = some level)
    (hw : mif2.width = mif.width) (hd : mif2.depth = mif.depth)
    (hfl : level.flor.length = 2 * mif.width * mif.depth)
    (hml : level.map1.length = 2 * mif.width * mif.depth) :
    (∃ s, decodeVoxels c inf mif = some s ∧ decodeVoxels c inf mif2 = some s) ∧
    WorldData.ofMIF m c inf mif2 = WorldData.ofMIF m c inf mif := by
  have h1 := decodeVoxels_eq c inf mif level hlev hfl hml
  have h2 : decodeVoxels c inf mif2 = decodeVoxels c inf mif := by
    unfold decodeVoxels initialState
    rw [hlev, hlev2, hw, hd]
  refine ⟨⟨_, h1, h2.trans h1⟩, ?_⟩
  have h3 : triggerStep m inf mif2 = triggerStep m inf mif := by
    funext wd t
    unfold triggerStep textTriggerStep soundTriggerStep triggerVoxel
    rw [hw, hd]
  unfold WorldData.ofMIF
  rw [h2, hlev, hlev2, h3]

/-- C20, on the 2x2 sample level read from two files that differ in their
start points. -/
theorem decode_deterministic_witness :
    ∃ s, decodeVoxels sampleConstants sampleINF sampleMIF = some s ∧
      decodeVoxels sampleConstants sampleINF
        { sampleMIF with startPoints := [(1, 1)], startingLevelIndex := 3 } = some s := by
  obtain ⟨⟨s, h1, h2⟩, _⟩ := decode_deterministic mirrorMapper sampleConstants sampleINF
    sampleMIF { sampleMIF with startPoints := [(1, 1)], startingLevelIndex := 3 } _ rfl rfl
    rfl rfl (by decide) (by decide)
  exact ⟨s, h1, h2⟩

/-- Bit `0x8000` clear in a 16-bit word: the word is below `0x8000`. -/
theorem lt_of_and_8000_eq_zero {w : Nat} (h16 : w < 65536) (h : w &&& 0x8000 = 0) :
    w < 32768 := by
  have h2 := Nat.and_two_pow w 15
  have h3 : w.testBit 15 = decide (w / 2 ^ 15 % 2 = 1) := Nat.testBit_to_div_mod
  rw [show (0x8000 : Nat) = 2 ^ 15 from rfl, h2, h3] at h
  by_cases hb : w / 2 ^ 15 % 2 = 1
  · simp [hb] at h
    have : w / 2 ^ 15 = w / 32768 := rfl
    omega
  · have : w / 2 ^ 15 = w / 32768 := rfl
    omega

/-- C21. With a first start point, `loadFromMIF` ends (whether or not the
construction of the world data returns) with the player's X and Z set to the
two components of `arenaVoxelToNewVoxel(first start point, width, depth)`, the
transform being given the width and the depth of the map themselves, and with
the player's Y as it was. -/
theorem player_start_position (m : CoordinateMapper) (c : MIFConstants) (mif : MIFFile)
    (inf : INFFile) (t : LoadTarget) (first : ℚ × ℚ)
    (hstart : mif.startPoints.head? = some first) :
    ∃ t1, (loadFromMIF m c mif inf t = LoadResult.done t1 ∨
        loadFromMIF m c mif inf t = LoadResult.failed t1) ∧
      t1.playerPosition.1 = (m.arenaVoxelToNewVoxelD first mif.width mif.depth).1 ∧
      t1.playerPosition.2.2 = (m.arenaVoxelToNewVoxelD first mif.width mif.depth).2 ∧
      t1.playerPosition.2.1 = t.playerPosition.2.1 := by
  unfold loadFromMIF
  rw [hstart]
  cases h : WorldData.ofMIF m c inf mif with
  | none => exact ⟨_, Or.inr rfl, rfl, rfl, rfl⟩
  | some wd => exact ⟨_, Or.inl rfl, rfl, rfl, rfl⟩

/-- C21, on the 8x4 map with the start point `(1, 2)` and the mirror transform:
the player goes from `(0, 9, 0)` to `(7, 9, 2)`, the mirror image within
`(8, 4)`, and not to `(6, 9, 1)`, the mirror image within `(7, 3)`. -/
theorem player_start_position_witness :
    ∃ t1, (loadFromMIF mirrorMapper sampleConstants (triggerMIF []) triggerINF
          { playerPosition := (0, 9, 0),
            worldData := { voxelGrid := VoxelGrid.create 1 5 1, entityManager := [],
                           textTriggers := [], soundTriggers := [] } } = LoadResult.done t1 ∨
        loadFromMIF mirrorMapper sampleConstants (triggerMIF []) triggerINF
          { playerPosition := (0, 9, 0),
            worldData := { voxelGrid := VoxelGrid.create 1 5 1, entityManager := [],
                           textTriggers := [], soundTriggers := [] } } = LoadResult.failed t1) ∧
      t1.playerPosition = (7, 9, 2) ∧
      mirrorMapper.arenaVoxelToNewVoxelD (1, 2) 7 3 = (6, 1) := by
  obtain ⟨t1, h, hx, hz, hy⟩ := player_start_position mirrorMapper sampleConstants
    (triggerMIF []) triggerINF
    { playerPosition := (0, 9, 0),
      worldData := { voxelGrid := VoxelGrid.create 1 5 1, entityManager := [],
                     textTriggers := [], soundTriggers := [] } } (1, 2) rfl
  refine ⟨t1, h, ?_, ?_⟩
  · have e1 : t1.playerPosition.1 = 7 := by
      rw [hx]; simp [mirrorMapper, triggerMIF]; norm_num
    have e2 : t1.playerPosition.2.2 = 2 := by
      rw [hz]; simp [mirrorMapper, triggerMIF]; norm_num
    have e3 : t1.playerPosition.2.1 = 9 := hy
    rcases hp : t1.playerPosition with ⟨a, b, d⟩
    rw [hp] at e1 e2 e3
    simp only at e1 e2 e3
    rw [e1, e2, e3]
  · simp [mirrorMapper]; norm_num

/-- C24. On the `W x 5 x D` grid the constructor creates, the linear index
`x + y*W + z*W*H` of `setVoxel` (with `H = 5`) is smaller than `W*H*D`, the
length of the voxel array, for all `x < W`, `y < 5` (in particular `y = 0` and
`y = 1`) and `z < D`, and two different triples in that range have different
indices. -/
theorem setVoxel_index_in_range (mif : MIFFile) (x y z x' y' z' : Nat)
    (hx : x < mif.width) (hy : y < 5) (hz : z < mif.depth)
    (hx' : x' < mif.width) (hy' : y' < 5) :
    voxelIndex (initialState mif).voxelGrid x y z = x + y * mif.width + z * mif.width * 5 ∧
    voxelIndex (initialState mif).voxelGrid x y z < mif.width * 5 * mif.depth ∧
    voxelIndex (initialState mif).voxelGrid x y z
      < (initialState mif).voxelGrid.voxels.length ∧
    (voxelIndex (initialState mif).voxelGrid x y z
        = voxelIndex (initialState mif).voxelGrid x' y' z' →
      x = x' ∧ y = y' ∧ z = z') := by
  have hs := initialState_shape mif
  refine ⟨voxelIndex_eq hs x y z, ?_, voxelIndex_lt hs hx hy hz, voxelIndex_inj hs hx hy hx' hy'⟩
  rw [voxelIndex_eq hs]
  exact linearIndex_lt hx hy hz

/-- C24, on the 2x2 sample map: `(1, 1, 1)` has index 13 of 20. -/
theorem setVoxel_index_in_range_witness :
    voxelIndex (initialState sampleMIF).voxelGrid 1 1 1 = 13 ∧
    voxelIndex (initialState sampleMIF).voxelGrid 1 1 1 < 2 * 5 * 2 ∧
    (voxelIndex (initialState sampleMIF).voxelGrid 1 1 1
        = voxelIndex (initialState sampleMIF).voxelGrid 0 1 1 → (1 : Nat) = 0) := by
  obtain ⟨h1, h2, _, h4⟩ := setVoxel_index_in_range sampleMIF 1 1 1 0 1 1
    (by decide) (by decide) (by decide) (by decide) (by decide)
  exact ⟨h1, h2, fun h => (h4 h).1⟩

theorem mostSigByte_le (w : Nat) : mostSigByte w ≤ 127 := by
  rw [mostSigByte_eq, and_7F00_shift]
  omega

/-- C25. With `ARENA_UNITS = 128`, for every wall word `w` that takes the
raised-platform branch (its two bytes differ): the height value
`M = (w & 0x7F00) >> 8` is at most 127, the platform height is `M / 128` and is
less than 1, so `1 - M / 128` is positive, the clamp `max(0, .)` returns it
unchanged, and the top V coordinate of the descriptor is `1 - M / 128`, a value
in `[1/128, 1]`. -/
theorem platform_topV_not_clamped (c : MIFConstants) (inf : INFFile) (w : Nat)
    (hunits : c.ARENA_UNITS = 128) (hne : mostSigByte w ≠ leastSigByte w) :
    mostSigByte w ≤ 127 ∧
    platformHeight c w = (mostSigByte w : ℚ) / 128 ∧
    platformHeight c w < 1 ∧
    0 < 1 - platformHeight c w ∧
    max 0 (1 - platformHeight c w) = 1 - (mostSigByte w : ℚ) / 128 ∧
    1 / 128 ≤ max 0 (1 - platformHeight c w) ∧ max 0 (1 - platformHeight c w) ≤ 1 ∧
    wallData c inf w = VoxelData.full (platformWallTextureID w) (capTextureID w)
      (capTextureID w) 0 ((mostSigByte w : ℚ) / 128) (1 - (mostSigByte w : ℚ) / 128) 1 := by
  have hM := mostSigByte_le w
  have hM' : (mostSigByte w : ℚ) ≤ 127 := by exact_mod_cast hM
  have hM0 : (0 : ℚ) ≤ (mostSigByte w : ℚ) := by positivity
  have hh : platformHeight c w = (mostSigByte w : ℚ) / 128 := by
    unfold platformHeight
    rw [hunits]
  have hlt : platformHeight c w < 1 := by
    rw [hh, div_lt_one (by norm_num)]
    linarith
  have hpos : 0 < 1 - platformHeight c w := by linarith
  have hmax : max 0 (1 - platformHeight c w) = 1 - (mostSigByte w : ℚ) / 128 := by
    rw [max_eq_right hpos.le, hh]
  refine ⟨hM, hh, hlt, hpos, hmax, ?_, ?_, ?_⟩
  · rw [hmax]
    have : (mostSigByte w : ℚ) / 128 ≤ 127 / 128 := by
      apply div_le_div_of_nonneg_right hM' (by norm_num)
    linarith
  · rw [hmax]
    have : (0 : ℚ) ≤ (mostSigByte w : ℚ) / 128 := by positivity
    linarith
  · unfold wallData
    rw [if_neg hne]
    unfold platformData
    rw [hmax, hh]

/-- C25, on the platform word `0x1203` (height value `0x12`): the top V
coordinate is `1 - 18/128`. -/
theorem platform_topV_not_clamped_witness :
    platformHeight sampleConstants 0x1203 = 18 / 128 ∧
    max 0 (1 - platformHeight sampleConstants 0x1203) = 1 - 18 / 128 := by
  obtain ⟨_, h2, _, _, h5, _⟩ := platform_topV_not_clamped sampleConstants sampleINF 0x1203
    rfl (by decide)
  have e : mostSigByte 0x1203 = 18 := by decide
  rw [e] at h2 h5
  exact ⟨by simpa using h2, by simpa using h5⟩

/-- C26. Among the 16-bit wall words the decoder classifies as a solid wall (bit
`0x8000` clear, not zero, `mostSigByte` equal to `leastSigByte`), `0x0080` is
one, its texture identifier is 0, and it is the only one with texture
identifier 0; every other one has a texture identifier from 1 to 127.  The
texture identifier is the value all three texture references of the solid wall
descriptor take. -/
theorem solid_wall_texture_zero (c : MIFConstants) (inf : INFFile) (w : Nat)
    (h16 : w < 65536) (hw : isWallVoxel w = true)
    (hsolid : mostSigByte w = leastSigByte w) :
    (wallData c inf w).textureRefs = [mostSigByte w, mostSigByte w, mostSigByte w] ∧
    (mostSigByte w = 0 ↔ w = 0x0080) ∧
    (w ≠ 0x0080 → 1 ≤ mostSigByte w ∧ mostSigByte w ≤ 127) ∧
    (isWallVoxel 0x0080 = true ∧ mostSigByte 0x0080 = leastSigByte 0x0080 ∧
      (wallData c inf 0x0080).textureRefs = [0, 0, 0]) := by
  obtain ⟨h8, h0⟩ := (isWallVoxel_iff w).1 hw
  have hlt := lt_of_and_8000_eq_zero h16 h8
  have hm : mostSigByte w = (w / 256) % 128 := by rw [mostSigByte_eq, and_7F00_shift]
  have hl : leastSigByte w = w % 128 := by rw [leastSigByte_eq, and_007F]
  have hiff : mostSigByte w = 0 ↔ w = 0x0080 := by
    constructor
    · intro h
      have h' : leastSigByte w = 0 := by rw [← hsolid, h]
      rw [hm] at h
      rw [hl] at h'
      omega
    · intro h
      subst h
      decide
  refine ⟨?_, hiff, ?_, by decide, by decide, ?_⟩
  · unfold wallData
    rw [if_pos hsolid]
    rfl
  · intro hne
    have := mostSigByte_le w
    have h1 : mostSigByte w ≠ 0 := fun h => hne (hiff.1 h)
    omega
  · unfold wallData
    rw [if_pos (by decide)]
    rfl

/-- C26, on the solid wall word `0x0707`, texture identifier 7. -/
theorem solid_wall_texture_zero_witness :
    (wallData sampleConstants sampleINF 0x0707).textureRefs = [7, 7, 7] ∧
    (isWallVoxel 0x0080 = true ∧ mostSigByte 0x0080 = leastSigByte 0x0080 ∧
      (wallData sampleConstants sampleINF 0x0080).textureRefs = [0, 0, 0]) := by
  obtain ⟨h1, _, _, h4⟩ := solid_wall_texture_zero sampleConstants sampleINF 0x0707
    (by decide) (by decide) (by decide)
  exact ⟨h1, h4⟩

/-- C27. A floor word `f` whose high byte is 0, read for the column `(x, z)`,
when 0 is none of the chasm identifiers: the decoder returns,
`floorDataMappings` maps `f` to an index `i >= 1`, the descriptor at index `i`
is `VoxelData(0)`, the same content as the air descriptor at index 0, and the
voxel at `(x, 0, z)` holds `i` converted to the `char` of the array, which is
`i` itself exactly when `i < 128` and is 0, the ID of air, when `i` is a
multiple of 256; whereas when the wall word of the column is `0x0000`,
`wallDataMappings` has no entry for it and the voxel at `(x, 1, z)` is still
0. -/
theorem zero_floor_gets_descriptor (c : MIFConstants) (inf : INFFile) (mif : MIFFile)
    (level : Level) (hlev : mif.levels.head? = some level)
    (hfl : level.flor.length = 2 * mif.width * mif.depth)
    (hml : level.map1.length = 2 * mif.width * mif.depth)
    (x z : Nat) (hx : x < mif.width) (hz : z < mif.depth) (f : Nat)
    (hf : getLE16 level.flor (2 * cellNumber mif.width mif.depth x z) = some f)
    (hhigh : (f &&& 0xFF00) >>> 8 = 0) (hchasm : notChasm c 0 = true) :
    ∃ s i, decodeVoxels c inf mif = some s ∧
      s.floorDataMappings.find f = some i ∧ 1 ≤ i ∧
      s.voxelGrid.voxelData[i]? = some (VoxelData.ofId 0) ∧
      s.voxelGrid.voxelData[0]? = some (VoxelData.ofId 0) ∧
      s.voxelGrid.getVoxel x 0 z = some (toChar i) ∧
      (s.voxelGrid.getVoxel x 0 z = some (i : Int) ↔ i < 128) ∧
      (i % 256 = 0 → s.voxelGrid.getVoxel x 0 z = some 0) ∧
      (getLE16 level.map1 (2 * cellNumber mif.width mif.depth x z) = some 0 →
        s.wallDataMappings.find 0 = none ∧ s.voxelGrid.getVoxel x 1 z = some 0) := by
  obtain ⟨s, hs, hc, _, _, hfloor, _, _, hwall⟩ :=
    decodeVoxels_cell c inf mif level hlev hfl hml x z hx hz
  have hq : (cellAt mif level x z).florVoxel = f := wordAt_of_getLE16 hf
  have ht : floorTextureID f = 0 := hhigh
  rw [hq, ht] at hfloor
  obtain ⟨i, hi1, hi2⟩ := hfloor hchasm
  obtain ⟨h1, hd, _⟩ := hc.floor_data f i hi1
  rw [ht] at hd
  have hlt := lt_length_of_getElem?_eq_some hd
  refine ⟨s, i, hs, hi1, h1, hd, hc.air, hi2,
    getVoxel_eq_index_iff hi2, ?_, ?_⟩
  · intro h0
    rw [hi2, (toChar_eq_iff i 0).2 (by omega)]
    rfl
  intro hw
  have hq' : (cellAt mif level x z).map1Voxel = 0 := wordAt_of_getLE16 hw
  rw [hq'] at hwall
  refine ⟨?_, hwall (by decide)⟩
  cases hfind : s.wallDataMappings.find 0 with
  | none => rfl
  | some j =>
    exact absurd (hc.wall_data 0 j hfind).2.2 (by decide)

/-- The 16-bit read at an index whose two bytes exist: low byte first. -/
theorem getLE16_bytes {buf : List Nat} {i : Nat} (h : i + 1 < buf.length) :
    ∃ lo hi, buf[i]? = some lo ∧ buf[i + 1]? = some hi ∧
      getLE16 buf i = some (lo % 256 + 256 * (hi % 256)) := by
  have h0 : i < buf.length := by omega
  refine ⟨buf[i], buf[i + 1], List.getElem?_eq_getElem h0, List.getElem?_eq_getElem h, ?_⟩
  unfold getLE16
  rw [List.getElem?_eq_getElem h0, List.getElem?_eq_getElem h]

/-- C23. For a level whose `flor` and `map1` each hold exactly `2 * W * D` bytes
the decoder returns with both read indices at `2 * W * D`; and for every
`k < W * D` the first `k` iterations return and leave both read indices at
`2 * k`, the bytes `2 * k` and `2 * k + 1` exist in both arrays, and the
iteration for the `k`-th cell reads one floor word and one wall word, each from
those two bytes with the low byte first, advancing each index by two. -/
theorem reads_within_arrays (c : MIFConstants) (inf : INFFile) (mif : MIFFile) (level : Level)
    (hlev : mif.levels.head? = some level)
    (hfl : level.flor.length = 2 * mif.width * mif.depth)
    (hml : level.map1.length = 2 * mif.width * mif.depth) :
    ∃ s, decodeVoxels c inf mif = some s ∧
      s.floorIndex = 2 * mif.width * mif.depth ∧ s.map1Index = 2 * mif.width * mif.depth ∧
      ∀ k, k < mif.width * mif.depth →
        2 * k + 1 < level.flor.length ∧ 2 * k + 1 < level.map1.length ∧
        ∃ sk flo fhi mlo mhi,
          ((cellOrder mif.width mif.depth).take k).foldlM
            (fun st p => cellStep c inf level p.1 p.2 st) (initialState mif) = some sk ∧
          sk.floorIndex = 2 * k ∧ sk.map1Index = 2 * k ∧
          level.flor[2 * k]? = some flo ∧ level.flor[2 * k + 1]? = some fhi ∧
          level.map1[2 * k]? = some mlo ∧ level.map1[2 * k + 1]? = some mhi ∧
          getNextFloorVoxel level sk
            = some (flo % 256 + 256 * (fhi % 256), { sk with floorIndex := 2 * k + 2 }) ∧
          getNextMap1Voxel level { sk with floorIndex := 2 * k + 2 }
            = some (mlo % 256 + 256 * (mhi % 256),
                { sk with floorIndex := 2 * k + 2, map1Index := 2 * k + 2 }) := by
  have hmul : 2 * mif.width * mif.depth = 2 * (mif.width * mif.depth) := by ring
  obtain ⟨s, hs, hsf, hsm⟩ := foldlM_cellStep_some c inf level
    (cellOrder mif.width mif.depth) (initialState mif) 0 rfl rfl
    (by rw [cellOrder_length]; omega) (by rw [cellOrder_length]; omega)
  rw [cellOrder_length, Nat.zero_add] at hsf hsm
  refine ⟨s, ?_, by rw [hsf, hmul], by rw [hsm, hmul], ?_⟩
  · unfold decodeVoxels
    rw [hlev]
    simp only []
    rw [xLoop_eq_foldlM]
    exact hs
  intro k hk
  have hlen : ((cellOrder mif.width mif.depth).take k).length = k := by
    rw [List.length_take, cellOrder_length]; omega
  obtain ⟨sk, hsk, hkf, hkm⟩ := foldlM_cellStep_some c inf level
    ((cellOrder mif.width mif.depth).take k) (initialState mif) 0 rfl rfl
    (by rw [hlen]; omega) (by rw [hlen]; omega)
  rw [hlen, Nat.zero_add] at hkf hkm
  have hf1 : 2 * k + 1 < level.flor.length := by omega
  have hm1 : 2 * k + 1 < level.map1.length := by omega
  obtain ⟨flo, fhi, e1, e2, e3⟩ := getLE16_bytes hf1
  obtain ⟨mlo, mhi, e4, e5, e6⟩ := getLE16_bytes hm1
  refine ⟨hf1, hm1, sk, flo, fhi, mlo, mhi, hsk, hkf, hkm, e1, e2, e4, e5, ?_, ?_⟩
  · unfold getNextFloorVoxel
    rw [hkf, e3]
  · unfold getNextMap1Voxel
    simp only []
    rw [hkm, e6]

/-- C23, on `sampleMIF`: eight bytes of each array are consumed, and the cell
with number 1 reads the bytes 2 and 3. -/
theorem reads_within_arrays_witness :
    ∃ s, decodeVoxels sampleConstants sampleINF sampleMIF = some s ∧
      s.floorIndex = 8 ∧ s.map1Index = 8 ∧
      ∃ sk, ((cellOrder 2 2).take 1).foldlM
            (fun st p => cellStep sampleConstants sampleINF
              { flor := [0x05, 0x02, 0x05, 0x02, 0x05, 0x02, 0x05, 0x02],
                map1 := [0x07, 0x07, 0x03, 0x12, 0x01, 0x80, 0x00, 0x00] } p.1 p.2 st)
            (initialState sampleMIF) = some sk ∧
        getNextMap1Voxel
            { flor := [0x05, 0x02, 0x05, 0x02, 0x05, 0x02, 0x05, 0x02],
              map1 := [0x07, 0x07, 0x03, 0x12, 0x01, 0x80, 0x00, 0x00] }
            { sk with floorIndex := 4 }
          = some (0x1203, { sk with floorIndex := 4, map1Index := 4 }) := by
  obtain ⟨s, h1, h2, h3, h4⟩ := reads_within_arrays sampleConstants sampleINF sampleMIF _ rfl
    (by decide) (by decide)
  obtain ⟨_, _, sk, flo, fhi, mlo, mhi, g1, _, _, _, _, g6, g7, _, g9⟩ := h4 1 (by decide)
  refine ⟨s, h1, h2, h3, sk, g1, ?_⟩
  have a : mlo = 0x03 := by
    have : some mlo = some 0x03 := by rw [← g6]; decide
    exact Option.some.inj this
  have b : mhi = 0x12 := by
    have : some mhi = some 0x12 := by rw [← g7]; decide
    exact Option.some.inj this
  subst a b
  exact g9

theorem TriggerTable.insert_keys_nodup {α : Type} (t : TriggerTable α) (k : Int × Int) (v : α)
    (h : (t.map Prod.fst).Nodup) : ((t.insert k v).map Prod.fst).Nodup := by
  unfold TriggerTable.insert
  cases hf : t.find k with
  | some x => exact h
  | none =>
    simp only [List.map_cons, List.nodup_cons]
    refine ⟨?_, h⟩
    intro hmem
    obtain ⟨p, hp, hpk⟩ := List.mem_map.1 hmem
    unfold TriggerTable.find at hf
    rw [List.lookup_eq_none_iff] at hf
    have := hf p hp
    simp [hpk] at this

/-- What one iteration of the trigger loop leaves in the two tables. -/
theorem triggerStep_find (m : CoordinateMapper) (inf : INFFile) (mif : MIFFile)
    (wd wd1 : WorldData) (t : Trigger) (h : triggerStep m inf mif wd t = some wd1)
    (key : Int × Int) :
    wd1.textTriggers.find key
      = (wd.textTriggers.find key).or (firstTextTrigger m inf mif [t] key) ∧
    wd1.soundTriggers.find key
      = (wd.soundTriggers.find key).or (firstSoundTrigger m inf mif [t] key) ∧
    ((wd.textTriggers.map Prod.fst).Nodup → (wd1.textTriggers.map Prod.fst).Nodup) ∧
    ((wd.soundTriggers.map Prod.fst).Nodup → (wd1.soundTriggers.map Prod.fst).Nodup) := by
  unfold triggerStep at h
  cases h1 : textTriggerStep m inf mif wd t with
  | none => rw [h1] at h; cases h
  | some wd2 =>
    rw [h1] at h
    simp only [] at h
    have ht : wd2.textTriggers.find key
          = (wd.textTriggers.find key).or (firstTextTrigger m inf mif [t] key) ∧
        wd2.soundTriggers = wd.soundTriggers ∧
        ((wd.textTriggers.map Prod.fst).Nodup → (wd2.textTriggers.map Prod.fst).Nodup) := by
      unfold textTriggerStep at h1
      unfold firstTextTrigger
      by_cases hq : (t.textIndex != -1 && inf.hasTextIndex t.textIndex) = true
      · rw [if_pos hq] at h1
        cases htd : inf.getText t.textIndex with
        | none => rw [htd] at h1; cases h1
        | some td =>
          rw [htd] at h1
          simp only [Option.some.injEq] at h1
          subst h1
          refine ⟨?_, rfl, TriggerTable.insert_keys_nodup _ _ _⟩
          simp only [TriggerTable.find_insert, List.find?_cons, List.find?_nil, hq,
            Bool.and_true]
          by_cases hk : triggerVoxel m mif t = key
          · subst hk
            simp only [if_true, decide_True, Option.some_bind, htd, Option.map_some']
            cases wd.textTriggers.find (triggerVoxel m mif t) <;> rfl
          · have hk' : ¬ key = triggerVoxel m mif t := fun e => hk e.symm
            simp only [if_neg hk', hk, decide_False, Option.none_bind]
            cases wd.textTriggers.find key <;> rfl
      · rw [if_neg hq] at h1
        simp only [Option.some.injEq] at h1
        subst h1
        refine ⟨?_, rfl, fun h => h⟩
        have hq' : (t.textIndex != -1 && inf.hasTextIndex t.textIndex) = false := by
          simpa using hq
        simp only [List.find?_cons, List.find?_nil, hq', Bool.and_false, Option.none_bind]
        simp
    have hs : wd1.soundTriggers.find key
          = (wd2.soundTriggers.find key).or (firstSoundTrigger m inf mif [t] key) ∧
        wd1.textTriggers = wd2.textTriggers ∧
        ((wd2.soundTriggers.map Prod.fst).Nodup → (wd1.soundTriggers.map Prod.fst).Nodup) := by
      unfold soundTriggerStep at h
      unfold firstSoundTrigger
      by_cases hq : (t.soundIndex != -1) = true
      · rw [if_pos hq] at h
        cases hsd : inf.getSound t.soundIndex with
        | none => rw [hsd] at h; cases h
        | some sound =>
          rw [hsd] at h
          simp only [Option.some.injEq] at h
          subst h
          refine ⟨?_, rfl, TriggerTable.insert_keys_nodup _ _ _⟩
          simp only [TriggerTable.find_insert, List.find?_cons, List.find?_nil, hq,
            Bool.and_true]
          by_cases hk : triggerVoxel m mif t = key
          · subst hk
            simp only [if_true, decide_True, Option.some_bind, hsd]
            cases wd2.soundTriggers.find (triggerVoxel m mif t) <;> rfl
          · have hk' : ¬ key = triggerVoxel m mif t := fun e => hk e.symm
            simp only [if_neg hk', hk, decide_False, Option.none_bind]
            cases wd2.soundTriggers.find key <;> rfl
      · rw [if_neg hq] at h
        simp only [Option.some.injEq] at h
        subst h
        refine ⟨?_, rfl, fun h => h⟩
        have hq' : (t.soundIndex != -1) = false := by simpa using hq
        simp only [List.find?_cons, List.find?_nil, hq', Bool.and_false, Option.none_bind]
        simp
    obtain ⟨ht1, ht2, ht3⟩ := ht
    obtain ⟨hs1, hs2, hs3⟩ := hs
    refine ⟨by rw [hs2, ht1], by rw [hs1, ht2], fun h => by rw [hs2]; exact ht3 h,
      fun h => hs3 (by rw [ht2]; exact h)⟩


theorem firstTextTrigger_cons (m : CoordinateMapper) (inf : INFFile) (mif : MIFFile)
    (t : Trigger) (ts : List Trigger) (key : Int × Int) :
    firstTextTrigger m inf mif (t :: ts) key
      = (firstTextTrigger m inf mif [t] key).or (firstTextTrigger m inf mif ts key) := by
  unfold firstTextTrigger
  simp only [List.find?_cons, List.find?_nil]
  cases hp : (decide (triggerVoxel m mif t = key) &&
      (t.textIndex != -1 && inf.hasTextIndex t.textIndex)) with
  | false => simp
  | true =>
    have hhas : inf.hasTextIndex t.textIndex = true := by
      simp only [Bool.and_eq_true] at hp
      exact hp.2.2
    obtain ⟨td, htd⟩ := INFFile.getText_of_hasTextIndex hhas
    simp [htd]

theorem firstSoundTrigger_cons (m : CoordinateMapper) (inf : INFFile) (mif : MIFFile)
    (t : Trigger) (ts : List Trigger) (key : Int × Int)
    (h : t.soundIndex ≠ -1 → (inf.getSound t.soundIndex).isSome) :
    firstSoundTrigger m inf mif (t :: ts) key
      = (firstSoundTrigger m inf mif [t] key).or (firstSoundTrigger m inf mif ts key) := by
  unfold firstSoundTrigger
  simp only [List.find?_cons, List.find?_nil]
  cases hp : (decide (triggerVoxel m mif t = key) && t.soundIndex != -1) with
  | false => simp
  | true =>
    have hne : t.soundIndex ≠ -1 := by
      simp only [Bool.and_eq_true, bne_iff_ne] at hp
      exact hp.2
    obtain ⟨sound, hsound⟩ := Option.isSome_iff_exists.1 (h hne)
    simp [hsound]

/-- What the trigger loop leaves in the two tables: under every key, the entry
the table had, or else the entry of the first record with that key that
qualifies; and no key gets a second entry. -/
theorem foldlM_triggerStep_find (m : CoordinateMapper) (inf : INFFile) (mif : MIFFile)
    (trig : List Trigger) (wd0 wd : WorldData)
    (h : trig.foldlM (triggerStep m inf mif) wd0 = some wd) :
    (∀ key, wd.textTriggers.find key
      = (wd0.textTriggers.find key).or (firstTextTrigger m inf mif trig key)) ∧
    (∀ key, wd.soundTriggers.find key
      = (wd0.soundTriggers.find key).or (firstSoundTrigger m inf mif trig key)) ∧
    ((wd0.textTriggers.map Prod.fst).Nodup → (wd.textTriggers.map Prod.fst).Nodup) ∧
    ((wd0.soundTriggers.map Prod.fst).Nodup → (wd.soundTriggers.map Prod.fst).Nodup) := by
  induction trig generalizing wd0 with
  | nil =>
    simp only [List.foldlM_nil] at h
    cases h
    refine ⟨fun key => ?_, fun key => ?_, fun h => h, fun h => h⟩
    · simp [firstTextTrigger]
    · simp [firstSoundTrigger]
  | cons t ts ih =>
    rw [List.foldlM_cons] at h
    cases hstep : triggerStep m inf mif wd0 t with
    | none => rw [hstep] at h; cases h
    | some wd1 =>
      rw [hstep] at h
      simp only [Option.bind_eq_bind, Option.some_bind] at h
      obtain ⟨i1, i2, i3, i4⟩ := ih wd1 h
      have hsome : t.soundIndex ≠ -1 → (inf.getSound t.soundIndex).isSome :=
        (triggerStep_isSome m inf mif wd0 t).1 (by rw [hstep]; rfl)
      refine ⟨fun key => ?_, fun key => ?_, ?_, ?_⟩
      · rw [i1 key, (triggerStep_find m inf mif wd0 wd1 t hstep key).1, Option.or_assoc,
          ← firstTextTrigger_cons]
      · rw [i2 key, (triggerStep_find m inf mif wd0 wd1 t hstep key).2.1, Option.or_assoc,
          ← firstSoundTrigger_cons m inf mif t ts key hsome]
      · exact fun h0 => i3 ((triggerStep_find m inf mif wd0 wd1 t hstep (0, 0)).2.2.1 h0)
      · exact fun h0 => i4 ((triggerStep_find m inf mif wd0 wd1 t hstep (0, 0)).2.2.2 h0)

/-- C28. When the constructor returns (which it does when `getSound` returns
for the sound indices in use), under every key the text-trigger table holds
the text trigger of the first record of the trigger list that has the key and
qualifies for that table, and the sound-trigger table holds the sound of the
first record that has the key and `soundIndex != -1`: a later record with the
same key does not overwrite the entry.  No key occurs twice in either table. -/
theorem first_trigger_kept (m : CoordinateMapper) (c : MIFConstants) (inf : INFFile)
    (mif : MIFFile) (level : Level) (hlev : mif.levels.head? = some level)
    (hfl : level.flor.length = 2 * mif.width * mif.depth)
    (hml : level.map1.length = 2 * mif.width * mif.depth)
    (hsound : ∀ t ∈ level.trig, t.soundIndex ≠ -1 → (inf.getSound t.soundIndex).isSome) :
    ∃ wd, WorldData.ofMIF m c inf mif = some wd ∧
      (∀ key, wd.getTextTrigger key = firstTextTrigger m inf mif level.trig key) ∧
      (∀ key, wd.getSoundTrigger key = firstSoundTrigger m inf mif level.trig key) ∧
      (wd.textTriggers.map Prod.fst).Nodup ∧ (wd.soundTriggers.map Prod.fst).Nodup := by
  obtain ⟨s, wd, hs, hwd, _⟩ := WorldData.ofMIF_some m c inf mif level hlev hfl hml hsound
  have hfold := hwd
  rw [WorldData.ofMIF_eq m c inf mif level s hlev hs] at hfold
  obtain ⟨h1, h2, h3, h4⟩ := foldlM_triggerStep_find m inf mif _ _ _ hfold
  refine ⟨wd, hwd, fun key => ?_, fun key => ?_, h3 List.nodup_nil, h4 List.nodup_nil⟩
  · unfold WorldData.getTextTrigger
    rw [h1 key]
    rfl
  · unfold WorldData.getSoundTrigger
    rw [h2 key]
    rfl

/-- C28, on the 8x4 map whose two records share the voxel `(5, 3)`: the tables
hold the text and the sound of the first record. -/
theorem first_trigger_kept_witness :
    ∃ wd, WorldData.ofMIF mirrorMapper sampleConstants sharedVoxelINF sharedVoxelMIF = some wd ∧
      wd.getTextTrigger (2, 0)
        = some { text := "Welcome", displayedOnce := true, previouslyDisplayed := false } ∧
      wd.getSoundTrigger (2, 0) = some "DRUMS.VOC" ∧
      (wd.textTriggers.map Prod.fst).Nodup ∧ (wd.soundTriggers.map Prod.fst).Nodup := by
  obtain ⟨wd, h1, h2, h3, h4, h5⟩ := first_trigger_kept mirrorMapper sampleConstants
    sharedVoxelINF sharedVoxelMIF _ rfl (by decide) (by decide) (by decide)
  refine ⟨wd, h1, ?_, ?_, h4, h5⟩
  · rw [h2]; decide
  · rw [h3]; decide

/-- When the common part of the four loaders succeeds. -/
theorem loadRawArray_eq_some_iff (layout : TagLayout) (width depth : Nat) (tagStart : List Nat)
    (r : List Nat × Nat) :
    loadRawArray layout width depth tagStart = some r ↔
      layout.declaredSize tagStart = some (2 * width * depth) ∧
      layout.headerSize + 2 * width * depth ≤ tagStart.length ∧
      r = ((tagStart.drop layout.headerSize).take (2 * width * depth),
            layout.headerSize + 2 * width * depth) := by
  unfold loadRawArray
  cases hsize : layout.declaredSize tagStart with
  | none => simp
  | some size =>
    simp only [Option.some.injEq]
    by_cases h : size = 2 * width * depth ∧ layout.headerSize + size ≤ tagStart.length
    · rw [if_pos h]
      obtain ⟨h1, h2⟩ := h
      subst h1
      constructor
      · intro e
        exact ⟨rfl, h2, (Option.some.inj e).symm⟩
      · intro e
        rw [e.2.2]
    · rw [if_neg h]
      constructor
      · intro e
        cases e
      · intro e
        exact absurd ⟨e.1, by rw [e.1]; exact e.2.1⟩ h

/-- When the common part of the four loaders fails. -/
theorem loadRawArray_eq_none_iff (layout : TagLayout) (width depth : Nat) (tagStart : List Nat) :
    loadRawArray layout width depth tagStart = none ↔
      ¬ (layout.declaredSize tagStart = some (2 * width * depth) ∧
        layout.headerSize + 2 * width * depth ≤ tagStart.length) := by
  constructor
  · intro h hok
    have := (loadRawArray_eq_some_iff layout width depth tagStart _).2 ⟨hok.1, hok.2, rfl⟩
    rw [h] at this
    cases this
  · intro h
    cases hr : loadRawArray layout width depth tagStart with
    | none => rfl
    | some r =>
      obtain ⟨h1, h2, _⟩ := (loadRawArray_eq_some_iff layout width depth tagStart r).1 hr
      exact absurd ⟨h1, h2⟩ h

theorem length_take_drop_of_le {buf : List Nat} {a n : Nat} (h : a + n ≤ buf.length) :
    ((buf.drop a).take n).length = n := by
  rw [List.length_take, List.length_drop]
  omega

/-- C22. In the model of the four loaders written from the spec, for a tag
whose declared payload size is `2 * width * depth` and whose payload is all
there: `loadFLOR`, `loadMAP1`, `loadMAP2` and `loadTARG` each succeed, set
their own array of the level to the `2 * width * depth` bytes that follow the
tag header, in order, leave the other members of the level as they were, and
return the header size plus `2 * width * depth`, the offset of the next tag;
and for a tag whose declared size is another one, each of them fails. -/
theorem raw_array_loaders (layout : TagLayout) (width depth : Nat) (level : Level)
    (tagStart : List Nat) :
    (layout.declaredSize tagStart = some (2 * width * depth) →
      layout.headerSize + 2 * width * depth ≤ tagStart.length →
      ((tagStart.drop layout.headerSize).take (2 * width * depth)).length = 2 * width * depth ∧
      (∀ i, i < 2 * width * depth →
        ((tagStart.drop layout.headerSize).take (2 * width * depth))[i]?
          = tagStart[layout.headerSize + i]?) ∧
      loadFLOR layout width depth level tagStart
        = some ({ level with flor := (tagStart.drop layout.headerSize).take (2 * width * depth) },
            layout.headerSize + 2 * width * depth) ∧
      loadMAP1 layout width depth level tagStart
        = some ({ level with map1 := (tagStart.drop layout.headerSize).take (2 * width * depth) },
            layout.headerSize + 2 * width * depth) ∧
      loadMAP2 layout width depth level tagStart
        = some ({ level with map2 := (tagStart.drop layout.headerSize).take (2 * width * depth) },
            layout.headerSize + 2 * width * depth) ∧
      loadTARG layout width depth level tagStart
        = some ({ level with targ := (tagStart.drop layout.headerSize).take (2 * width * depth) },
            layout.headerSize + 2 * width * depth)) ∧
    (layout.declaredSize tagStart ≠ some (2 * width * depth) →
      loadFLOR layout width depth level tagStart = none ∧
      loadMAP1 layout width depth level tagStart = none ∧
      loadMAP2 layout width depth level tagStart = none ∧
      loadTARG layout width depth level tagStart = none) := by
  constructor
  · intro hsize hlen
    have hr := (loadRawArray_eq_some_iff layout width depth tagStart _).2 ⟨hsize, hlen, rfl⟩
    refine ⟨length_take_drop_of_le hlen, ?_, ?_, ?_, ?_, ?_⟩
    · intro i hi
      rw [List.getElem?_take_of_lt hi, List.getElem?_drop]
    · unfold loadFLOR; rw [hr]; rfl
    · unfold loadMAP1; rw [hr]; rfl
    · unfold loadMAP2; rw [hr]; rfl
    · unfold loadTARG; rw [hr]; rfl
  · intro hsize
    have hr := (loadRawArray_eq_none_iff layout width depth tagStart).2 (fun h => hsize h.1)
    refine ⟨?_, ?_, ?_, ?_⟩
    · unfold loadFLOR; rw [hr]; rfl
    · unfold loadMAP1; rw [hr]; rfl
    · unfold loadMAP2; rw [hr]; rfl
    · unfold loadTARG; rw [hr]; rfl

/-- C22, on `sampleTag`: read for a 1x2 map, `loadFLOR` copies the four
payload bytes and returns 10; read for a 2x2 map, whose arrays have eight
bytes, it fails. -/
theorem raw_array_loaders_witness :
    loadFLOR sampleLayout 1 2 {} sampleTag
      = some ({ flor := [0x05, 0x02, 0x06, 0x02] }, 10) ∧
    loadFLOR sampleLayout 2 2 {} sampleTag = none := by
  have h1 := (raw_array_loaders sampleLayout 1 2 {} sampleTag).1 (by decide) (by decide)
  have h2 := (raw_array_loaders sampleLayout 2 2 {} sampleTag).2 (by decide)
  exact ⟨h1.2.2.1, h2.1⟩

/-- C29. The constructor reads the first level of the file only: for two MIF
files with the same width, the same depth and the same first level (with
`2 * width * depth` bytes in `flor` and in `map1`, and `getSound` returning
for the sound indices in use), whatever their further levels, start points and
starting level index are, both constructors return and return the same world
data: the same voxel grid with the same table of voxel data, and the same two
trigger tables. -/
theorem first_level_only (m : CoordinateMapper) (c : MIFConstants) (inf : INFFile)
    (mif mif2 : MIFFile) (level : Level)
    (hlev : mif.levels.head? = some level) (hlev2 : mif2.levels.head? = some level)
    (hw : mif2.width = mif.width) (hd : mif2.depth = mif.depth)
    (hfl : level.flor.length = 2 * mif.width * mif.depth)
    (hml : level.map1.length = 2 * mif.width * mif.depth)
    (hsound : ∀ t ∈ level.trig, t.soundIndex ≠ -1 → (inf.getSound t.soundIndex).isSome) :
    ∃ wd wd2, WorldData.ofMIF m c inf mif = some wd ∧ WorldData.ofMIF m c inf mif2 = some wd2 ∧
      wd2.voxelGrid.voxels = wd.voxelGrid.voxels ∧
      wd2.voxelGrid.voxelData = wd.voxelGrid.voxelData ∧
      wd2.textTriggers = wd.textTriggers ∧ wd2.soundTriggers = wd.soundTriggers ∧
      wd2 = wd := by
  obtain ⟨s, wd, _, hwd, _⟩ := WorldData.ofMIF_some m c inf mif level hlev hfl hml hsound
  have h2 : decodeVoxels c inf mif2 = decodeVoxels c inf mif := by
    unfold decodeVoxels initialState
    rw [hlev, hlev2, hw, hd]
  have h3 : triggerStep m inf mif2 = triggerStep m inf mif := by
    funext wd0 t
    unfold triggerStep textTriggerStep soundTriggerStep triggerVoxel
    rw [hw, hd]
  have h4 : WorldData.ofMIF m c inf mif2 = WorldData.ofMIF m c inf mif := by
    unfold WorldData.ofMIF
    rw [h2, hlev, hlev2, h3]
  exact ⟨wd, wd, hwd, h4.trans hwd, rfl, rfl, rfl, rfl, rfl⟩

/-- C29, on the 8x4 map with one trigger record and a file that has one more
level, other start points and another starting level index. -/
theorem first_level_only_witness :
    ∃ wd, WorldData.ofMIF mirrorMapper sampleConstants triggerINF
        (triggerMIF [⟨5, 3, 2, 4⟩]) = some wd ∧
      WorldData.ofMIF mirrorMapper sampleConstants triggerINF
        { width := 8, depth := 4, startingLevelIndex := 1, startPoints := [(3, 3), (4, 1)],
          levels := [{ flor := List.replicate 64 0, map1 := List.replicate 64 0,
                       trig := [⟨5, 3, 2, 4⟩] },
                     { flor := List.replicate 64 5, map1 := List.replicate 64 7,
                       trig := [⟨1, 1, 2, -1⟩] }] } = some wd := by
  obtain ⟨wd, wd2, h1, h2, _, _, _, _, h7⟩ := first_level_only mirrorMapper sampleConstants
    triggerINF (triggerMIF [⟨5, 3, 2, 4⟩])
    { width := 8, depth := 4, startingLevelIndex := 1, startPoints := [(3, 3), (4, 1)],
      levels := [{ flor := List.replicate 64 0, map1 := List.replicate 64 0,
                   trig := [⟨5, 3, 2, 4⟩] },
                 { flor := List.replicate 64 5, map1 := List.replicate 64 7,
                   trig := [⟨1, 1, 2, -1⟩] }] } _ rfl rfl rfl rfl (by decide) (by decide)
    (by decide)
  subst h7
  exact ⟨wd2, h1, h2⟩

/-- The indices one iteration gives to a floor word and a wall word that have
no descriptor yet: the floor descriptor is appended to the table first, the
wall descriptor after it. -/
theorem voxelStep_new_indices (c : MIFConstants) (inf : INFFile) (s : DecodeState) (q : Cell)
    (hf : notChasm c (floorTextureID q.florVoxel) = true →
      s.floorDataMappings.find q.florVoxel = none)
    (hm : isWallVoxel q.map1Voxel = true → s.wallDataMappings.find q.map1Voxel = none) :
    (notChasm c (floorTextureID q.florVoxel) = true →
      (voxelStep c inf s q).floorDataMappings.find q.florVoxel
        = some s.voxelGrid.voxelData.length) ∧
    (isWallVoxel q.map1Voxel = true →
      (voxelStep c inf s q).wallDataMappings.find q.map1Voxel
        = some (s.voxelGrid.voxelData.length
            + if notChasm c (floorTextureID q.florVoxel) then 1 else 0)) := by
  unfold voxelStep
  rw [floorStep_eq, wallStep_eq]
  cases hn : notChasm c (floorTextureID q.florVoxel) with
  | false =>
    cases hw : isWallVoxel q.map1Voxel with
    | false => simp
    | true =>
      have hm' : (advanceReads s).wallDataMappings.find q.map1Voxel = none := hm hw
      simp only [Bool.false_eq_true, if_false, if_true, false_implies, true_implies, true_and,
        add_zero]
      rw [wallDataIndex_of_none _ hm']
      simp [advanceReads, find_cons]
  | true =>
    have hf' : (advanceReads s).floorDataMappings.find q.florVoxel = none := hf hn
    cases hw : isWallVoxel q.map1Voxel with
    | false =>
      simp only [if_true, Bool.false_eq_true, if_false, false_implies, true_implies, and_true]
      rw [floorDataIndex_of_none hf']
      simp [advanceReads, find_cons]
    | true =>
      simp only [if_true, true_implies]
      rw [floorDataIndex_of_none hf']
      rw [wallDataIndex_of_none _ (by exact hm hw)]
      simp [setVoxel, advanceReads, find_cons]


theorem mapping_length_eq (m : DataMappings) (L : List Nat) (h1 : (m.map Prod.fst).Nodup)
    (h2 : L.Nodup) (h3 : ∀ k, k ∈ m.map Prod.fst ↔ k ∈ L) : m.length = L.length := by
  have h := ((List.perm_ext_iff_of_nodup h1 h2).2 h3).length_eq
  simpa using h

/-- The state reached after a run of cells whose non-chasm floor words are
pairwise different and whose voxel wall words are pairwise different, started
with empty mappings: the table has the air descriptor, one descriptor per
non-chasm floor word and one per voxel wall word of the run. -/
theorem foldl_voxelStep_length (c : MIFConstants) (inf : INFFile) (mif : MIFFile)
    (pre : List Cell) (hin : ∀ q ∈ pre, q.x < mif.width ∧ q.z < mif.depth)
    (hfn : ((pre.filter (fun q => notChasm c (floorTextureID q.florVoxel))).map
      (fun q => q.florVoxel)).Nodup)
    (hwn : ((pre.filter (fun q => isWallVoxel q.map1Voxel)).map (fun q => q.map1Voxel)).Nodup) :
    (pre.foldl (voxelStep c inf) (initialState mif)).voxelGrid.voxelData.length
      = 1 + pre.countP (fun q => notChasm c (floorTextureID q.florVoxel))
          + pre.countP (fun q => isWallVoxel q.map1Voxel) := by
  obtain ⟨p1, _, _, p4, p5, _⟩ := foldl_voxelStep_effect c inf mif pre hin
    (initialState mif) (initialState_consistent c inf mif) (initialState_shape mif)
  have hF := mapping_length_eq _ _ p1.floor_nodup hfn (by
    intro k
    rw [p4]
    simp only [List.mem_map, List.mem_filter]
    constructor
    · rintro (h | ⟨q, hq, hqk, hn⟩)
      · simp [initialState] at h
      · exact ⟨q, ⟨hq, by rw [hqk]; exact hn⟩, hqk⟩
    · rintro ⟨q, ⟨hq, hn⟩, hqk⟩
      exact Or.inr ⟨q, hq, hqk, by rw [← hqk]; exact hn⟩)
  have hW := mapping_length_eq _ _ p1.wall_nodup hwn (by
    intro k
    rw [p5]
    simp only [List.mem_map, List.mem_filter]
    constructor
    · rintro (h | ⟨q, hq, hqk, hn⟩)
      · simp [initialState] at h
      · exact ⟨q, ⟨hq, by rw [hqk]; exact hn⟩, hqk⟩
    · rintro ⟨q, ⟨hq, hn⟩, hqk⟩
      exact Or.inr ⟨q, hq, hqk, by rw [← hqk]; exact hn⟩)
  rw [p1.count, hF, hW, List.length_map, List.length_map, ← List.countP_eq_length_filter,
    ← List.countP_eq_length_filter]

/-- The indices the whole decode gives to the words of the cell with number
`k`, in a level whose non-chasm floor words are pairwise different and whose
voxel wall words are pairwise different: every such word before it has added
one descriptor to the table, which started with the air descriptor. -/
theorem decodeVoxels_fresh_index (c : MIFConstants) (inf : INFFile) (mif : MIFFile)
    (level : Level) (hlev : mif.levels.head? = some level)
    (hfl : level.flor.length = 2 * mif.width * mif.depth)
    (hml : level.map1.length = 2 * mif.width * mif.depth)
    (hfn : ((floorWords mif level).filter (fun f => notChasm c (floorTextureID f))).Nodup)
    (hwn : ((wallWords mif level).filter isWallVoxel).Nodup)
    (k : Nat) (hk : k < mif.width * mif.depth) :
    ∃ s, decodeVoxels c inf mif = some s ∧
      (notChasm c (floorTextureID (wordAt level.flor k)) = true →
        s.floorDataMappings.find (wordAt level.flor k)
          = some (1 + ((floorWords mif level).take k).countP
                (fun f => notChasm c (floorTextureID f))
              + ((wallWords mif level).take k).countP isWallVoxel)) ∧
      (isWallVoxel (wordAt level.map1 k) = true →
        s.wallDataMappings.find (wordAt level.map1 k)
          = some (1 + ((floorWords mif level).take k).countP
                (fun f => notChasm c (floorTextureID f))
              + ((wallWords mif level).take k).countP isWallVoxel
              + if notChasm c (floorTextureID (wordAt level.flor k)) then 1 else 0)) := by
  have hF := levelCells_map_florVoxel mif level hfl
  have hW := levelCells_map_map1Voxel mif level hml
  have hlen : (levelCells mif level).length = mif.width * mif.depth := levelCells_length mif level
  have hget := levelCells_getElem? mif level k hk
  have hsplit : levelCells mif level
      = (levelCells mif level).take k
          ++ ⟨mif.width - 1 - k / mif.depth, mif.depth - 1 - k % mif.depth,
              wordAt level.flor k, wordAt level.map1 k⟩
            :: (levelCells mif level).drop (k + 1) := by
    conv_lhs => rw [← List.take_append_drop k (levelCells mif level)]
    rw [List.drop_eq_getElem_cons (by omega)]
    rw [List.getElem?_eq_getElem (by omega)] at hget
    rw [Option.some.inj hget]
  rw [← hF, List.filter_map] at hfn
  rw [← hW, List.filter_map] at hwn
  rw [← hF, ← hW, ← List.map_take, ← List.map_take, List.countP_map, List.countP_map]
  have hin := levelCells_inside mif level
  have hs := decodeVoxels_eq c inf mif level hlev hfl hml
  generalize hpre : (levelCells mif level).take k = pre at hsplit ⊢
  generalize hpost : (levelCells mif level).drop (k + 1) = post at hsplit
  generalize hq : (⟨mif.width - 1 - k / mif.depth, mif.depth - 1 - k % mif.depth,
      wordAt level.flor k, wordAt level.map1 k⟩ : Cell) = q at hsplit
  have hqf : wordAt level.flor k = q.florVoxel := by rw [← hq]
  have hqw : wordAt level.map1 k = q.map1Voxel := by rw [← hq]
  rw [hqf, hqw]
  rw [hsplit] at hin hfn hwn hs
  simp only [List.filter_append, List.map_append, List.filter_cons] at hfn hwn
  have hinpre : ∀ q' ∈ pre, q'.x < mif.width ∧ q'.z < mif.depth :=
    fun q' h' => hin q' (List.mem_append_left _ h')
  have hinq := hin q (List.mem_append_right _ (List.mem_cons_self _ _))
  have hinpost : ∀ q' ∈ post, q'.x < mif.width ∧ q'.z < mif.depth :=
    fun q' h' => hin q' (List.mem_append_right _ (List.mem_cons_of_mem _ h'))
  obtain ⟨p1, p2, _, p4, p5, _⟩ := foldl_voxelStep_effect c inf mif pre hinpre
    (initialState mif) (initialState_consistent c inf mif) (initialState_shape mif)
  have plen := foldl_voxelStep_length c inf mif pre hinpre (List.Nodup.of_append_left hfn)
    (List.Nodup.of_append_left hwn)
  have hfnew : notChasm c (floorTextureID q.florVoxel) = true →
      (pre.foldl (voxelStep c inf) (initialState mif)).floorDataMappings.find q.florVoxel
        = none := by
    intro hn
    rw [find_eq_none_iff, p4]
    rintro (h | ⟨q', hq', hqf', _⟩)
    · simp [initialState] at h
    · rw [if_pos (by simpa using hn), List.map_cons] at hfn
      have hd := (List.nodup_append.1 hfn).2.2
      exact hd (List.mem_map.2 ⟨q', List.mem_filter.2 ⟨hq', by simpa [Function.comp, hqf'] using hn⟩, hqf'⟩)
        (List.mem_cons_self _ _)
  have hwnew : isWallVoxel q.map1Voxel = true →
      (pre.foldl (voxelStep c inf) (initialState mif)).wallDataMappings.find q.map1Voxel
        = none := by
    intro hn
    rw [find_eq_none_iff, p5]
    rintro (h | ⟨q', hq', hqw', _⟩)
    · simp [initialState] at h
    · rw [if_pos (by simpa using hn), List.map_cons] at hwn
      have hd := (List.nodup_append.1 hwn).2.2
      exact hd (List.mem_map.2 ⟨q', List.mem_filter.2 ⟨hq', by simpa [Function.comp, hqw'] using hn⟩, hqw'⟩)
        (List.mem_cons_self _ _)
  obtain ⟨n1, n2⟩ := voxelStep_new_indices c inf _ q hfnew hwnew
  have e := voxelStep_effect c inf mif _ q p1 p2 hinq.1 hinq.2
  obtain ⟨_, _, hext, _⟩ := foldl_voxelStep_effect c inf mif post hinpost _ e.consistent e.shape
  simp only [List.foldl_append, List.foldl_cons] at hs
  rw [plen] at n1 n2
  exact ⟨_, hs, fun hn => hext.floor _ _ (n1 hn), fun hn => hext.wall _ _ (n2 hn)⟩

theorem tileBytes_succ (n : Nat) (word : Nat → Nat) :
    tileBytes (n + 1) word = tileBytes n word ++ [word n % 256, word n / 256] := by
  unfold tileBytes
  rw [List.range_succ, List.flatMap_append]
  simp

theorem tileBytes_length (n : Nat) (word : Nat → Nat) : (tileBytes n word).length = 2 * n := by
  induction n with
  | zero => rfl
  | succ n ih =>
    rw [tileBytes_succ, List.length_append, ih]
    simp
    omega

theorem tileBytes_getElem? (n : Nat) (word : Nat → Nat) (k : Nat) (hk : k < n) :
    (tileBytes n word)[2 * k]? = some (word k % 256) ∧
    (tileBytes n word)[2 * k + 1]? = some (word k / 256) := by
  induction n with
  | zero => omega
  | succ n ih =>
    rw [tileBytes_succ]
    by_cases h : k < n
    · obtain ⟨h1, h2⟩ := ih h
      rw [List.getElem?_append_left (by rw [tileBytes_length]; omega),
        List.getElem?_append_left (by rw [tileBytes_length]; omega)]
      exact ⟨h1, h2⟩
    · have hkn : k = n := by omega
      subst hkn
      rw [List.getElem?_append_right (by rw [tileBytes_length]),
        List.getElem?_append_right (by rw [tileBytes_length]; omega), tileBytes_length]
      simp

/-- The word with number `k` of `tileBytes n word` is `word k`. -/
theorem wordAt_tileBytes (n : Nat) (word : Nat → Nat) (k : Nat) (hk : k < n)
    (hw : word k < 65536) : wordAt (tileBytes n word) k = word k := by
  obtain ⟨h1, h2⟩ := tileBytes_getElem? n word k hk
  unfold wordAt getLE16
  rw [h1, h2]
  simp only [Option.getD_some]
  omega

theorem narrowingFloorWord_lt (k : Nat) (hk : k < 130) : narrowingFloorWord k < 65536 := by
  unfold narrowingFloorWord
  split <;> omega

theorem narrowingWallWord_lt (k : Nat) (hk : k < 130) : narrowingWallWord k < 65536 := by
  unfold narrowingWallWord
  split_ifs <;> omega

theorem narrowingMIF_floorWords :
    floorWords narrowingMIF
        { flor := tileBytes 130 narrowingFloorWord, map1 := tileBytes 130 narrowingWallWord }
      = (List.range 130).map narrowingFloorWord := by
  unfold floorWords
  rw [levelWords_eq_map narrowingMIF _ (by rw [tileBytes_length]; rfl)]
  apply List.map_congr_left
  intro k hk
  have hk' : k < 130 := by simpa [narrowingMIF] using hk
  exact wordAt_tileBytes 130 _ k hk' (narrowingFloorWord_lt k hk')

theorem narrowingMIF_wallWords :
    wallWords narrowingMIF
        { flor := tileBytes 130 narrowingFloorWord, map1 := tileBytes 130 narrowingWallWord }
      = (List.range 130).map narrowingWallWord := by
  unfold wallWords
  rw [levelWords_eq_map narrowingMIF _ (by rw [tileBytes_length]; rfl)]
  apply List.map_congr_left
  intro k hk
  have hk' : k < 130 := by simpa [narrowingMIF] using hk
  exact wordAt_tileBytes 130 _ k hk' (narrowingWallWord_lt k hk')

theorem narrowingMIF_floor_nodup (c : MIFConstants) :
    ((floorWords narrowingMIF
        { flor := tileBytes 130 narrowingFloorWord, map1 := tileBytes 130 narrowingWallWord }).filter
      (fun f => notChasm c (floorTextureID f))).Nodup := by
  rw [narrowingMIF_floorWords]
  apply List.Nodup.filter
  apply List.Nodup.map_on _ (List.nodup_range 130)
  intro i hi j hj h
  rw [List.mem_range] at hi hj
  unfold narrowingFloorWord at h
  split_ifs at h <;> omega

theorem narrowingMIF_wall_nodup :
    ((wallWords narrowingMIF
        { flor := tileBytes 130 narrowingFloorWord, map1 := tileBytes 130 narrowingWallWord }).filter
      isWallVoxel).Nodup := by
  rw [narrowingMIF_wallWords]
  apply List.Nodup.filter
  apply List.Nodup.map_on _ (List.nodup_range 130)
  intro i hi j hj h
  rw [List.mem_range] at hi hj
  unfold narrowingWallWord at h
  split_ifs at h <;> omega

theorem and_8000_eq_zero_of_lt {w : Nat} (h : w < 32768) : w &&& 0x8000 = 0 := by
  have h2 := Nat.and_two_pow w 15
  have h3 : w.testBit 15 = decide (w / 2 ^ 15 % 2 = 1) := Nat.testBit_to_div_mod
  rw [show (0x8000 : Nat) = 2 ^ 15 from rfl, h2, h3]
  have h4 : w / 2 ^ 15 = 0 := by
    have : w / 2 ^ 15 = w / 32768 := rfl
    omega
  rw [h4]
  rfl

theorem narrowingFloorWord_notChasm (k : Nat) (hk : k < 130) :
    notChasm sampleConstants (floorTextureID (narrowingFloorWord k)) = true := by
  have h : floorTextureID (narrowingFloorWord k) = 0 ∨ floorTextureID (narrowingFloorWord k) = 1 := by
    unfold floorTextureID narrowingFloorWord
    rw [and_FF00_shift]
    split <;> omega
  rcases h with h | h <;> rw [h] <;> decide

theorem narrowingWallWord_isWallVoxel (k : Nat) (hk : k < 130) :
    isWallVoxel (narrowingWallWord k) = decide (1 ≤ k) := by
  by_cases h0 : k = 0
  · subst h0
    decide
  · have h1 : decide (1 ≤ k) = true := by simp; omega
    rw [h1, isWallVoxel_iff]
    constructor
    · apply and_8000_eq_zero_of_lt
      unfold narrowingWallWord
      split_ifs <;> omega
    · unfold narrowingWallWord
      split_ifs <;> omega

theorem narrowingMIF_floor_count (k : Nat) (hk : k ≤ 130) :
    (((List.range 130).map narrowingFloorWord).take k).countP
      (fun f => notChasm sampleConstants (floorTextureID f)) = k := by
  rw [← List.map_take, List.take_range, Nat.min_eq_left hk, List.countP_map]
  have : (List.range k).countP
      ((fun f => notChasm sampleConstants (floorTextureID f)) ∘ narrowingFloorWord)
      = (List.range k).length := by
    rw [List.countP_eq_length]
    intro j hj
    rw [List.mem_range] at hj
    exact narrowingFloorWord_notChasm j (by omega)
  rw [this, List.length_range]

theorem narrowingMIF_wall_count (k : Nat) (hk : k ≤ 130) :
    (((List.range 130).map narrowingWallWord).take k).countP isWallVoxel = k - 1 := by
  rw [← List.map_take, List.take_range, Nat.min_eq_left hk, List.countP_map]
  induction k with
  | zero => rfl
  | succ k ih =>
    rw [List.range_succ, List.countP_append, ih (by omega)]
    simp only [List.countP_cons, List.countP_nil, Function.comp,
      narrowingWallWord_isWallVoxel k (by omega)]
    by_cases h0 : 1 ≤ k
    · simp [h0]
    · have : k = 0 := by omega
      subst this
      simp

/-- The indices of the words of `narrowingMIF` with `sampleConstants`: the
floor word with number `k >= 1` has index `2 * k`, the wall word `2 * k + 1`. -/
theorem narrowingMIF_index (inf : INFFile) (k : Nat) (hk1 : 1 ≤ k) (hk : k < 130) :
    ∃ s, decodeVoxels sampleConstants inf narrowingMIF = some s ∧
      s.floorDataMappings.find (narrowingFloorWord k) = some (2 * k) ∧
      s.wallDataMappings.find (narrowingWallWord k) = some (2 * k + 1) := by
  obtain ⟨s, hs, hf, hw⟩ := decodeVoxels_fresh_index sampleConstants inf narrowingMIF
    { flor := tileBytes 130 narrowingFloorWord, map1 := tileBytes 130 narrowingWallWord }
    rfl (by rw [tileBytes_length]; rfl) (by rw [tileBytes_length]; rfl)
    (narrowingMIF_floor_nodup sampleConstants) narrowingMIF_wall_nodup k hk
  rw [narrowingMIF_floorWords, narrowingMIF_wallWords, narrowingMIF_floor_count k (by omega),
    narrowingMIF_wall_count k (by omega)] at hf hw
  have e1 : wordAt (tileBytes 130 narrowingFloorWord) k = narrowingFloorWord k :=
    wordAt_tileBytes 130 _ k hk (narrowingFloorWord_lt k hk)
  have e2 : wordAt (tileBytes 130 narrowingWallWord) k = narrowingWallWord k :=
    wordAt_tileBytes 130 _ k hk (narrowingWallWord_lt k hk)
  simp only [e1, e2] at hf hw
  have hn := narrowingFloorWord_notChasm k hk
  have hv : isWallVoxel (narrowingWallWord k) = true := by
    rw [narrowingWallWord_isWallVoxel k hk]
    simpa using hk1
  have a1 : 1 + k + (k - 1) = 2 * k := by omega
  have a2 : 1 + k + (k - 1) + 1 = 2 * k + 1 := by omega
  have hf' := hf hn
  have hw' := hw hv
  rw [if_pos hn, a2] at hw'
  rw [a1] at hf'
  exact ⟨s, hs, hf', hw'⟩

theorem getLE16_tileBytes (n : Nat) (word : Nat → Nat) (k : Nat) (hk : k < n)
    (hw : word k < 65536) : getLE16 (tileBytes n word) (2 * k) = some (word k) := by
  rw [getLE16_eq_wordAt (by rw [tileBytes_length]; omega), wordAt_tileBytes n word k hk hw]

/-- C1 fails on `narrowingMIF` with `sampleConstants`: the solid wall word
`0x0202` of the column `(0, 65)` gets the descriptor with index 129, the solid
wall with texture 2, but the voxel at `(0, 1, 65)` holds -127, not 129. -/
theorem solid_wall_descriptor_witness :
    ∃ (s : DecodeState), decodeVoxels sampleConstants sampleINF narrowingMIF = some s ∧
      s.wallDataMappings.find 0x0202 = some 129 ∧
      s.voxelGrid.voxelData[129]? = some (VoxelData.full 2 2 2 0 ((100 : Int) / 128) 0 1) ∧
      s.voxelGrid.getVoxel 0 1 65 = some (-127) ∧
      s.voxelGrid.getVoxel 0 1 65 ≠ some 129 := by
  obtain ⟨s, i, h1, h2, h3, h4, h5⟩ := solid_wall_descriptor sampleConstants sampleINF
    narrowingMIF _ rfl (by rw [tileBytes_length]; rfl) (by rw [tileBytes_length]; rfl)
    0 65 (by decide) (by decide) 0x0202 2
    (getLE16_tileBytes 130 narrowingWallWord 64 (by decide) (by decide))
    (by decide) (by decide) (by decide) (by decide)
  obtain ⟨s', hs', _, hw⟩ := narrowingMIF_index sampleINF 64 (by decide) (by decide)
  rw [h1] at hs'
  cases hs'
  have e : narrowingWallWord 64 = 0x0202 := by decide
  rw [e, h2] at hw
  cases hw
  refine ⟨s, h1, h2, h3, h4, ?_⟩
  intro h
  exact absurd (h5.1 h) (by decide)

/-- C2 fails on `narrowingMIF` with `sampleConstants`: the raised-platform word
`0x0141` of the column `(0, 64)` gets the descriptor with index 131, the
platform of height `1 / ARENA_UNITS`, but the voxel at `(0, 1, 64)` holds -125,
not 131. -/
theorem raised_platform_descriptor_witness :
    ∃ (s : DecodeState), decodeVoxels sampleConstants sampleINF narrowingMIF = some s ∧
      s.wallDataMappings.find 0x0141 = some 131 ∧
      s.voxelGrid.voxelData[131]?
        = some (VoxelData.full 1 4 4 0 ((1 : Nat) / sampleConstants.ARENA_UNITS)
            (max 0 (1 - ((1 : Nat) : ℚ) / sampleConstants.ARENA_UNITS)) 1) ∧
      s.voxelGrid.getVoxel 0 1 64 = some (-125) ∧
      s.voxelGrid.getVoxel 0 1 64 ≠ some 131 := by
  obtain ⟨s, i, h1, h2, h3, h4, h5⟩ := raised_platform_descriptor sampleConstants sampleINF
    narrowingMIF _ rfl (by rw [tileBytes_length]; rfl) (by rw [tileBytes_length]; rfl)
    0 64 (by decide) (by decide) 0x0141 1
    (getLE16_tileBytes 130 narrowingWallWord 65 (by decide) (by decide))
    (by decide) (by decide) (by decide) (by decide)
  obtain ⟨s', hs', _, hw⟩ := narrowingMIF_index sampleINF 65 (by decide) (by decide)
  rw [h1] at hs'
  cases hs'
  have e : narrowingWallWord 65 = 0x0141 := by decide
  rw [e, h2] at hw
  cases hw
  refine ⟨s, h1, h2, h3, h4, ?_⟩
  intro h
  exact absurd (h5.1 h) (by decide)

/-- C6 fails on `narrowingMIF` with `sampleConstants`: the floor word `0x0140`
of the column `(0, 65)` gets the descriptor with index 128, `VoxelData(1)`, but
the voxel at `(0, 0, 65)` holds -128, not 128. -/
theorem floor_descriptor_witness :
    ∃ (s : DecodeState), decodeVoxels sampleConstants sampleINF narrowingMIF = some s ∧
      s.floorDataMappings.find 0x0140 = some 128 ∧
      s.voxelGrid.voxelData[128]? = some (VoxelData.ofId 1) ∧
      s.voxelGrid.getVoxel 0 0 65 = some (-128) ∧
      s.voxelGrid.getVoxel 0 0 65 ≠ some 128 := by
  obtain ⟨s, i, h1, h2, h3, _, h4, h5⟩ := floor_descriptor sampleConstants sampleINF
    narrowingMIF _ rfl (by rw [tileBytes_length]; rfl) (by rw [tileBytes_length]; rfl)
    0 65 (by decide) (by decide) 0x0140
    (getLE16_tileBytes 130 narrowingFloorWord 64 (by decide) (by decide))
    (by decide) (by decide) (by decide)
  obtain ⟨s', hs', hf, _⟩ := narrowingMIF_index sampleINF 64 (by decide) (by decide)
  rw [h1] at hs'
  cases hs'
  have e : narrowingFloorWord 64 = 0x0140 := by decide
  rw [e, h2] at hf
  cases hf
  refine ⟨s, h1, h2, h3, h4, ?_⟩
  intro h
  exact absurd (h5.1 h) (by decide)

/-- C10 fails on `narrowingMIF` with `sampleConstants`: the floor words
`0x0101` of the column `(0, 128)` and `0x0181` of the column `(0, 0)` are
different and get the indices 2 and 258, but both voxels hold 2. -/
theorem floor_indices_equal_iff_witness :
    ∃ (s : DecodeState), decodeVoxels sampleConstants sampleINF narrowingMIF = some s ∧
      s.floorDataMappings.find 0x0101 = some 2 ∧ s.floorDataMappings.find 0x0181 = some 258 ∧
      s.voxelGrid.getVoxel 0 0 128 = some 2 ∧ s.voxelGrid.getVoxel 0 0 0 = some 2 ∧
      s.voxelGrid.getVoxel 0 0 128 = s.voxelGrid.getVoxel 0 0 0 ∧
      (0x0101 : Nat) ≠ 0x0181 := by
  obtain ⟨s, i1, i2, h1, h2, h3, h4, h5, _, _, h8⟩ := floor_indices_equal_iff sampleConstants
    sampleINF narrowingMIF _ rfl (by rw [tileBytes_length]; rfl)
    (by rw [tileBytes_length]; rfl) 0 128 0 0 (by decide) (by decide) (by decide) (by decide)
    0x0101 0x0181
    (getLE16_tileBytes 130 narrowingFloorWord 1 (by decide) (by decide))
    (getLE16_tileBytes 130 narrowingFloorWord 129 (by decide) (by decide))
    (by decide) (by decide)
  obtain ⟨s', hs', hf1, _⟩ := narrowingMIF_index sampleINF 1 (by decide) (by decide)
  rw [h1] at hs'
  cases hs'
  obtain ⟨s', hs', hf2, _⟩ := narrowingMIF_index sampleINF 129 (by decide) (by decide)
  rw [h1] at hs'
  cases hs'
  have e1 : narrowingFloorWord 1 = 0x0101 := by decide
  have e2 : narrowingFloorWord 129 = 0x0181 := by decide
  rw [e1, h2] at hf1
  rw [e2, h3] at hf2
  cases hf1
  cases hf2
  exact ⟨s, h1, h2, h3, h4, h5, h8.2 (by decide), by decide⟩

/-- C27 fails on `narrowingMIF` with `sampleConstants`: the floor word
`0x0000` of the column `(0, 1)` gets the descriptor with index 256,
`VoxelData(0)`, but the voxel at `(0, 0, 1)` holds 0, the ID of air: the column
reads back as empty. -/
theorem zero_floor_gets_descriptor_witness :
    ∃ (s : DecodeState), decodeVoxels sampleConstants sampleINF narrowingMIF = some s ∧
      s.floorDataMappings.find 0 = some 256 ∧
      s.voxelGrid.voxelData[256]? = some (VoxelData.ofId 0) ∧
      s.voxelGrid.voxelData[0]? = some (VoxelData.ofId 0) ∧
      s.voxelGrid.getVoxel 0 0 1 = some 0 := by
  obtain ⟨s, i, h1, h2, _, h4, h5, _, _, h8, _⟩ := zero_floor_gets_descriptor sampleConstants
    sampleINF narrowingMIF _ rfl (by rw [tileBytes_length]; rfl)
    (by rw [tileBytes_length]; rfl) 0 1 (by decide) (by decide) 0
    (getLE16_tileBytes 130 narrowingFloorWord 128 (by decide) (by decide))
    (by decide) (by decide)
  obtain ⟨s', hs', hf, _⟩ := narrowingMIF_index sampleINF 128 (by decide) (by decide)
  rw [h1] at hs'
  cases hs'
  have e : narrowingFloorWord 128 = 0 := by decide
  rw [e, h2] at hf
  cases hf
  exact ⟨s, h1, h2, h4, h5, h8 (by decide)⟩

theorem wrapInt_of_range {v : Int} (h1 : -2147483648 ≤ v) (h2 : v ≤ 2147483647) :
    wrapInt v = v := by
  unfold wrapInt
  omega

/-- The clamp from below of a number: a number at least `lo`, and at most `hi`
when the number was at most `hi + step` and `lo <= hi`. -/
theorem stdMax_sub_within (x step lo hi : ℚ) (hstep : 0 ≤ step) (hlo : lo ≤ hi)
    (h : (Double.num x).within lo hi) :
    (stdMax ((Double.num x).sub (Double.num step)) (Double.num lo)).within lo hi := by
  obtain ⟨h1, h2⟩ := h
  simp only [Double.le, decide_eq_true_eq] at h1 h2
  unfold stdMax
  simp only [Double.sub, Double.lt]
  by_cases hc : x - step < lo
  · rw [if_pos (by simpa using hc)]
    exact ⟨by simp [Double.le], by simpa [Double.le] using hlo⟩
  · rw [if_neg (by simpa using hc)]
    constructor
    · simp only [Double.le, decide_eq_true_eq]; linarith
    · simp only [Double.le, decide_eq_true_eq]; linarith

/-- The clamp from above of a number. -/
theorem stdMin_add_within (x step lo hi : ℚ) (hstep : 0 ≤ step) (hlo : lo ≤ hi)
    (h : (Double.num x).within lo hi) :
    (stdMin ((Double.num x).add (Double.num step)) (Double.num hi)).within lo hi := by
  obtain ⟨h1, h2⟩ := h
  simp only [Double.le, decide_eq_true_eq] at h1 h2
  unfold stdMin
  simp only [Double.add, Double.lt]
  by_cases hc : hi < x + step
  · rw [if_pos (by simpa using hc)]
    exact ⟨by simpa [Double.le] using hlo, by simp [Double.le]⟩
  · rw [if_neg (by simpa using hc)]
    constructor
    · simp only [Double.le, decide_eq_true_eq]; linarith
    · simp only [Double.le, decide_eq_true_eq]; linarith

theorem Double.within_num {lo hi : ℚ} {x : Double} (h : x.within lo hi) :
    ∃ q, x = Double.num q := by
  cases x with
  | nan => exact absurd h.1 (by simp [Double.le])
  | num q => exact ⟨q, rfl⟩

/-- A clamp from below leaves a number at least the bound. -/
theorem stdMax_sub_ge (x : Double) (step lo : ℚ) (hx : x ≠ Double.nan) :
    (Double.num lo).le (stdMax (x.sub (Double.num step)) (Double.num lo)) = true := by
  cases x with
  | nan => exact absurd rfl hx
  | num q =>
    unfold stdMax
    simp only [Double.sub, Double.lt]
    by_cases hc : q - step < lo
    · rw [if_pos (by simpa using hc)]
      simp [Double.le]
    · rw [if_neg (by simpa using hc)]
      simp only [Double.le, decide_eq_true_eq]
      linarith

/-- A clamp from above leaves a number at most the bound. -/
theorem stdMin_add_le (x : Double) (step hi : ℚ) (hx : x ≠ Double.nan) :
    (stdMin (x.add (Double.num step)) (Double.num hi)).le (Double.num hi) = true := by
  cases x with
  | nan => exact absurd rfl hx
  | num q =>
    unfold stdMin
    simp only [Double.add, Double.lt]
    by_cases hc : hi < q + step
    · rw [if_pos (by simpa using hc)]
      simp [Double.le]
    · rw [if_neg (by simpa using hc)]
      simp only [Double.le, decide_eq_true_eq]
      linarith

/-- The clamps leave NaN as it is. -/
theorem stdMax_nan (step lo : ℚ) :
    stdMax (Double.nan.sub (Double.num step)) (Double.num lo) = Double.nan := rfl

theorem stdMin_nan (step hi : ℚ) :
    stdMin (Double.nan.add (Double.num step)) (Double.num hi) = Double.nan := rfl

theorem clickButton_inRange (k : OptionsConstants) (hk : k.Ordered) (o : Options)
    (h : o.InRange k) (b : OptionsButton) : (clickButton k o b).InRange k := by
  obtain ⟨a, b', c, d, e, f⟩ := h
  obtain ⟨k1, k2, k3, k4, k5, k6⟩ := hk
  cases b
  case fpsUp => exact ⟨a, b', c, d, e, f⟩
  case fpsDown => exact ⟨a, b', c, d, e, f⟩
  case playerInterface => exact ⟨a, b', c, d, e, f⟩
  case resolutionScaleUp =>
    obtain ⟨q, hq⟩ := Double.within_num a
    refine ⟨?_, b', c, d, e, f⟩
    show (stdMin (o.resolutionScale.add _) _).within _ _
    rw [hq] at a ⊢
    exact stdMin_add_within q _ _ _ (by norm_num) k1 a
  case resolutionScaleDown =>
    obtain ⟨q, hq⟩ := Double.within_num a
    refine ⟨?_, b', c, d, e, f⟩
    show (stdMax (o.resolutionScale.sub _) _).within _ _
    rw [hq] at a ⊢
    exact stdMax_sub_within q _ _ _ (by norm_num) k1 a
  case verticalFOVUp =>
    obtain ⟨q, hq⟩ := Double.within_num b'
    refine ⟨a, ?_, c, d, e, f⟩
    show (stdMin (o.verticalFOV.add _) _).within _ _
    rw [hq] at b' ⊢
    exact stdMin_add_within q _ _ _ (by norm_num) k2 b'
  case verticalFOVDown =>
    obtain ⟨q, hq⟩ := Double.within_num b'
    refine ⟨a, ?_, c, d, e, f⟩
    show (stdMax (o.verticalFOV.sub _) _).within _ _
    rw [hq] at b' ⊢
    exact stdMax_sub_within q _ _ _ (by norm_num) k2 b'
  case cursorScaleUp =>
    obtain ⟨q, hq⟩ := Double.within_num c
    refine ⟨a, b', ?_, d, e, f⟩
    show (stdMin (o.cursorScale.add _) _).within _ _
    rw [hq] at c ⊢
    exact stdMin_add_within q _ _ _ (by norm_num) k3 c
  case cursorScaleDown =>
    obtain ⟨q, hq⟩ := Double.within_num c
    refine ⟨a, b', ?_, d, e, f⟩
    show (stdMax (o.cursorScale.sub _) _).within _ _
    rw [hq] at c ⊢
    exact stdMax_sub_within q _ _ _ (by norm_num) k3 c
  case letterboxAspectUp =>
    obtain ⟨q, hq⟩ := Double.within_num d
    refine ⟨a, b', c, ?_, e, f⟩
    show (stdMin (o.letterboxAspect.add _) _).within _ _
    rw [hq] at d ⊢
    exact stdMin_add_within q _ _ _ (by norm_num) k4 d
  case letterboxAspectDown =>
    obtain ⟨q, hq⟩ := Double.within_num d
    refine ⟨a, b', c, ?_, e, f⟩
    show (stdMax (o.letterboxAspect.sub _) _).within _ _
    rw [hq] at d ⊢
    exact stdMax_sub_within q _ _ _ (by norm_num) k4 d
  case hSensitivityUp =>
    obtain ⟨q, hq⟩ := Double.within_num e
    refine ⟨a, b', c, d, ?_, f⟩
    show (stdMin (o.hSensitivity.add _) _).within _ _
    rw [hq] at e ⊢
    exact stdMin_add_within q _ _ _ (by norm_num) k5 e
  case hSensitivityDown =>
    obtain ⟨q, hq⟩ := Double.within_num e
    refine ⟨a, b', c, d, ?_, f⟩
    show (stdMax (o.hSensitivity.sub _) _).within _ _
    rw [hq] at e ⊢
    exact stdMax_sub_within q _ _ _ (by norm_num) k5 e
  case vSensitivityUp =>
    obtain ⟨q, hq⟩ := Double.within_num f
    refine ⟨a, b', c, d, e, ?_⟩
    show (stdMin (o.vSensitivity.add _) _).within _ _
    rw [hq] at f ⊢
    exact stdMin_add_within q _ _ _ (by norm_num) k6 f
  case vSensitivityDown =>
    obtain ⟨q, hq⟩ := Double.within_num f
    refine ⟨a, b', c, d, e, ?_⟩
    show (stdMax (o.vSensitivity.sub _) _).within _ _
    rw [hq] at f ⊢
    exact stdMax_sub_within q _ _ _ (by norm_num) k6 f

theorem clickButtons_inRange (k : OptionsConstants) (hk : k.Ordered) (clicks : List OptionsButton)
    (o : Options) (h : o.InRange k) : (clickButtons k o clicks).InRange k := by
  induction clicks generalizing o with
  | nil => exact h
  | cons b bs ih => exact ih _ (clickButton_inRange k hk o h b)

/-- One click keeps the target FPS between `MIN_FPS` and five more than it
was, as long as the FPS addition stays in the range of `int`. -/
theorem clickButton_targetFPS (k : OptionsConstants) (hmin : -2147483643 ≤ k.MIN_FPS)
    (o : Options) (h : k.MIN_FPS ≤ o.targetFPS) (hmax : o.targetFPS + 5 ≤ 2147483647)
    (b : OptionsButton) :
    k.MIN_FPS ≤ (clickButton k o b).targetFPS ∧
      (clickButton k o b).targetFPS ≤ o.targetFPS + 5 := by
  cases b
  case fpsUp =>
    show k.MIN_FPS ≤ wrapInt (o.targetFPS + 5) ∧ wrapInt (o.targetFPS + 5) ≤ o.targetFPS + 5
    rw [wrapInt_of_range (by omega) (by omega)]
    omega
  case fpsDown =>
    show k.MIN_FPS ≤ max (wrapInt (o.targetFPS - 5)) k.MIN_FPS ∧
      max (wrapInt (o.targetFPS - 5)) k.MIN_FPS ≤ o.targetFPS + 5
    rw [wrapInt_of_range (by omega) (by omega)]
    exact ⟨le_max_right _ _, max_le (by omega) (by omega)⟩
  all_goals exact ⟨h, by show o.targetFPS ≤ o.targetFPS + 5; omega⟩

theorem clickButtons_targetFPS (k : OptionsConstants) (hmin : -2147483643 ≤ k.MIN_FPS)
    (clicks : List OptionsButton) (o : Options) (h : k.MIN_FPS ≤ o.targetFPS)
    (hmax : o.targetFPS + 5 * clicks.length ≤ 2147483647) :
    k.MIN_FPS ≤ (clickButtons k o clicks).targetFPS := by
  induction clicks generalizing o with
  | nil => exact h
  | cons b bs ih =>
    simp only [List.length_cons, Nat.cast_add, Nat.cast_one] at hmax
    obtain ⟨h1, h2⟩ := clickButton_targetFPS k hmin o h (by omega) b
    exact ih _ h1 (by omega)

theorem clickButtons_fpsUp (k : OptionsConstants) (n : Nat) (o : Options)
    (hlo : -2147483648 ≤ o.targetFPS) (hmax : o.targetFPS + 5 * n ≤ 2147483647) :
    (clickButtons k o (List.replicate n OptionsButton.fpsUp)).targetFPS
      = o.targetFPS + 5 * n := by
  induction n generalizing o with
  | zero => simp [clickButtons]
  | succ n ih =>
    push_cast at hmax
    have hstep : (fpsUpButton o).targetFPS = o.targetFPS + 5 := by
      show wrapInt (o.targetFPS + 5) = _
      exact wrapInt_of_range (by omega) (by omega)
    have := ih (fpsUpButton o) (by rw [hstep]; omega) (by rw [hstep]; omega)
    unfold clickButtons at this ⊢
    rw [List.replicate_succ, List.foldl_cons]
    show (List.foldl (clickButton k) (fpsUpButton o) _).targetFPS = _
    rw [this, hstep]
    push_cast
    ring


/-- C30 as stated fails.  A resolution scale that is NaN is left NaN by the
"down" handler and by the "up" handler, so it is neither at least
`MIN_RESOLUTION_SCALE` nor at most `MAX_RESOLUTION_SCALE`, whatever the
constants are; and a click on the FPS up button at a target FPS of 2147483645
overflows the `int` addition and leaves -2147483646, below every `MIN_FPS`
above that. -/
theorem option_buttons_counterexample :
    (¬ ∃ k : OptionsConstants,
      (Double.num k.MIN_RESOLUTION_SCALE).le
        (resolutionScaleDownButton k
          { sampleOptions with resolutionScale := Double.nan }).resolutionScale = true) ∧
    (¬ ∃ k : OptionsConstants,
      (resolutionScaleUpButton k
          { sampleOptions with resolutionScale := Double.nan }).resolutionScale.le
        (Double.num k.MAX_RESOLUTION_SCALE) = true) ∧
    (fpsUpButton { sampleOptions with targetFPS := 2147483645 }).targetFPS = -2147483646 ∧
    (¬ ∃ k : OptionsConstants, -2147483646 < k.MIN_FPS ∧
      k.MIN_FPS ≤ (clickButtons k { sampleOptions with targetFPS := 2147483645 }
        [OptionsButton.fpsUp]).targetFPS) := by
  refine ⟨?_, ?_, by decide, ?_⟩
  · rintro ⟨k, h⟩
    revert h
    show ¬ ((Double.num k.MIN_RESOLUTION_SCALE).le Double.nan = true)
    simp [Double.le]
  · rintro ⟨k, h⟩
    revert h
    show ¬ (Double.nan.le (Double.num k.MAX_RESOLUTION_SCALE) = true)
    simp [Double.le]
  · rintro ⟨k, h1, h2⟩
    have e : (clickButtons k { sampleOptions with targetFPS := 2147483645 }
        [OptionsButton.fpsUp]).targetFPS = -2147483646 := by
      show wrapInt (2147483645 + 5) = -2147483646
      decide
    rw [e] at h2
    omega

/-- C30, amended. For an option whose value is a number, every "down" handler
leaves it at or above the option's `MIN` constant and every "up" handler except
the FPS one leaves it at or below the option's `MAX` constant, and an option
that is NaN stays NaN; the FPS down handler leaves the target FPS at or above
`MIN_FPS`.  Hence, when every `MIN` is at most its `MAX`, a resolution scale,
vertical FOV, cursor scale, letterbox aspect and the two sensitivities that
start within `[MIN, MAX]` are within `[MIN, MAX]` after any sequence of clicks.
The FPS up handler adds 5 with no upper clamp: a target FPS that starts at or
above `MIN_FPS` stays at or above it, and `n` clicks on the FPS up button raise
it by `5 * n`, for as long as the additions stay within the range of `int`. -/
theorem option_buttons_keep_range (k : OptionsConstants) (o : Options) :
    ((o.resolutionScale ≠ Double.nan →
        (Double.num k.MIN_RESOLUTION_SCALE).le
          (resolutionScaleDownButton k o).resolutionScale = true) ∧
      (o.verticalFOV ≠ Double.nan →
        (Double.num k.MIN_VERTICAL_FOV).le (verticalFOVDownButton k o).verticalFOV = true) ∧
      (o.cursorScale ≠ Double.nan →
        (Double.num k.MIN_CURSOR_SCALE).le (cursorScaleDownButton k o).cursorScale = true) ∧
      (o.letterboxAspect ≠ Double.nan →
        (Double.num k.MIN_LETTERBOX_ASPECT).le
          (letterboxAspectDownButton k o).letterboxAspect = true) ∧
      (o.hSensitivity ≠ Double.nan →
        (Double.num k.MIN_HORIZONTAL_SENSITIVITY).le
          (hSensitivityDownButton k o).hSensitivity = true) ∧
      (o.vSensitivity ≠ Double.nan →
        (Double.num k.MIN_VERTICAL_SENSITIVITY).le
          (vSensitivityDownButton k o).vSensitivity = true) ∧
      k.MIN_FPS ≤ (fpsDownButton k o).targetFPS) ∧
    ((o.resolutionScale ≠ Double.nan →
        (resolutionScaleUpButton k o).resolutionScale.le
          (Double.num k.MAX_RESOLUTION_SCALE) = true) ∧
      (o.verticalFOV ≠ Double.nan →
        (verticalFOVUpButton k o).verticalFOV.le (Double.num k.MAX_VERTICAL_FOV) = true) ∧
      (o.cursorScale ≠ Double.nan →
        (cursorScaleUpButton k o).cursorScale.le (Double.num k.MAX_CURSOR_SCALE) = true) ∧
      (o.letterboxAspect ≠ Double.nan →
        (letterboxAspectUpButton k o).letterboxAspect.le
          (Double.num k.MAX_LETTERBOX_ASPECT) = true) ∧
      (o.hSensitivity ≠ Double.nan →
        (hSensitivityUpButton k o).hSensitivity.le
          (Double.num k.MAX_HORIZONTAL_SENSITIVITY) = true) ∧
      (o.vSensitivity ≠ Double.nan →
        (vSensitivityUpButton k o).vSensitivity.le
          (Double.num k.MAX_VERTICAL_SENSITIVITY) = true)) ∧
    ((o.resolutionScale = Double.nan →
        (resolutionScaleDownButton k o).resolutionScale = Double.nan ∧
          (resolutionScaleUpButton k o).resolutionScale = Double.nan) ∧
      (o.verticalFOV = Double.nan →
        (verticalFOVDownButton k o).verticalFOV = Double.nan ∧
          (verticalFOVUpButton k o).verticalFOV = Double.nan) ∧
      (o.cursorScale = Double.nan →
        (cursorScaleDownButton k o).cursorScale = Double.nan ∧
          (cursorScaleUpButton k o).cursorScale = Double.nan) ∧
      (o.letterboxAspect = Double.nan →
        (letterboxAspectDownButton k o).letterboxAspect = Double.nan ∧
          (letterboxAspectUpButton k o).letterboxAspect = Double.nan) ∧
      (o.hSensitivity = Double.nan →
        (hSensitivityDownButton k o).hSensitivity = Double.nan ∧
          (hSensitivityUpButton k o).hSensitivity = Double.nan) ∧
      (o.vSensitivity = Double.nan →
        (vSensitivityDownButton k o).vSensitivity = Double.nan ∧
          (vSensitivityUpButton k o).vSensitivity = Double.nan)) ∧
    (k.Ordered → o.InRange k → ∀ clicks, (clickButtons k o clicks).InRange k) ∧
    (-2147483648 ≤ o.targetFPS → o.targetFPS + 5 ≤ 2147483647 →
      (fpsUpButton o).targetFPS = o.targetFPS + 5) ∧
    (∀ clicks : List OptionsButton, -2147483643 ≤ k.MIN_FPS → k.MIN_FPS ≤ o.targetFPS →
      o.targetFPS + 5 * clicks.length ≤ 2147483647 →
        k.MIN_FPS ≤ (clickButtons k o clicks).targetFPS) ∧
    (∀ n : Nat, -2147483648 ≤ o.targetFPS → o.targetFPS + 5 * n ≤ 2147483647 →
      (clickButtons k o (List.replicate n OptionsButton.fpsUp)).targetFPS
        = o.targetFPS + 5 * n) := by
  refine ⟨⟨fun h => stdMax_sub_ge _ _ _ h, fun h => stdMax_sub_ge _ _ _ h,
      fun h => stdMax_sub_ge _ _ _ h, fun h => stdMax_sub_ge _ _ _ h,
      fun h => stdMax_sub_ge _ _ _ h, fun h => stdMax_sub_ge _ _ _ h, le_max_right _ _⟩,
    ⟨fun h => stdMin_add_le _ _ _ h, fun h => stdMin_add_le _ _ _ h,
      fun h => stdMin_add_le _ _ _ h, fun h => stdMin_add_le _ _ _ h,
      fun h => stdMin_add_le _ _ _ h, fun h => stdMin_add_le _ _ _ h⟩,
    ⟨?_, ?_, ?_, ?_, ?_, ?_⟩,
    fun hk h clicks => clickButtons_inRange k hk clicks o h,
    fun h1 h2 => by
      show wrapInt (o.targetFPS + 5) = _
      exact wrapInt_of_range (by omega) (by omega),
    fun clicks hmin h hmax => clickButtons_targetFPS k hmin clicks o h hmax,
    fun n hlo hmax => clickButtons_fpsUp k n o hlo hmax⟩
  · intro h
    exact ⟨by show stdMax (o.resolutionScale.sub _) _ = _; rw [h]; rfl,
      by show stdMin (o.resolutionScale.add _) _ = _; rw [h]; rfl⟩
  · intro h
    exact ⟨by show stdMax (o.verticalFOV.sub _) _ = _; rw [h]; rfl,
      by show stdMin (o.verticalFOV.add _) _ = _; rw [h]; rfl⟩
  · intro h
    exact ⟨by show stdMax (o.cursorScale.sub _) _ = _; rw [h]; rfl,
      by show stdMin (o.cursorScale.add _) _ = _; rw [h]; rfl⟩
  · intro h
    exact ⟨by show stdMax (o.letterboxAspect.sub _) _ = _; rw [h]; rfl,
      by show stdMin (o.letterboxAspect.add _) _ = _; rw [h]; rfl⟩
  · intro h
    exact ⟨by show stdMax (o.hSensitivity.sub _) _ = _; rw [h]; rfl,
      by show stdMin (o.hSensitivity.add _) _ = _; rw [h]; rfl⟩
  · intro h
    exact ⟨by show stdMax (o.vSensitivity.sub _) _ = _; rw [h]; rfl,
      by show stdMin (o.vSensitivity.add _) _ = _; rw [h]; rfl⟩

/-- C30, amended, on the sample options: after three clicks the options are
still in range, and 200 clicks on the FPS up button give a target FPS of
1060. -/
theorem option_buttons_keep_range_witness :
    (clickButtons sampleOptionsConstants sampleOptions
      [OptionsButton.verticalFOVUp, OptionsButton.cursorScaleDown,
        OptionsButton.fpsDown]).InRange sampleOptionsConstants ∧
    (clickButtons sampleOptionsConstants sampleOptions
      (List.replicate 200 OptionsButton.fpsUp)).targetFPS = 1060 := by
  obtain ⟨_, _, _, h4, _, _, h7⟩ :=
    option_buttons_keep_range sampleOptionsConstants sampleOptions
  refine ⟨h4 ?_ ?_ _, ?_⟩
  · constructor <;> simp [sampleOptionsConstants] <;> norm_num
  · constructor <;>
      simp [Double.within, Double.le, sampleOptionsConstants, sampleOptions] <;> norm_num
  · rw [h7 200 (by decide) (by decide)]
    decide

end OpenTESArena
